import Mathlib

/-!
# Place action: contact solver and placement kinematics

A shallow embedding of `src/base/place_action_helpers.cpp`.

The source computes in `double` (and, for differentiation, in Eigen's
`AutoDiffScalar`); the functions are written here once over a linearly ordered
field `K` together with a record `ScalarFns K` of the four scalar functions the
source takes from the numeric library (`sqrt`, `atan2`, `sin`, `cos`).  The
theorems instantiate `K` with the real numbers, so they describe the code in exact
arithmetic: rounding, infinities and NaNs of `double` are outside the model.

Eigen's operations (`cross`, `normalized`, `AngleAxis`, `Quaternion`, `Transform`)
are written out from the formulas Eigen 3.3 uses.  `abs` is the absolute value.
Reading `vec[i]` is `List.getD vec i 0`; every index the source reads is in range
as soon as the vertex list is non-empty.
-/

namespace PlaceAction

/-! ## Scalars and small vectors -/

/-- The scalar functions of the numeric type. -/
structure ScalarFns (K : Type) where
  /-- Square root. -/
  sqrt : K → K
  /-- Two-argument arctangent, `atan2 y x`. -/
  atan2 : K → K → K
  /-- Sine. -/
  sin : K → K
  /-- Cosine. -/
  cos : K → K

/-- `Eigen::Vector2d`. -/
@[ext] structure Vec2 (K : Type) where
  x : K
  y : K
  deriving DecidableEq

/-- `Eigen::Vector3d`, components `(0)`, `(1)`, `(2)`. -/
@[ext] structure Vec3 (K : Type) where
  x : K
  y : K
  z : K
  deriving DecidableEq

/-- `Eigen::Matrix3d`, entry `mij` is `coeffRef(i,j)`. -/
@[ext] structure Mat3 (K : Type) where
  m00 : K
  m01 : K
  m02 : K
  m10 : K
  m11 : K
  m12 : K
  m20 : K
  m21 : K
  m22 : K
  deriving DecidableEq

section defs

variable {K : Type} [LinearOrderedField K]

/-- `const double EPS = 1e-9`. -/
def EPS : K := 1 / 1000000000

/-- `const double LARGE_EPS = 1e-3`. -/
def LARGE_EPS : K := 1 / 1000

/-- `const double INF = 1e9` of `find_three_points`. -/
def INF : K := 1000000000

namespace Vec3

instance : Zero (Vec3 K) := ⟨⟨0, 0, 0⟩⟩
instance : Add (Vec3 K) := ⟨fun a b => ⟨a.x + b.x, a.y + b.y, a.z + b.z⟩⟩
instance : Sub (Vec3 K) := ⟨fun a b => ⟨a.x - b.x, a.y - b.y, a.z - b.z⟩⟩
instance : Neg (Vec3 K) := ⟨fun a => ⟨-a.x, -a.y, -a.z⟩⟩

/-- `Vector3d::UnitZ()`. -/
def UnitZ : Vec3 K := ⟨0, 0, 1⟩

/-- Scalar times vector. -/
def smul (c : K) (a : Vec3 K) : Vec3 K := ⟨c * a.x, c * a.y, c * a.z⟩

/-- Vector divided by a scalar. -/
def sdiv (a : Vec3 K) (c : K) : Vec3 K := ⟨a.x / c, a.y / c, a.z / c⟩

/-- `a.cross(b)`. -/
def cross (a b : Vec3 K) : Vec3 K :=
  ⟨a.y * b.z - a.z * b.y, a.z * b.x - a.x * b.z, a.x * b.y - a.y * b.x⟩

/-- `a.squaredNorm()`. -/
def squaredNorm (a : Vec3 K) : K := a.x * a.x + a.y * a.y + a.z * a.z

/-- `a.norm()`. -/
def norm (F : ScalarFns K) (a : Vec3 K) : K := F.sqrt (squaredNorm a)

/-- `a.normalized()`: Eigen divides by the norm only when the squared norm is
positive and returns the vector itself otherwise. -/
def normalized (F : ScalarFns K) (a : Vec3 K) : Vec3 K :=
  if squaredNorm a > 0 then sdiv a (F.sqrt (squaredNorm a)) else a

/-- `a.head<2>()`. -/
def head2 (a : Vec3 K) : Vec2 K := ⟨a.x, a.y⟩

end Vec3

namespace Mat3

/-- `Matrix3d::Identity()`. -/
def identity : Mat3 K := ⟨1, 0, 0, 0, 1, 0, 0, 0, 1⟩

/-- Matrix times vector. -/
def mulVec (m : Mat3 K) (v : Vec3 K) : Vec3 K :=
  ⟨m.m00 * v.x + m.m01 * v.y + m.m02 * v.z,
   m.m10 * v.x + m.m11 * v.y + m.m12 * v.z,
   m.m20 * v.x + m.m21 * v.y + m.m22 * v.z⟩

/-- Matrix times matrix. -/
def mul (a b : Mat3 K) : Mat3 K :=
  ⟨a.m00 * b.m00 + a.m01 * b.m10 + a.m02 * b.m20,
   a.m00 * b.m01 + a.m01 * b.m11 + a.m02 * b.m21,
   a.m00 * b.m02 + a.m01 * b.m12 + a.m02 * b.m22,
   a.m10 * b.m00 + a.m11 * b.m10 + a.m12 * b.m20,
   a.m10 * b.m01 + a.m11 * b.m11 + a.m12 * b.m21,
   a.m10 * b.m02 + a.m11 * b.m12 + a.m12 * b.m22,
   a.m20 * b.m00 + a.m21 * b.m10 + a.m22 * b.m20,
   a.m20 * b.m01 + a.m21 * b.m11 + a.m22 * b.m21,
   a.m20 * b.m02 + a.m21 * b.m12 + a.m22 * b.m22⟩

/-- `m.transpose()`. -/
def transpose (m : Mat3 K) : Mat3 K :=
  ⟨m.m00, m.m10, m.m20, m.m01, m.m11, m.m21, m.m02, m.m12, m.m22⟩

end Mat3

/-! ## Rotations -/

/-- `Eigen::AngleAxis<T>`: an angle and an axis (which Eigen expects to be of
unit length but does not normalise). -/
structure AngleAxis (K : Type) where
  angle : K
  axis : Vec3 K

/-- `Eigen::Quaternion<T>`, coefficients `w()`, `x()`, `y()`, `z()`. -/
@[ext] structure Quat (K : Type) where
  w : K
  x : K
  y : K
  z : K
  deriving DecidableEq

namespace AngleAxis

/-- `AngleAxis::toRotationMatrix()`. -/
def toRotationMatrix (F : ScalarFns K) (r : AngleAxis K) : Mat3 K :=
  let sin_axis := Vec3.smul (F.sin r.angle) r.axis
  let c := F.cos r.angle
  let cos1_axis := Vec3.smul (1 - c) r.axis
  ⟨cos1_axis.x * r.axis.x + c,
   cos1_axis.x * r.axis.y - sin_axis.z,
   cos1_axis.x * r.axis.z + sin_axis.y,
   cos1_axis.x * r.axis.y + sin_axis.z,
   cos1_axis.y * r.axis.y + c,
   cos1_axis.y * r.axis.z - sin_axis.x,
   cos1_axis.x * r.axis.z - sin_axis.y,
   cos1_axis.y * r.axis.z + sin_axis.x,
   cos1_axis.z * r.axis.z + c⟩

/-- `AngleAxis * Vector3`: the rotation matrix applied to the vector. -/
def rotate (F : ScalarFns K) (r : AngleAxis K) (v : Vec3 K) : Vec3 K :=
  (toRotationMatrix F r).mulVec v

end AngleAxis

namespace Quat

/-- `Quaternion(const AngleAxis&)`: `w = cos(angle/2)`, `vec = sin(angle/2) * axis`. -/
def ofAngleAxis (F : ScalarFns K) (r : AngleAxis K) : Quat K :=
  let ha := (1 / 2) * r.angle
  let v := Vec3.smul (F.sin ha) r.axis
  ⟨F.cos ha, v.x, v.y, v.z⟩

/-- Quaternion product. -/
def mul (a b : Quat K) : Quat K :=
  ⟨a.w * b.w - a.x * b.x - a.y * b.y - a.z * b.z,
   a.w * b.x + a.x * b.w + a.y * b.z - a.z * b.y,
   a.w * b.y + a.y * b.w + a.z * b.x - a.x * b.z,
   a.w * b.z + a.z * b.w + a.x * b.y - a.y * b.x⟩

/-- `q.vec()`. -/
def vec (q : Quat K) : Vec3 K := ⟨q.x, q.y, q.z⟩

/-- `Quaternion::toRotationMatrix()`. -/
def toRotationMatrix (q : Quat K) : Mat3 K :=
  let tx := 2 * q.x
  let ty := 2 * q.y
  let tz := 2 * q.z
  let twx := tx * q.w
  let twy := ty * q.w
  let twz := tz * q.w
  let txx := tx * q.x
  let txy := ty * q.x
  let txz := tz * q.x
  let tyy := ty * q.y
  let tyz := tz * q.y
  let tzz := tz * q.z
  ⟨1 - (tyy + tzz), txy - twz, txz + twy,
   txy + twz, 1 - (txx + tzz), tyz - twx,
   txz - twy, tyz + twx, 1 - (txx + tyy)⟩

/-- `Quaternion * Vector3` (`_transformVector`). -/
def transformVector (q : Quat K) (v : Vec3 K) : Vec3 K :=
  let uv := q.vec.cross v
  let uv := uv + uv
  v + Vec3.smul q.w uv + q.vec.cross uv

end Quat

/-! ## The robust argmin -/

/-- `argmin`: the loop `for (i = 1; i < vec.size(); i++)` as a fold over
`1, …, size - 1`, carrying `min_id`. -/
def argmin (vec : List K) : Nat :=
  (List.range' 1 (vec.length - 1)).foldl
    (fun min_id i => if vec.getD min_id 0 - EPS > vec.getD i 0 then i else min_id) 0

/-! ## The contact solver `find_three_points` -/

/-- The two `std::runtime_error`s of `find_three_points` and the one of the
`place_calculator` constructor. -/
inductive PlaceError where
  /-- "Balanced at the first rotation". -/
  | balanced_at_the_first_rotation
  /-- "Balanced at the second rotation". -/
  | balanced_at_the_second_rotation
  /-- "Unstable after placing". -/
  | unstable_after_placing
  deriving DecidableEq, Repr

/-- What `find_three_points` writes to its reference parameters. -/
structure ThreePoints (K : Type) where
  ground_touch_vertex_id_1 : Nat
  ground_touch_vertex_id_2 : Nat
  ground_touch_vertex_id_3 : Nat
  rotation : Quat K
  stability : Bool

namespace find_three_points

variable (F : ScalarFns K) (current_vertices : List (Vec3 K))
  (current_center_of_gravity : Vec3 K)

/-- `current_vertices_z[i] = current_vertices[i](2)`. -/
def current_vertices_z : List K := current_vertices.map (fun v => v.z)

/-- The first contact: the (robustly) lowest vertex. -/
def ground_touch_vertex_id_1 : Nat := argmin (current_vertices_z current_vertices)

/-- The cross product `first_axis` is initialised with, before normalisation. -/
def first_axis_raw : Vec3 K :=
  (current_vertices.getD (ground_touch_vertex_id_1 current_vertices) 0
    - current_center_of_gravity).cross Vec3.UnitZ

/-- `first_axis` after `first_axis = first_axis.normalized()`. -/
def first_axis : Vec3 K :=
  (first_axis_raw current_vertices current_center_of_gravity).normalized F

/-- `first_angles`. -/
def first_angles : List K :=
  (List.range current_vertices.length).map fun i =>
    let v1v2 := current_vertices.getD i 0
      - current_vertices.getD (ground_touch_vertex_id_1 current_vertices) 0
    if i = ground_touch_vertex_id_1 current_vertices then INF
    else F.atan2 |v1v2.z|
      ((first_axis F current_vertices current_center_of_gravity).y * v1v2.x
        - (first_axis F current_vertices current_center_of_gravity).x * v1v2.y)

/-- The second contact. -/
def ground_touch_vertex_id_2 : Nat :=
  argmin (first_angles F current_vertices current_center_of_gravity)

/-- `first_rotation`. -/
def first_rotation : AngleAxis K :=
  ⟨(first_angles F current_vertices current_center_of_gravity).getD
      (ground_touch_vertex_id_2 F current_vertices current_center_of_gravity) 0,
   first_axis F current_vertices current_center_of_gravity⟩

/-- `rotated_center_of_gravity`. -/
def rotated_center_of_gravity : Vec3 K :=
  (first_rotation F current_vertices current_center_of_gravity).rotate F
    current_center_of_gravity

/-- `rotated_vertices`. -/
def rotated_vertices : List (Vec3 K) :=
  current_vertices.map
    ((first_rotation F current_vertices current_center_of_gravity).rotate F)

/-- `second_axis` as first assigned (before the sign flip). -/
def second_axis_init : Vec3 K :=
  ((rotated_vertices F current_vertices current_center_of_gravity).getD
      (ground_touch_vertex_id_2 F current_vertices current_center_of_gravity) 0
    - (rotated_vertices F current_vertices current_center_of_gravity).getD
      (ground_touch_vertex_id_1 current_vertices) 0).normalized F

/-- `direction`. -/
def direction : K :=
  ((rotated_center_of_gravity F current_vertices current_center_of_gravity
      - (rotated_vertices F current_vertices current_center_of_gravity).getD
          (ground_touch_vertex_id_1 current_vertices) 0).cross
    (second_axis_init F current_vertices current_center_of_gravity)).z

/-- `second_axis` after `if (direction < 0.0) second_axis = -second_axis`. -/
def second_axis : Vec3 K :=
  if direction F current_vertices current_center_of_gravity < 0 then
    -second_axis_init F current_vertices current_center_of_gravity
  else second_axis_init F current_vertices current_center_of_gravity

/-- `second_angles`. -/
def second_angles : List K :=
  (List.range current_vertices.length).map fun i =>
    let v1v3 := (rotated_vertices F current_vertices current_center_of_gravity).getD i 0
      - (rotated_vertices F current_vertices current_center_of_gravity).getD
          (ground_touch_vertex_id_1 current_vertices) 0
    if i = ground_touch_vertex_id_1 current_vertices
        ∨ i = ground_touch_vertex_id_2 F current_vertices current_center_of_gravity then INF
    else F.atan2 |v1v3.z|
      ((second_axis F current_vertices current_center_of_gravity).y * v1v3.x
        - (second_axis F current_vertices current_center_of_gravity).x * v1v3.y)

/-- The third contact. -/
def ground_touch_vertex_id_3 : Nat :=
  argmin (second_angles F current_vertices current_center_of_gravity)

/-- `second_rotation`. -/
def second_rotation : AngleAxis K :=
  ⟨(second_angles F current_vertices current_center_of_gravity).getD
      (ground_touch_vertex_id_3 F current_vertices current_center_of_gravity) 0,
   second_axis F current_vertices current_center_of_gravity⟩

/-- `rotation = second_rotation * first_rotation`: the product of two `AngleAxis`
is the product of their quaternions. -/
def rotation : Quat K :=
  (Quat.ofAngleAxis F (second_rotation F current_vertices current_center_of_gravity)).mul
    (Quat.ofAngleAxis F (first_rotation F current_vertices current_center_of_gravity))

/-- `final_center_of_gravity`. -/
def final_center_of_gravity : Vec3 K :=
  (second_rotation F current_vertices current_center_of_gravity).rotate F
    (rotated_center_of_gravity F current_vertices current_center_of_gravity)

/-- `final_vertices`. -/
def final_vertices : List (Vec3 K) :=
  (rotated_vertices F current_vertices current_center_of_gravity).map
    ((second_rotation F current_vertices current_center_of_gravity).rotate F)

/-- `min_z`. -/
def min_z : K :=
  ((final_vertices F current_vertices current_center_of_gravity).getD
    (ground_touch_vertex_id_1 current_vertices) 0).z

/-- `points_on_ground`. -/
def points_on_ground : List (Vec2 K) :=
  ((final_vertices F current_vertices current_center_of_gravity).filter
    (fun vertex => vertex.z ≤ min_z F current_vertices current_center_of_gravity + EPS)).map
    Vec3.head2

/-- `stability`; `check_inside_convex_hull` (of `convex_hull.hpp`) is a parameter. -/
def stability (check_inside_convex_hull : Vec2 K → List (Vec2 K) → Bool) : Bool :=
  check_inside_convex_hull
    (final_center_of_gravity F current_vertices current_center_of_gravity).head2
    (points_on_ground F current_vertices current_center_of_gravity)

end find_three_points

/-- `find_three_points`: the two throws in the order of the source, then the
values written to the reference parameters. -/
def find_three_points (F : ScalarFns K)
    (check_inside_convex_hull : Vec2 K → List (Vec2 K) → Bool)
    (current_vertices : List (Vec3 K)) (current_center_of_gravity : Vec3 K)
    (balance_check : Bool) : Except PlaceError (ThreePoints K) :=
  if balance_check = true ∧
      (find_three_points.first_axis_raw current_vertices current_center_of_gravity).norm F
        < EPS then
    .error .balanced_at_the_first_rotation
  else if balance_check = true ∧
      |find_three_points.direction F current_vertices current_center_of_gravity| < EPS then
    .error .balanced_at_the_second_rotation
  else
    .ok
      { ground_touch_vertex_id_1 :=
          find_three_points.ground_touch_vertex_id_1 current_vertices
        ground_touch_vertex_id_2 :=
          find_three_points.ground_touch_vertex_id_2 F current_vertices
            current_center_of_gravity
        ground_touch_vertex_id_3 :=
          find_three_points.ground_touch_vertex_id_3 F current_vertices
            current_center_of_gravity
        rotation :=
          find_three_points.rotation F current_vertices current_center_of_gravity
        stability :=
          find_three_points.stability F current_vertices current_center_of_gravity
            check_inside_convex_hull }

/-! ## Rigid transforms -/

/-- `Eigen::Transform<T, 3, Eigen::Isometry>`: the linear part and the translation
(the last row of the stored 4x4 matrix is `0 0 0 1`). -/
@[ext] structure Transform (K : Type) where
  linear : Mat3 K
  translation : Vec3 K
  deriving DecidableEq

namespace Transform

/-- `Transform::Identity()`. -/
def identity : Transform K := ⟨Mat3.identity, 0⟩

/-- The invariant of the `Isometry` mode: the linear part is orthogonal, so that
the transpose `inverse()` takes is the inverse. -/
def IsIsometry (a : Transform K) : Prop :=
  a.linear.mul a.linear.transpose = Mat3.identity
    ∧ a.linear.transpose.mul a.linear = Mat3.identity

instance (a : Transform K) : Decidable (IsIsometry a) := by
  unfold IsIsometry; infer_instance

/-- `Transform * Vector3`. -/
def apply (a : Transform K) (v : Vec3 K) : Vec3 K := a.linear.mulVec v + a.translation

/-- `Transform * Transform`. -/
def mul (a b : Transform K) : Transform K :=
  ⟨a.linear.mul b.linear, a.linear.mulVec b.translation + a.translation⟩

/-- `Transform::inverse()` in `Isometry` mode: the linear part is transposed. -/
def inverse (a : Transform K) : Transform K :=
  ⟨a.linear.transpose, -(a.linear.transpose.mulVec a.translation)⟩

/-- `Transform * Translation`. -/
def translate (a : Transform K) (t : Vec3 K) : Transform K :=
  ⟨a.linear, a.linear.mulVec t + a.translation⟩

/-- `Transform * R` for a rotation `R` (an `AngleAxis` or a `Quaternion`), given by
its rotation matrix. -/
def rotate (a : Transform K) (r : Mat3 K) : Transform K := ⟨a.linear.mul r, a.translation⟩

end Transform

/-! ## The placement kinematics `calculate_transform_after_placing` -/

/-- The arguments of `calculate_transform_after_placing`. -/
structure Placing (K : Type) where
  old_transform : Transform K
  center_of_gravity : Vec3 K
  ground_touch_vertex_1 : Vec3 K
  ground_touch_vertex_2 : Vec3 K
  ground_touch_vertex_3 : Vec3 K
  support_surface : K
  gripper_transform : Transform K

namespace Placing

variable (F : ScalarFns K) (a : Placing K)

/-- `current_transform = gripper_transform_T * old_transform`. -/
def current_transform : Transform K := a.gripper_transform.mul a.old_transform

/-- `current_center_of_gravity`. -/
def current_center_of_gravity : Vec3 K := a.current_transform.apply a.center_of_gravity

/-- `current_ground_touch_vertex_1`. -/
def current_ground_touch_vertex_1 : Vec3 K :=
  a.current_transform.apply a.ground_touch_vertex_1

/-- `current_ground_touch_vertex_2`. -/
def current_ground_touch_vertex_2 : Vec3 K :=
  a.current_transform.apply a.ground_touch_vertex_2

/-- `current_ground_touch_vertex_3`. -/
def current_ground_touch_vertex_3 : Vec3 K :=
  a.current_transform.apply a.ground_touch_vertex_3

/-- `v1v2`. -/
def v1v2 : Vec3 K := a.current_ground_touch_vertex_2 - a.current_ground_touch_vertex_1

/-- The cross product `first_axis` is the normalisation of. -/
def first_axis_raw : Vec3 K :=
  (a.current_ground_touch_vertex_1 - a.current_center_of_gravity).cross Vec3.UnitZ

/-- `first_axis`. -/
def first_axis : Vec3 K := a.first_axis_raw.normalized F

/-- `first_angle`. -/
def first_angle : K :=
  F.atan2 |a.v1v2.z| ((a.first_axis F).y * a.v1v2.x - (a.first_axis F).x * a.v1v2.y)

/-- `first_rotation`. -/
def first_rotation : AngleAxis K := ⟨a.first_angle F, a.first_axis F⟩

/-- `rotated_center_of_gravity`. -/
def rotated_center_of_gravity : Vec3 K :=
  (a.first_rotation F).rotate F a.current_center_of_gravity

/-- `rotated_ground_touch_vertex_1`. -/
def rotated_ground_touch_vertex_1 : Vec3 K :=
  (a.first_rotation F).rotate F a.current_ground_touch_vertex_1

/-- `rotated_ground_touch_vertex_2`. -/
def rotated_ground_touch_vertex_2 : Vec3 K :=
  (a.first_rotation F).rotate F a.current_ground_touch_vertex_2

/-- `rotated_ground_touch_vertex_3`. -/
def rotated_ground_touch_vertex_3 : Vec3 K :=
  (a.first_rotation F).rotate F a.current_ground_touch_vertex_3

/-- `v1v3`. -/
def v1v3 : Vec3 K := a.rotated_ground_touch_vertex_3 F - a.rotated_ground_touch_vertex_1 F

/-- `second_axis` as first assigned (before the sign flip). -/
def second_axis_init : Vec3 K :=
  (a.rotated_ground_touch_vertex_2 F - a.rotated_ground_touch_vertex_1 F).normalized F

/-- `second_axis` after the conditional negation. -/
def second_axis : Vec3 K :=
  if ((a.rotated_center_of_gravity F - a.rotated_ground_touch_vertex_1 F).cross
      (a.second_axis_init F)).z < 0 then
    -a.second_axis_init F
  else a.second_axis_init F

/-- `second_angle`. -/
def second_angle : K :=
  F.atan2 |(a.v1v3 F).z|
    ((a.second_axis F).y * (a.v1v3 F).x - (a.second_axis F).x * (a.v1v3 F).y)

/-- `second_rotation`. -/
def second_rotation : AngleAxis K := ⟨a.second_angle F, a.second_axis F⟩

/-- `final_center_of_gravity`. -/
def final_center_of_gravity : Vec3 K :=
  (a.second_rotation F).rotate F (a.rotated_center_of_gravity F)

/-- `final_ground_touch_vertex_1`. -/
def final_ground_touch_vertex_1 : Vec3 K :=
  (a.second_rotation F).rotate F (a.rotated_ground_touch_vertex_1 F)

/-- `final_translation`. -/
def final_translation : Vec3 K :=
  ⟨a.current_center_of_gravity.x - (a.final_center_of_gravity F).x,
   a.current_center_of_gravity.y - (a.final_center_of_gravity F).y,
   a.support_surface - (a.final_ground_touch_vertex_1 F).z⟩

/-- The returned pose: `gripper_transform_T.inverse() * Translation(final_translation)
* second_rotation * first_rotation * current_transform`, multiplied from the left. -/
def result : Transform K :=
  ((((a.gripper_transform.inverse).translate (a.final_translation F)).rotate
      ((a.second_rotation F).toRotationMatrix F)).rotate
      ((a.first_rotation F).toRotationMatrix F)).mul a.current_transform

end Placing

/-- The same placing with the pose before placing `P` replaced by
`G⁻¹ * Translation(w) * G * P`: the object shifted by `w` in the world frame. -/
def Placing.shifted (a : Placing K) (w : Vec3 K) : Placing K :=
  { old_transform :=
      ((a.gripper_transform.inverse.translate w).mul a.gripper_transform).mul a.old_transform
    center_of_gravity := a.center_of_gravity
    ground_touch_vertex_1 := a.ground_touch_vertex_1
    ground_touch_vertex_2 := a.ground_touch_vertex_2
    ground_touch_vertex_3 := a.ground_touch_vertex_3
    support_surface := a.support_surface
    gripper_transform := a.gripper_transform }

/-- `calculate_transform_after_placing`. -/
def calculate_transform_after_placing (F : ScalarFns K) (old_transform : Transform K)
    (center_of_gravity ground_touch_vertex_1 ground_touch_vertex_2
      ground_touch_vertex_3 : Vec3 K)
    (support_surface : K) (gripper_transform : Transform K) : Transform K :=
  Placing.result F
    { old_transform := old_transform
      center_of_gravity := center_of_gravity
      ground_touch_vertex_1 := ground_touch_vertex_1
      ground_touch_vertex_2 := ground_touch_vertex_2
      ground_touch_vertex_3 := ground_touch_vertex_3
      support_surface := support_surface
      gripper_transform := gripper_transform }

/-! ## The `place_calculator` constructor -/

/-- The data members of `place_calculator`. -/
structure place_calculator (K : Type) where
  center_of_gravity : Vec3 K
  support_surface : K
  gripper_transform : Transform K
  old_mean : Transform K
  ground_touch_vertex_1 : Vec3 K
  ground_touch_vertex_2 : Vec3 K
  ground_touch_vertex_3 : Vec3 K
  new_mean : Transform K

namespace place_calculator

/-- `current_vertices[i] = gripper_transform * old_mean * vertices[i]`. -/
def current_vertices (old_mean : Transform K) (vertices : List (Vec3 K))
    (gripper_transform : Transform K) : List (Vec3 K) :=
  vertices.map (gripper_transform.mul old_mean).apply

/-- The part of the constructor after `find_three_points` has returned `tp`. -/
def after_find_three_points (old_mean : Transform K) (center_of_gravity : Vec3 K)
    (vertices : List (Vec3 K)) (support_surface : K) (gripper_transform : Transform K)
    (stability_check : Bool) (tp : ThreePoints K) : Except PlaceError (place_calculator K) :=
  let current_center_of_gravity := (gripper_transform.mul old_mean).apply center_of_gravity
  if stability_check = true ∧ tp.stability = false then
    .error .unstable_after_placing
  else
    let final_center_of_gravity := tp.rotation.transformVector current_center_of_gravity
    let final_ground_touch_vertex_1 :=
      tp.rotation.transformVector
        ((current_vertices old_mean vertices gripper_transform).getD
          tp.ground_touch_vertex_id_1 0)
    let final_translation : Vec3 K :=
      ⟨current_center_of_gravity.x - final_center_of_gravity.x,
       current_center_of_gravity.y - final_center_of_gravity.y,
       support_surface - final_ground_touch_vertex_1.z⟩
    .ok
      { center_of_gravity := center_of_gravity
        support_surface := support_surface
        gripper_transform := gripper_transform
        old_mean := old_mean
        ground_touch_vertex_1 := vertices.getD tp.ground_touch_vertex_id_1 0
        ground_touch_vertex_2 := vertices.getD tp.ground_touch_vertex_id_2 0
        ground_touch_vertex_3 := vertices.getD tp.ground_touch_vertex_id_3 0
        new_mean :=
          ((((gripper_transform.inverse).translate final_translation).rotate
            tp.rotation.toRotationMatrix).mul gripper_transform).mul old_mean }

set_option linter.dupNamespace false in
/-- The constructor `place_calculator::place_calculator`: an exception of
`find_three_points` propagates, otherwise the stability check and the new mean. -/
def place_calculator (F : ScalarFns K)
    (check_inside_convex_hull : Vec2 K → List (Vec2 K) → Bool)
    (old_mean : Transform K) (center_of_gravity : Vec3 K)
    (vertices : List (Vec3 K)) (support_surface : K) (gripper_transform : Transform K)
    (balance_check stability_check : Bool) : Except PlaceError (place_calculator K) :=
  match find_three_points F check_inside_convex_hull
      (current_vertices old_mean vertices gripper_transform)
      ((gripper_transform.mul old_mean).apply center_of_gravity) balance_check with
  | .error e => .error e
  | .ok tp =>
    after_find_three_points old_mean center_of_gravity vertices support_surface
      gripper_transform stability_check tp

end place_calculator

/-! ## Covariance propagation and the tangent-space residual -/

/-- `Particle` and perturbations: `Eigen::Matrix<double, 6, 1>`. -/
abbrev Particle (K : Type) := Fin 6 → K

/-- `CovarianceMatrix`: `Eigen::Matrix<double, 6, 6>`. -/
abbrev CovarianceMatrix (K : Type) := Matrix (Fin 6) (Fin 6) K

/-- `Eigen::Matrix<T, 4, 4>` in blocks: the upper left 3x3 block, the upper right
column, the lower left row and the lower right entry. -/
@[ext] structure Mat4 (K : Type) where
  linear : Mat3 K
  translation : Vec3 K
  last_row : Vec3 K
  corner : K

namespace Mat4

/-- `Matrix<T, 4, 4>::Identity()`. -/
def identity : Mat4 K := ⟨Mat3.identity, 0, 0, 1⟩

/-- Entrywise sum. -/
def add (a b : Mat4 K) : Mat4 K :=
  ⟨⟨a.linear.m00 + b.linear.m00, a.linear.m01 + b.linear.m01, a.linear.m02 + b.linear.m02,
    a.linear.m10 + b.linear.m10, a.linear.m11 + b.linear.m11, a.linear.m12 + b.linear.m12,
    a.linear.m20 + b.linear.m20, a.linear.m21 + b.linear.m21, a.linear.m22 + b.linear.m22⟩,
   a.translation + b.translation, a.last_row + b.last_row, a.corner + b.corner⟩

/-- Entrywise negation. -/
def neg (a : Mat4 K) : Mat4 K :=
  ⟨⟨-a.linear.m00, -a.linear.m01, -a.linear.m02,
    -a.linear.m10, -a.linear.m11, -a.linear.m12,
    -a.linear.m20, -a.linear.m21, -a.linear.m22⟩,
   -a.translation, -a.last_row, -a.corner⟩

/-- `Transform(const Matrix4&)`: in a product the transform acts through its linear
part and its translation. -/
def toTransform (a : Mat4 K) : Transform K := ⟨a.linear, a.translation⟩

/-- `Transform::matrix()` of a product of transforms: the last row is `0 0 0 1`. -/
def ofTransform (t : Transform K) : Mat4 K := ⟨t.linear, t.translation, 0, 1⟩

end Mat4

/-- Modelled from the spec: `hat_operator` is declared outside the source files at
hand.  It "builds the infinitesimal generator: a skew-symmetric 3×3 block from the
first three components plus a translation column from the last three". -/
def hat_operator (v : Particle K) : Mat4 K :=
  ⟨⟨0, -v 2, v 1,
    v 2, 0, -v 0,
    -v 1, v 0, 0⟩,
   ⟨v 3, v 4, v 5⟩, 0, 0⟩

/-- Modelled from the spec: `check_operator` is declared outside the source files at
hand.  It is the left inverse of `hat_operator` on its image. -/
def check_operator (m : Mat4 K) : Particle K :=
  ![m.linear.m21, m.linear.m02, m.linear.m10,
    m.translation.x, m.translation.y, m.translation.z]

/-- `v.norm()` of a 6-vector. -/
def Particle.norm (F : ScalarFns K) (v : Particle K) : K :=
  F.sqrt (v 0 * v 0 + v 1 * v 1 + v 2 * v 2 + v 3 * v 3 + v 4 * v 4 + v 5 * v 5)

/-- `calculate_perturbation::operator()`: the output perturbation for an input
perturbation, around the `old_mean` and `new_mean` of the calculator. -/
def calculate_perturbation (F : ScalarFns K) (c : place_calculator K)
    (input_perturbation : Particle K) : Particle K :=
  let input_transform :=
    (Mat4.toTransform (Mat4.add Mat4.identity (hat_operator input_perturbation))).mul
      c.old_mean
  let result_transform :=
    calculate_transform_after_placing F input_transform c.center_of_gravity
      c.ground_touch_vertex_1 c.ground_touch_vertex_2 c.ground_touch_vertex_3
      c.support_surface c.gripper_transform
  check_operator
    (Mat4.add (Mat4.neg Mat4.identity)
      (Mat4.ofTransform (result_transform.mul c.new_mean.inverse)))

/-- How `place_update_Lie_distribution` ends. -/
inductive LieUpdate (K : Type) where
  /-- The constructor of the calculator threw. -/
  | thrown (e : PlaceError)
  /-- `assert(mean_perturbation.norm() < LARGE_EPS)` failed. -/
  | assertion_failed
  /-- The function returned `new_mean` and `new_covariance`. -/
  | returned (new_mean : Transform K) (new_covariance : CovarianceMatrix K)

/-- `place_update_distribution`.  `calculate_particle_AD` stands for the
`Eigen::AutoDiffJacobian<calculate_particle>` object built from the six geometric
arguments: called at the old mean it writes the new mean and the Jacobian. -/
def place_update_distribution
    (calculate_particle_AD : Particle K → Particle K × CovarianceMatrix K)
    (old_mean : Particle K) (old_covariance : CovarianceMatrix K) :
    Particle K × CovarianceMatrix K :=
  let new_mean := (calculate_particle_AD old_mean).1
  let Jacobian := (calculate_particle_AD old_mean).2
  (new_mean, Jacobian * old_covariance * Jacobian.transpose)

/-- `place_update_Lie_distribution`.  `Jacobian` is the matrix
`Eigen::AutoDiffJacobian<calculate_perturbation>` writes at the zero perturbation;
the two check flags are the default arguments of the constructor. -/
def place_update_Lie_distribution (F : ScalarFns K)
    (check_inside_convex_hull : Vec2 K → List (Vec2 K) → Bool)
    (balance_check stability_check : Bool) (Jacobian : CovarianceMatrix K)
    (old_mean : Transform K) (old_covariance : CovarianceMatrix K)
    (center_of_gravity : Vec3 K) (vertices : List (Vec3 K)) (support_surface : K)
    (gripper_transform : Transform K) : LieUpdate K :=
  match place_calculator.place_calculator F check_inside_convex_hull old_mean
      center_of_gravity vertices support_surface gripper_transform balance_check
      stability_check with
  | .error e => .thrown e
  | .ok c =>
    let mean_perturbation := calculate_perturbation F c (fun _ => 0)
    if Particle.norm F mean_perturbation < LARGE_EPS then
      .returned c.new_mean (Jacobian * old_covariance * Jacobian.transpose)
    else .assertion_failed

/-! ## Conversions of `ros_converters.cpp` -/

/-- `geometry_msgs::Pose`: a position and an orientation quaternion. -/
@[ext] structure Pose (K : Type) where
  position : Vec3 K
  orientation : Quat K
  deriving DecidableEq

/-- `pose_to_particle`.  `quaternion_to_RPY` (declared outside the source files at
hand) is a parameter: called with `w, x, y, z` it writes `roll, pitch, yaw`. -/
def pose_to_particle (quaternion_to_RPY : K → K → K → K → K × K × K) (pose : Pose K) :
    Particle K :=
  let rpy := quaternion_to_RPY pose.orientation.w pose.orientation.x pose.orientation.y
    pose.orientation.z
  ![pose.position.x, pose.position.y, pose.position.z, rpy.1, rpy.2.1, rpy.2.2]

/-- `particle_to_pose`.  `RPY_to_quaternion` (declared outside the source files at
hand) is a parameter: called with `roll, pitch, yaw` it writes `w, x, y, z`. -/
def particle_to_pose (RPY_to_quaternion : K → K → K → K × K × K × K)
    (particle : Particle K) : Pose K :=
  let q := RPY_to_quaternion (particle 3) (particle 4) (particle 5)
  ⟨⟨particle 0, particle 1, particle 2⟩, ⟨q.1, q.2.1, q.2.2.1, q.2.2.2⟩⟩

/-- `boost::array<double, 36>`. -/
abbrev Array36 (K : Type) := Fin 36 → K

/-- The assignment `matrix(i, j) = v`. -/
def set_entry (matrix : CovarianceMatrix K) (i j : Fin 6) (v : K) : CovarianceMatrix K :=
  fun a b => if a = i ∧ b = j then v else matrix a b

/-- The assignment `array[k] = v`. -/
def set_item (array : Array36 K) (k : Fin 36) (v : K) : Array36 K :=
  fun a => if a = k then v else array a

/-- The index `6 * i + j` of the two loops. -/
def flat_index (i j : Fin 6) : Fin 36 :=
  ⟨6 * i.val + j.val, by have := i.isLt; have := j.isLt; omega⟩

/-- `array_36_to_matrix_6x6`: the two loops over `i` and `j`, each step assigning
`matrix(i, j) = array[6 * i + j]`; the declared matrix starts as zero. -/
def array_36_to_matrix_6x6 (array : Array36 K) : CovarianceMatrix K :=
  (List.finRange 6).foldl
    (fun matrix i =>
      (List.finRange 6).foldl
        (fun matrix j => set_entry matrix i j (array (flat_index i j))) matrix)
    (fun _ _ => 0)

/-- `matrix_6x6_to_array_36`: the two loops over `i` and `j`, each step assigning
`array[6 * i + j] = matrix(i, j)`; the declared array starts as zero. -/
def matrix_6x6_to_array_36 (matrix : CovarianceMatrix K) : Array36 K :=
  (List.finRange 6).foldl
    (fun array i =>
      (List.finRange 6).foldl
        (fun array j => set_item array (flat_index i j) (matrix i j)) array)
    (fun _ => 0)

/-- `boost::array<int, 3>`: the three vertex indices of a triangle. -/
structure Triangle where
  v0 : Nat
  v1 : Nat
  v2 : Nat
  deriving DecidableEq, Repr

/-- `shape_msgs::Mesh`. -/
structure Mesh (K : Type) where
  triangles : List Triangle
  vertices : List (Vec3 K)

/-- `shape_msgs::SolidPrimitive`. -/
structure SolidPrimitive (K : Type) where
  type : Nat
  dimensions : List K

/-- `SolidPrimitive::BOX`. -/
def SolidPrimitive.BOX : Nat := 1

/-- The fields of `moveit_msgs::CollisionObject` the conversion reads; the poses are
given as the transforms `tf::poseMsgToEigen` makes of them. -/
structure CollisionObject (K : Type) where
  meshes : List (Mesh K)
  mesh_poses : List (Transform K)
  primitives : List (SolidPrimitive K)
  primitive_poses : List (Transform K)

/-- The output parameters `vertices` and `triangles`. -/
abbrev TriangleSoup (K : Type) := List (Vec3 K) × List Triangle

/-- The body of the loop over the meshes. -/
def append_mesh (soup : TriangleSoup K) (mesh : Mesh K) (mesh_transform : Transform K) :
    TriangleSoup K :=
  let current_size := soup.1.length
  (soup.1 ++ mesh.vertices.map mesh_transform.apply,
   soup.2 ++ mesh.triangles.map
    (fun triangle =>
      ⟨current_size + triangle.v0, current_size + triangle.v1, current_size + triangle.v2⟩))

/-- The `i`-th corner of a box, before the primitive transform. -/
def box_vertex (X Y Z : K) (i : Nat) : Vec3 K :=
  ⟨if i &&& 1 ≠ 0 then X / 2 else -X / 2,
   if i &&& 2 ≠ 0 then Y / 2 else -Y / 2,
   if i &&& 4 ≠ 0 then Z / 2 else -Z / 2⟩

/-- The triangle pushed for the loop variables `d0`, `f`, `t`. -/
def box_triangle (current_size d0 f t : Nat) : Triangle :=
  let d1 := (d0 + 1) % 3
  let d2 := (d0 + 2) % 3
  let v0 := (if f ≠ 0 then 1 <<< d0 else 0) + (if t ≠ 0 then (1 <<< d1) + (1 <<< d2) else 0)
  let v1 := (if f ≠ 0 then 1 <<< d0 else 0) + (1 <<< d1)
  let v2 := (if f ≠ 0 then 1 <<< d0 else 0) + (1 <<< d2)
  if f ^^^ t = 0 then ⟨current_size + v0, current_size + v2, current_size + v1⟩
  else ⟨current_size + v0, current_size + v1, current_size + v2⟩

/-- The twelve triangles of a box, in the order of the three loops. -/
def box_triangles (current_size : Nat) : List Triangle :=
  (List.range 3).foldl
    (fun acc d0 =>
      (List.range 2).foldl
        (fun acc f =>
          (List.range 2).foldl (fun acc t => acc ++ [box_triangle current_size d0 f t]) acc)
        acc)
    []

/-- The body of the loop over the primitives for a `BOX`. -/
def append_box (soup : TriangleSoup K) (primitive : SolidPrimitive K)
    (primitive_transform : Transform K) : TriangleSoup K :=
  let current_size := soup.1.length
  let X := primitive.dimensions.getD 0 0
  let Y := primitive.dimensions.getD 1 0
  let Z := primitive.dimensions.getD 2 0
  (soup.1 ++ (List.range 8).map (fun i => primitive_transform.apply (box_vertex X Y Z i)),
   soup.2 ++ box_triangles current_size)

/-- `CollisionObject_to_eigen_vectors`: the meshes, then the primitives; a pose
missing from the message is read as the identity. -/
def CollisionObject_to_eigen_vectors (object : CollisionObject K) (soup : TriangleSoup K) :
    TriangleSoup K :=
  let after_meshes :=
    (List.range object.meshes.length).foldl
      (fun soup mesh_id =>
        append_mesh soup (object.meshes.getD mesh_id ⟨[], []⟩)
          (object.mesh_poses.getD mesh_id Transform.identity))
      soup
  (List.range object.primitives.length).foldl
    (fun soup primitive_id =>
      if (object.primitives.getD primitive_id ⟨0, []⟩).type = SolidPrimitive.BOX then
        append_box soup (object.primitives.getD primitive_id ⟨0, []⟩)
          (object.primitive_poses.getD primitive_id Transform.identity)
      else soup)
    after_meshes

/-- Every index of every triangle is a valid index into the vertex list. -/
def TriangleSoup.valid (soup : TriangleSoup K) : Prop :=
  ∀ triangle ∈ soup.2,
    triangle.v0 < soup.1.length ∧ triangle.v1 < soup.1.length ∧ triangle.v2 < soup.1.length

/-! ## Example inputs -/

/-- A tetrahedron standing on its apex `(0, 0, 0)`, the other three vertices at
height `1`; its centroid `(0, 0, 3/4)` is straight above the apex. -/
def example_tetrahedron : List (Vec3 K) :=
  [⟨0, 0, 0⟩, ⟨2, 0, 1⟩, ⟨-1, 1, 1⟩, ⟨-1, -1, 1⟩]

/-- A prism standing on the triangle `(0, 0, 0)`, `(4, 3, 0)`, `(4, -3, 0)`, of
height `2`; the point `(1, 0, 1)` is inside it. -/
def example_prism : List (Vec3 K) :=
  [⟨0, 0, 0⟩, ⟨4, 3, 0⟩, ⟨4, -3, 0⟩, ⟨0, 0, 2⟩, ⟨4, 3, 2⟩, ⟨4, -3, 2⟩]

/-- A gripper frame turned by a quarter turn about the vertical and displaced. -/
def example_gripper : Transform K := ⟨⟨0, -1, 0, 1, 0, 0, 0, 0, 1⟩, ⟨1, 2, 3⟩⟩

/-- A wedge lying on the edge from `(0, 0, 0)` to `(1, 0, 0)` with its two upper
corners `(0, -1, 1)` and `(0, 1, 1)`; with the centre of gravity `(1, 0, 1)` it is
balanced over that edge. -/
def example_wedge : List (Vec3 K) := [⟨0, 0, 0⟩, ⟨1, 0, 0⟩, ⟨0, -1, 1⟩, ⟨0, 1, 1⟩]

/-- A list with near-ties: `1.5e-9`, `0.8e-9` and `0`. -/
def example_near_ties : List K := [3 / 2000000000, 8 / 10000000000, 0]

/-- The scalar product of two vectors. -/
def Vec3.dot (a b : Vec3 K) : K := a.x * b.x + a.y * b.y + a.z * b.z

/-- The coordinate `d` of a vector: 0 for `x`, 1 for `y`, otherwise `z`. -/
def Vec3.coord (a : Vec3 K) (d : Nat) : K := if d = 0 then a.x else if d = 1 then a.y else a.z

/-- The point `q` lies in the triangle with the corners `p0`, `p1`, `p2`. -/
def in_triangle (p0 p1 p2 q : Vec3 K) : Prop :=
  ∃ a b c : K, 0 ≤ a ∧ 0 ≤ b ∧ 0 ≤ c ∧ a + b + c = 1
    ∧ q = Vec3.smul a p0 + Vec3.smul b p1 + Vec3.smul c p2

/-- A collision object that is a single box with the dimensions `X`, `Y`, `Z` and the
identity pose. -/
def box_object (X Y Z : K) : CollisionObject K :=
  ⟨[], [], [⟨SolidPrimitive.BOX, [X, Y, Z]⟩], [Transform.identity]⟩

/-- A collision object with one triangular mesh, a primitive that is not a box, and a
box with the dimensions 2, 4 and 6; all poses are the identity. -/
def example_collision_object : CollisionObject K :=
  ⟨[⟨[⟨0, 1, 2⟩], [⟨0, 0, 0⟩, ⟨1, 0, 0⟩, ⟨0, 1, 0⟩]⟩], [Transform.identity],
   [⟨2, [1]⟩, ⟨SolidPrimitive.BOX, [2, 4, 6]⟩], [Transform.identity, Transform.identity]⟩

/-- The unit cube: all combinations of `±1/2`; the signs of corner `i` are given by
the bits 0, 1 and 2 of `i`. -/
def unit_cube : List (Vec3 K) :=
  [⟨-1 / 2, -1 / 2, -1 / 2⟩, ⟨1 / 2, -1 / 2, -1 / 2⟩, ⟨-1 / 2, 1 / 2, -1 / 2⟩,
   ⟨1 / 2, 1 / 2, -1 / 2⟩, ⟨-1 / 2, -1 / 2, 1 / 2⟩, ⟨1 / 2, -1 / 2, 1 / 2⟩,
   ⟨-1 / 2, 1 / 2, 1 / 2⟩, ⟨1 / 2, 1 / 2, 1 / 2⟩]

/-- An orientation that tilts the cube onto its corner `(-1/2, -1/2, -1/2)`; it is a
rotation matrix when `s = 1 / √26`. -/
def example_tilt (s : K) : Mat3 K :=
  ⟨60 * s / 13, (48 * s - 15) / 65, (-36 * s - 20) / 65,
   -s, 4 * s, -3 * s,
   25 * s / 13, (20 * s + 36) / 65, (-15 * s + 48) / 65⟩

/-- The unit cube in the orientation `example_tilt s`. -/
def tilted_cube_at (s : K) : List (Vec3 K) := unit_cube.map (example_tilt s).mulVec

/-- The unit cube tilted onto its corner `(-1/2, -1/2, -1/2)`. -/
def tilted_cube (F : ScalarFns K) : List (Vec3 K) := tilted_cube_at (1 / F.sqrt 26)

end defs

/-- The real-number scalar functions: `atan2 y x` is the argument of `x + y i`,
in `(-π, π]`, with `atan2 0 0 = 0`. -/
noncomputable def realFns : ScalarFns ℝ :=
  ⟨Real.sqrt, fun y x => Complex.arg ⟨x, y⟩, Real.sin, Real.cos⟩

/-! ## Basic facts -/

section basic
variable {K : Type} [LinearOrderedField K]

theorem EPS_pos : (0 : K) < EPS := by unfold EPS; positivity

namespace Vec3
@[simp] theorem zero_x : (0 : Vec3 K).x = 0 := rfl
@[simp] theorem zero_y : (0 : Vec3 K).y = 0 := rfl
@[simp] theorem zero_z : (0 : Vec3 K).z = 0 := rfl
@[simp] theorem add_x (a b : Vec3 K) : (a + b).x = a.x + b.x := rfl
@[simp] theorem add_y (a b : Vec3 K) : (a + b).y = a.y + b.y := rfl
@[simp] theorem add_z (a b : Vec3 K) : (a + b).z = a.z + b.z := rfl
@[simp] theorem sub_x (a b : Vec3 K) : (a - b).x = a.x - b.x := rfl
@[simp] theorem sub_y (a b : Vec3 K) : (a - b).y = a.y - b.y := rfl
@[simp] theorem sub_z (a b : Vec3 K) : (a - b).z = a.z - b.z := rfl
@[simp] theorem neg_x (a : Vec3 K) : (-a).x = -a.x := rfl
@[simp] theorem neg_y (a : Vec3 K) : (-a).y = -a.y := rfl
@[simp] theorem neg_z (a : Vec3 K) : (-a).z = -a.z := rfl
end Vec3

/-- The fold of `argmin` over the indices `1, …, k`. -/
theorem argmin_fold_inv (vec : List K) (k : Nat) :
    (List.range' 1 k).foldl
        (fun min_id i => if vec.getD min_id 0 - EPS > vec.getD i 0 then i else min_id) 0 ≤ k
    ∧ (∀ i, i ≤ k → vec.getD ((List.range' 1 k).foldl
        (fun min_id i => if vec.getD min_id 0 - EPS > vec.getD i 0 then i else min_id) 0) 0
          ≤ vec.getD i 0 + EPS)
    ∧ (∀ j, j < (List.range' 1 k).foldl
        (fun min_id i => if vec.getD min_id 0 - EPS > vec.getD i 0 then i else min_id) 0 →
        vec.getD ((List.range' 1 k).foldl
        (fun min_id i => if vec.getD min_id 0 - EPS > vec.getD i 0 then i else min_id) 0) 0
          < vec.getD j 0) := by
  have hE : (0 : K) < EPS := EPS_pos
  induction k with
  | zero =>
    simp
    exact hE.le
  | succ k ih =>
    obtain ⟨h1, h2, h3⟩ := ih
    rw [List.range'_1_concat, List.foldl_append]
    simp only [List.foldl_cons, List.foldl_nil]
    generalize (List.range' 1 k).foldl
        (fun min_id i => if vec.getD min_id 0 - EPS > vec.getD i 0 then i else min_id) 0 = m at *
    have e : 1 + k = k + 1 := by omega
    rw [e]
    split_ifs with hc
    · refine ⟨le_refl _, ?_, ?_⟩
      · intro i hi
        rcases Nat.lt_or_ge i (k + 1) with hlt | hge
        · have := h2 i (by omega)
          linarith
        · have : i = k + 1 := by omega
          subst this; linarith
      · intro j hj
        have := h2 j (by omega)
        linarith
    · refine ⟨by omega, ?_, h3⟩
      intro i hi
      rcases Nat.lt_or_ge i (k + 1) with hlt | hge
      · exact h2 i (by omega)
      · have : i = k + 1 := by omega
        subst this
        have := not_lt.mp hc
        linarith

theorem argmin_lt_length (vec : List K) (h : vec ≠ []) : argmin vec < vec.length := by
  have hpos : 0 < vec.length := List.length_pos.mpr h
  have := (argmin_fold_inv vec (vec.length - 1)).1
  unfold argmin
  omega

theorem argmin_le_add_EPS (vec : List K) (i : Nat) (hi : i < vec.length) :
    vec.getD (argmin vec) 0 ≤ vec.getD i 0 + EPS :=
  (argmin_fold_inv vec (vec.length - 1)).2.1 i (by omega)

theorem argmin_lt_of_lt (vec : List K) (j : Nat) (hj : j < argmin vec) :
    vec.getD (argmin vec) 0 < vec.getD j 0 :=
  (argmin_fold_inv vec (vec.length - 1)).2.2 j hj

theorem getD_map_range (n : Nat) (f : Nat → K) (i : Nat) (hi : i < n) :
    ((List.range n).map f).getD i 0 = f i := by
  simp [List.getD_eq_getElem?_getD, List.getElem?_map, List.getElem?_range hi]

end basic

/-! ## The contact solver: indices -/

section real

theorem atan2_le_pi (y x : ℝ) : realFns.atan2 y x ≤ Real.pi := Complex.arg_le_pi _

theorem atan2_nonneg (y x : ℝ) (hy : 0 ≤ y) : 0 ≤ realFns.atan2 y x :=
  Complex.arg_nonneg_iff.mpr hy

theorem pi_add_EPS_lt_INF : Real.pi + (EPS : ℝ) < INF := by
  have := Real.pi_le_four
  unfold EPS INF
  norm_num
  linarith

open find_three_points in
theorem first_angles_length (vs : List (Vec3 ℝ)) (cog : Vec3 ℝ) :
    (first_angles realFns vs cog).length = vs.length := by
  simp [first_angles]

open find_three_points in
theorem second_angles_length (vs : List (Vec3 ℝ)) (cog : Vec3 ℝ) :
    (second_angles realFns vs cog).length = vs.length := by
  simp [second_angles]

open find_three_points in
theorem first_angles_getD (vs : List (Vec3 ℝ)) (cog : Vec3 ℝ) (i : Nat) (hi : i < vs.length) :
    (first_angles realFns vs cog).getD i 0 =
      if i = ground_touch_vertex_id_1 vs then INF
      else realFns.atan2 |(vs.getD i 0 - vs.getD (ground_touch_vertex_id_1 vs) 0).z|
        ((first_axis realFns vs cog).y * (vs.getD i 0 - vs.getD (ground_touch_vertex_id_1 vs) 0).x
          - (first_axis realFns vs cog).x
            * (vs.getD i 0 - vs.getD (ground_touch_vertex_id_1 vs) 0).y) := by
  unfold first_angles
  rw [getD_map_range _ _ _ hi]

open find_three_points in
theorem second_angles_getD (vs : List (Vec3 ℝ)) (cog : Vec3 ℝ) (i : Nat) (hi : i < vs.length) :
    (second_angles realFns vs cog).getD i 0 =
      if i = ground_touch_vertex_id_1 vs ∨ i = ground_touch_vertex_id_2 realFns vs cog then INF
      else realFns.atan2
        |((rotated_vertices realFns vs cog).getD i 0
            - (rotated_vertices realFns vs cog).getD (ground_touch_vertex_id_1 vs) 0).z|
        ((second_axis realFns vs cog).y
            * ((rotated_vertices realFns vs cog).getD i 0
                - (rotated_vertices realFns vs cog).getD (ground_touch_vertex_id_1 vs) 0).x
          - (second_axis realFns vs cog).x
            * ((rotated_vertices realFns vs cog).getD i 0
                - (rotated_vertices realFns vs cog).getD (ground_touch_vertex_id_1 vs) 0).y) := by
  unfold second_angles
  rw [getD_map_range _ _ _ hi]

open find_three_points in
theorem id1_lt (vs : List (Vec3 ℝ)) (h : vs ≠ []) : ground_touch_vertex_id_1 vs < vs.length := by
  have := argmin_lt_length (current_vertices_z vs) (by simpa [current_vertices_z] using h)
  simpa [ground_touch_vertex_id_1, current_vertices_z] using this

open find_three_points in
theorem id2_lt (vs : List (Vec3 ℝ)) (cog : Vec3 ℝ) (h : vs ≠ []) :
    ground_touch_vertex_id_2 realFns vs cog < vs.length := by
  have := argmin_lt_length (first_angles realFns vs cog)
    (by intro h0; apply h; have := first_angles_length vs cog; rw [h0] at this; 
        exact List.length_eq_zero.mp this.symm)
  rw [first_angles_length] at this
  exact this

open find_three_points in
theorem id3_lt (vs : List (Vec3 ℝ)) (cog : Vec3 ℝ) (h : vs ≠ []) :
    ground_touch_vertex_id_3 realFns vs cog < vs.length := by
  have := argmin_lt_length (second_angles realFns vs cog)
    (by intro h0; apply h; have := second_angles_length vs cog; rw [h0] at this; 
        exact List.length_eq_zero.mp this.symm)
  rw [second_angles_length] at this
  exact this

open find_three_points in
/-- The angle of the second contact is a real `atan2` angle. -/
theorem first_angle_chosen (vs : List (Vec3 ℝ)) (cog : Vec3 ℝ) (hn : 2 ≤ vs.length) :
    ground_touch_vertex_id_2 realFns vs cog ≠ ground_touch_vertex_id_1 vs
    ∧ 0 ≤ (first_angles realFns vs cog).getD (ground_touch_vertex_id_2 realFns vs cog) 0
    ∧ (first_angles realFns vs cog).getD (ground_touch_vertex_id_2 realFns vs cog) 0
        ≤ Real.pi := by
  have hne : vs ≠ [] := by intro h; simp [h] at hn
  have h2 := id2_lt vs cog hne
  -- an index other than the first contact
  obtain ⟨j, hj, hj1⟩ : ∃ j, j < vs.length ∧ j ≠ ground_touch_vertex_id_1 vs := by
    by_cases h0 : ground_touch_vertex_id_1 vs = 0
    · exact ⟨1, by omega, by omega⟩
    · exact ⟨0, by omega, fun h => h0 h.symm⟩
  have hle := argmin_le_add_EPS (first_angles realFns vs cog) j
    (by rw [first_angles_length]; exact hj)
  rw [first_angles_getD vs cog j hj, if_neg hj1] at hle
  have hne2 : ground_touch_vertex_id_2 realFns vs cog ≠ ground_touch_vertex_id_1 vs := by
    intro heq
    have hv := first_angles_getD vs cog _ h2
    rw [if_pos heq] at hv
    unfold ground_touch_vertex_id_2 at hv
    rw [hv] at hle
    have := atan2_le_pi |(vs.getD j 0 - vs.getD (ground_touch_vertex_id_1 vs) 0).z|
      ((first_axis realFns vs cog).y * (vs.getD j 0 - vs.getD (ground_touch_vertex_id_1 vs) 0).x
          - (first_axis realFns vs cog).x
            * (vs.getD j 0 - vs.getD (ground_touch_vertex_id_1 vs) 0).y)
    have := pi_add_EPS_lt_INF
    linarith
  refine ⟨hne2, ?_, ?_⟩
  · rw [first_angles_getD vs cog _ h2, if_neg hne2]
    exact atan2_nonneg _ _ (abs_nonneg _)
  · rw [first_angles_getD vs cog _ h2, if_neg hne2]
    exact atan2_le_pi _ _

open find_three_points in
/-- The angle of the third contact is a real `atan2` angle. -/
theorem second_angle_chosen (vs : List (Vec3 ℝ)) (cog : Vec3 ℝ) (hn : 3 ≤ vs.length) :
    ground_touch_vertex_id_3 realFns vs cog ≠ ground_touch_vertex_id_1 vs
    ∧ ground_touch_vertex_id_3 realFns vs cog ≠ ground_touch_vertex_id_2 realFns vs cog
    ∧ 0 ≤ (second_angles realFns vs cog).getD (ground_touch_vertex_id_3 realFns vs cog) 0
    ∧ (second_angles realFns vs cog).getD (ground_touch_vertex_id_3 realFns vs cog) 0
        ≤ Real.pi := by
  have hne : vs ≠ [] := by intro h; simp [h] at hn
  have h3 := id3_lt vs cog hne
  obtain ⟨j, hj, hj1⟩ : ∃ j, j < vs.length ∧
      ¬ (j = ground_touch_vertex_id_1 vs ∨ j = ground_touch_vertex_id_2 realFns vs cog) := by
    by_cases h0 : 0 = ground_touch_vertex_id_1 vs ∨ 0 = ground_touch_vertex_id_2 realFns vs cog
    · by_cases h1 : 1 = ground_touch_vertex_id_1 vs ∨ 1 = ground_touch_vertex_id_2 realFns vs cog
      · exact ⟨2, by omega, by omega⟩
      · exact ⟨1, by omega, h1⟩
    · exact ⟨0, by omega, h0⟩
  have hle := argmin_le_add_EPS (second_angles realFns vs cog) j
    (by rw [second_angles_length]; exact hj)
  rw [second_angles_getD vs cog j hj, if_neg hj1] at hle
  have hne3 : ¬ (ground_touch_vertex_id_3 realFns vs cog = ground_touch_vertex_id_1 vs
      ∨ ground_touch_vertex_id_3 realFns vs cog = ground_touch_vertex_id_2 realFns vs cog) := by
    intro heq
    have hv := second_angles_getD vs cog _ h3
    rw [if_pos heq] at hv
    unfold ground_touch_vertex_id_3 at hv
    rw [hv] at hle
    have := atan2_le_pi
        |((rotated_vertices realFns vs cog).getD j 0
            - (rotated_vertices realFns vs cog).getD (ground_touch_vertex_id_1 vs) 0).z|
        ((second_axis realFns vs cog).y
            * ((rotated_vertices realFns vs cog).getD j 0
                - (rotated_vertices realFns vs cog).getD (ground_touch_vertex_id_1 vs) 0).x
          - (second_axis realFns vs cog).x
            * ((rotated_vertices realFns vs cog).getD j 0
                - (rotated_vertices realFns vs cog).getD (ground_touch_vertex_id_1 vs) 0).y)
    have := pi_add_EPS_lt_INF
    linarith
  refine ⟨fun h => hne3 (Or.inl h), fun h => hne3 (Or.inr h), ?_, ?_⟩
  · rw [second_angles_getD vs cog _ h3, if_neg hne3]
    exact atan2_nonneg _ _ (abs_nonneg _)
  · rw [second_angles_getD vs cog _ h3, if_neg hne3]
    exact atan2_le_pi _ _

/-- With `balance_check` off `find_three_points` returns. -/
theorem find_three_points_false (hull : Vec2 ℝ → List (Vec2 ℝ) → Bool)
    (vs : List (Vec3 ℝ)) (cog : Vec3 ℝ) :
    find_three_points realFns hull vs cog false = .ok
      { ground_touch_vertex_id_1 := find_three_points.ground_touch_vertex_id_1 vs
        ground_touch_vertex_id_2 := find_three_points.ground_touch_vertex_id_2 realFns vs cog
        ground_touch_vertex_id_3 := find_three_points.ground_touch_vertex_id_3 realFns vs cog
        rotation := find_three_points.rotation realFns vs cog
        stability := find_three_points.stability realFns vs cog hull } := by
  simp [find_three_points]

/-- Whatever `find_three_points` returns is the record of its local values. -/
theorem find_three_points_ok (hull : Vec2 ℝ → List (Vec2 ℝ) → Bool)
    (vs : List (Vec3 ℝ)) (cog : Vec3 ℝ) (bc : Bool) (r : ThreePoints ℝ)
    (h : find_three_points realFns hull vs cog bc = .ok r) :
    r = { ground_touch_vertex_id_1 := find_three_points.ground_touch_vertex_id_1 vs
          ground_touch_vertex_id_2 := find_three_points.ground_touch_vertex_id_2 realFns vs cog
          ground_touch_vertex_id_3 := find_three_points.ground_touch_vertex_id_3 realFns vs cog
          rotation := find_three_points.rotation realFns vs cog
          stability := find_three_points.stability realFns vs cog hull } := by
  unfold find_three_points at h
  split_ifs at h
  exact (Except.ok.inj h).symm

end real

/-- C1: for every vertex list with at least three vertices and every centre of
gravity, whenever `find_three_points` returns (and it does return when
`balance_check` is false), the three indices it returns are valid indices into the
vertex list and pairwise distinct; the angles of the chosen second and third contact
are `atan2` angles, at most `π`, which is below `INF - EPS`, so an entry `INF` of an
already chosen vertex never wins the robust argmin. -/
theorem find_three_points_indices_valid_distinct
    (hull : Vec2 ℝ → List (Vec2 ℝ) → Bool) (vs : List (Vec3 ℝ)) (cog : Vec3 ℝ)
    (balance_check : Bool) (r : ThreePoints ℝ) (hn : 3 ≤ vs.length)
    (h : find_three_points realFns hull vs cog balance_check = .ok r) :
    (r.ground_touch_vertex_id_1 < vs.length ∧ r.ground_touch_vertex_id_2 < vs.length
      ∧ r.ground_touch_vertex_id_3 < vs.length)
    ∧ (r.ground_touch_vertex_id_1 ≠ r.ground_touch_vertex_id_2
      ∧ r.ground_touch_vertex_id_1 ≠ r.ground_touch_vertex_id_3
      ∧ r.ground_touch_vertex_id_2 ≠ r.ground_touch_vertex_id_3)
    ∧ ((find_three_points.first_angles realFns vs cog).getD r.ground_touch_vertex_id_2 0
        ≤ Real.pi
      ∧ (find_three_points.second_angles realFns vs cog).getD r.ground_touch_vertex_id_3 0
        ≤ Real.pi
      ∧ Real.pi < INF - EPS)
    ∧ ∃ r0, find_three_points realFns hull vs cog false = .ok r0 := by
  have hne : vs ≠ [] := by intro h0; simp [h0] at hn
  have hr := find_three_points_ok hull vs cog balance_check r h
  subst hr
  obtain ⟨a1, _, a3⟩ := first_angle_chosen vs cog (by omega)
  obtain ⟨b1, b2, _, b4⟩ := second_angle_chosen vs cog hn
  refine ⟨⟨id1_lt vs hne, id2_lt vs cog hne, id3_lt vs cog hne⟩,
    ⟨fun e => a1 e.symm, fun e => b1 e.symm, fun e => b2 e.symm⟩, ⟨a3, b4, ?_⟩,
    ⟨_, find_three_points_false hull vs cog⟩⟩
  have := pi_add_EPS_lt_INF
  linarith

/-! ## Algebra of matrices and transforms -/

section algebra

theorem Vec3.add_def (a b : Vec3 ℝ) : a + b = ⟨a.x + b.x, a.y + b.y, a.z + b.z⟩ := rfl
theorem Vec3.sub_def (a b : Vec3 ℝ) : a - b = ⟨a.x - b.x, a.y - b.y, a.z - b.z⟩ := rfl
theorem Vec3.neg_def (a : Vec3 ℝ) : -a = ⟨-a.x, -a.y, -a.z⟩ := rfl
theorem Vec3.zero_def : (0 : Vec3 ℝ) = ⟨0, 0, 0⟩ := rfl

namespace Mat3

theorem mulVec_mulVec (a b : Mat3 ℝ) (v : Vec3 ℝ) :
    a.mulVec (b.mulVec v) = (a.mul b).mulVec v := by
  ext <;> simp only [Mat3.mulVec, Mat3.mul, Vec3.add_def, Vec3.sub_def, Vec3.neg_def,
      Vec3.zero_def] <;> ring

theorem mat_mul_assoc (a b c : Mat3 ℝ) : (a.mul b).mul c = a.mul (b.mul c) := by
  ext <;> simp only [Mat3.mul, Vec3.add_def, Vec3.sub_def, Vec3.neg_def, Vec3.zero_def] <;> ring

@[simp] theorem identity_mat_mul (a : Mat3 ℝ) : identity.mul a = a := by
  ext <;> simp only [Mat3.mul, Mat3.identity, Vec3.add_def, Vec3.sub_def, Vec3.neg_def,
      Vec3.zero_def] <;> ring

@[simp] theorem mul_identity (a : Mat3 ℝ) : a.mul identity = a := by
  ext <;> simp only [Mat3.mul, Mat3.identity, Vec3.add_def, Vec3.sub_def, Vec3.neg_def,
      Vec3.zero_def] <;> ring

@[simp] theorem identity_mulVec (v : Vec3 ℝ) : (identity : Mat3 ℝ).mulVec v = v := by
  ext <;> simp only [Mat3.mulVec, Mat3.identity, Vec3.add_def, Vec3.sub_def, Vec3.neg_def,
      Vec3.zero_def] <;> ring

theorem mulVec_add (a : Mat3 ℝ) (u v : Vec3 ℝ) :
    a.mulVec (u + v) = a.mulVec u + a.mulVec v := by
  ext <;> simp only [Mat3.mulVec, Vec3.add_def, Vec3.sub_def, Vec3.neg_def, Vec3.zero_def] <;> ring

theorem mulVec_neg (a : Mat3 ℝ) (v : Vec3 ℝ) : a.mulVec (-v) = -a.mulVec v := by
  ext <;> simp only [Mat3.mulVec, Vec3.add_def, Vec3.sub_def, Vec3.neg_def, Vec3.zero_def] <;> ring

@[simp] theorem mulVec_zero (a : Mat3 ℝ) : a.mulVec 0 = 0 := by
  ext <;> simp only [Mat3.mulVec, Vec3.add_def, Vec3.sub_def, Vec3.neg_def, Vec3.zero_def] <;> ring

end Mat3

namespace Vec3

theorem neg_add_cancel (v : Vec3 ℝ) : -v + v = 0 := by
  ext <;> simp only [Vec3.add_def, Vec3.sub_def, Vec3.neg_def, Vec3.zero_def] <;> ring

@[simp] theorem add_zero (v : Vec3 ℝ) : v + 0 = v := by
  ext <;> simp only [Vec3.add_def, Vec3.sub_def, Vec3.neg_def, Vec3.zero_def] <;> ring

@[simp] theorem zero_add (v : Vec3 ℝ) : 0 + v = v := by
  ext <;> simp only [Vec3.add_def, Vec3.sub_def, Vec3.neg_def, Vec3.zero_def] <;> ring

end Vec3

namespace Transform

theorem apply_mul (a b : Transform ℝ) (v : Vec3 ℝ) :
    (a.mul b).apply v = a.apply (b.apply v) := by
  simp only [apply, mul, Mat3.mulVec_add, ← Mat3.mulVec_mulVec]
  ext <;> simp only [Vec3.add_def, Vec3.sub_def, Vec3.neg_def, Vec3.zero_def] <;> ring

theorem comp_assoc (a b c : Transform ℝ) : (a.mul b).mul c = a.mul (b.mul c) := by
  simp only [mul, Mat3.mat_mul_assoc, Mat3.mulVec_add, ← Mat3.mulVec_mulVec]
  ext <;> simp only [Vec3.add_def, Vec3.sub_def, Vec3.neg_def, Vec3.zero_def] <;> ring

theorem mul_translate (a b : Transform ℝ) (t : Vec3 ℝ) :
    a.mul (b.translate t) = (a.mul b).translate t := by
  simp only [mul, translate, Mat3.mulVec_add, ← Mat3.mulVec_mulVec]
  ext <;> simp only [Vec3.add_def, Vec3.sub_def, Vec3.neg_def, Vec3.zero_def] <;> ring

theorem mul_rotate (a b : Transform ℝ) (r : Mat3 ℝ) :
    a.mul (b.rotate r) = (a.mul b).rotate r := by
  simp only [mul, rotate, Mat3.mat_mul_assoc]

@[simp] theorem identity_comp (a : Transform ℝ) : identity.mul a = a := by
  simp only [Transform.mul, Transform.identity, Mat3.identity_mat_mul, Mat3.identity_mulVec,
      Vec3.add_zero]

@[simp] theorem identity_apply (v : Vec3 ℝ) : (identity : Transform ℝ).apply v = v := by
  simp only [Transform.apply, Transform.identity, Mat3.identity_mulVec, Vec3.add_zero]

theorem mul_inverse (a : Transform ℝ) (h : a.IsIsometry) : a.mul a.inverse = identity := by
  simp only [mul, inverse, identity, h.1, Mat3.mulVec_neg, Mat3.mulVec_mulVec,
    Mat3.identity_mulVec, Vec3.neg_add_cancel]

theorem inverse_mul (a : Transform ℝ) (h : a.IsIsometry) : a.inverse.mul a = identity := by
  simp only [mul, inverse, identity, h.2, Mat3.mulVec_neg, Mat3.mulVec_mulVec]
  ext <;> simp only [Vec3.add_def, Vec3.sub_def, Vec3.neg_def, Vec3.zero_def] <;> ring

/-- In the world frame the pose `G⁻¹ * Translation(t) * R₂ * R₁ * current` maps a
point to `R₂ (R₁ (current p)) + t`. -/
theorem world_apply (G cur : Transform ℝ) (hG : G.IsIsometry) (t : Vec3 ℝ)
    (r2 r1 : Mat3 ℝ) (p : Vec3 ℝ) :
    (G.mul ((((G.inverse.translate t).rotate r2).rotate r1).mul cur)).apply p
      = r2.mulVec (r1.mulVec (cur.apply p)) + t := by
  rw [← comp_assoc, mul_rotate, mul_rotate, mul_translate, mul_inverse G hG, apply_mul]
  simp only [apply, rotate, translate, identity, Mat3.identity_mat_mul, Mat3.identity_mulVec,
    Mat3.mulVec_mulVec, Vec3.add_zero]

end Transform

theorem Quat.transformVector_eq (q : Quat ℝ) (v : Vec3 ℝ) :
    q.transformVector v = q.toRotationMatrix.mulVec v := by
  ext <;> simp only [Quat.transformVector, Quat.toRotationMatrix, Quat.vec, Vec3.cross, Vec3.smul,
    Mat3.mulVec, Vec3.add_def, Vec3.sub_def, Vec3.neg_def, Vec3.zero_def] <;> ring

end algebra

/-! ## The translation of the placement -/

section translation

theorem Transform.world_apply_one (G P : Transform ℝ) (hG : G.IsIsometry) (t : Vec3 ℝ)
    (r : Mat3 ℝ) (p : Vec3 ℝ) :
    (G.mul ((((G.inverse.translate t).rotate r).mul G).mul P)).apply p
      = r.mulVec ((G.mul P).apply p) + t := by
  rw [Transform.comp_assoc, ← Transform.comp_assoc G, Transform.mul_rotate,
    Transform.mul_translate, Transform.mul_inverse G hG, Transform.apply_mul]
  simp only [Transform.apply, Transform.rotate, Transform.translate, Transform.identity,
    Mat3.identity_mat_mul, Mat3.identity_mulVec, Vec3.add_zero]

/-- In the world frame the pose returned by `calculate_transform_after_placing` maps a
point to the twice rotated point plus `final_translation`. -/
theorem Placing.world_result (a : Placing ℝ) (hG : a.gripper_transform.IsIsometry)
    (p : Vec3 ℝ) :
    (a.gripper_transform.mul (a.result realFns)).apply p
      = (a.second_rotation realFns).rotate realFns
          ((a.first_rotation realFns).rotate realFns (a.current_transform.apply p))
        + a.final_translation realFns := by
  unfold Placing.result
  rw [Transform.world_apply _ _ hG]
  rfl

theorem getD_map_apply (T : Transform ℝ) (vs : List (Vec3 ℝ)) (i : Nat) (hi : i < vs.length) :
    (vs.map T.apply).getD i 0 = T.apply (vs.getD i 0) := by
  simp [List.getD_eq_getElem?_getD, List.getElem?_map, List.getElem?_eq_getElem hi]

/-- What the constructor returns when it returns. -/
theorem place_calculator_ok (hull : Vec2 ℝ → List (Vec2 ℝ) → Bool) (P : Transform ℝ)
    (cog : Vec3 ℝ) (vertices : List (Vec3 ℝ)) (s : ℝ) (G : Transform ℝ) (bc sc : Bool)
    (c : place_calculator ℝ)
    (h : place_calculator.place_calculator realFns hull P cog vertices s G bc sc = .ok c) :
    ∃ tp, find_three_points realFns hull (place_calculator.current_vertices P vertices G)
        ((G.mul P).apply cog) bc = .ok tp
      ∧ ¬ (sc = true ∧ tp.stability = false)
      ∧ place_calculator.after_find_three_points P cog vertices s G sc tp = .ok c := by
  unfold place_calculator.place_calculator at h
  split at h
  · exact absurd h (by simp)
  · rename_i tp htp
    refine ⟨tp, htp, ?_, h⟩
    intro hs
    unfold place_calculator.after_find_three_points at h
    rw [if_pos hs] at h
    exact absurd h (by simp)

end translation

/-- C3: for every pose `P`, centre of gravity, three contact points, support height
`s` and gripper transform `G` (an isometry), the pose `P'` returned by
`calculate_transform_after_placing` gives the centre of gravity the same world `x` and
`y` as before, `(G*P')(cog)` against `(G*P)(cog)`, and gives the first contact the
world height `s`; the same three equalities hold for the `new_mean` of the
`place_calculator` constructor, with its own first contact, whenever the constructor
returns on a non-empty vertex list. -/
theorem placing_keeps_xy_and_sets_z
    (P G : Transform ℝ) (cog g1 g2 g3 : Vec3 ℝ) (s : ℝ) (hG : G.IsIsometry) :
    (((G.mul (calculate_transform_after_placing realFns P cog g1 g2 g3 s G)).apply cog).x
        = ((G.mul P).apply cog).x
      ∧ ((G.mul (calculate_transform_after_placing realFns P cog g1 g2 g3 s G)).apply cog).y
        = ((G.mul P).apply cog).y
      ∧ ((G.mul (calculate_transform_after_placing realFns P cog g1 g2 g3 s G)).apply g1).z
        = s)
    ∧ ∀ (hull : Vec2 ℝ → List (Vec2 ℝ) → Bool) (vertices : List (Vec3 ℝ)) (bc sc : Bool)
        (c : place_calculator ℝ), vertices ≠ [] →
        place_calculator.place_calculator realFns hull P cog vertices s G bc sc = .ok c →
        ((G.mul c.new_mean).apply cog).x = ((G.mul P).apply cog).x
        ∧ ((G.mul c.new_mean).apply cog).y = ((G.mul P).apply cog).y
        ∧ ((G.mul c.new_mean).apply c.ground_touch_vertex_1).z = s := by
  constructor
  · unfold calculate_transform_after_placing
    have hw := Placing.world_result ⟨P, cog, g1, g2, g3, s, G⟩ hG
    refine ⟨?_, ?_, ?_⟩
    · rw [hw cog]
      simp [Placing.final_translation, Placing.final_center_of_gravity,
        Placing.rotated_center_of_gravity, Placing.current_center_of_gravity,
        Placing.current_transform]
    · rw [hw cog]
      simp [Placing.final_translation, Placing.final_center_of_gravity,
        Placing.rotated_center_of_gravity, Placing.current_center_of_gravity,
        Placing.current_transform]
    · rw [hw g1]
      simp [Placing.final_translation, Placing.final_ground_touch_vertex_1,
        Placing.rotated_ground_touch_vertex_1, Placing.current_ground_touch_vertex_1,
        Placing.current_transform]
  · intro hull vertices bc sc c hv hc
    obtain ⟨tp, htp, hst, hc'⟩ := place_calculator_ok hull P cog vertices s G bc sc c hc
    unfold place_calculator.after_find_three_points at hc'
    rw [if_neg hst] at hc'
    have hc'' := (Except.ok.inj hc').symm
    have hid : tp.ground_touch_vertex_id_1 < vertices.length := by
      have := find_three_points_ok hull _ _ bc tp htp
      rw [this]
      have h1 := id1_lt (place_calculator.current_vertices P vertices G)
        (by simpa [place_calculator.current_vertices] using hv)
      simpa [place_calculator.current_vertices] using h1
    subst hc''
    refine ⟨?_, ?_, ?_⟩
    · simp only [Transform.world_apply_one _ _ hG, Quat.transformVector_eq]
      simp
    · simp only [Transform.world_apply_one _ _ hG, Quat.transformVector_eq]
      simp
    · simp only [Transform.world_apply_one _ _ hG, Quat.transformVector_eq,
        place_calculator.current_vertices, getD_map_apply _ _ _ hid]
      simp

/-! ## Angles and rotations -/

section angles

/-- Polar form: `atan2 y x` is the angle of the point `(x, y)`. -/
theorem atan2_polar (y x : ℝ) :
    Real.sqrt (x * x + y * y) * Real.cos (realFns.atan2 y x) = x
    ∧ Real.sqrt (x * x + y * y) * Real.sin (realFns.atan2 y x) = y := by
  have habs : Complex.abs ⟨x, y⟩ = Real.sqrt (x * x + y * y) := by
    rw [Complex.abs_apply, Complex.normSq_mk]
  constructor
  · have := Complex.abs_mul_cos_arg ⟨x, y⟩
    rw [habs] at this
    exact this
  · have := Complex.abs_mul_sin_arg ⟨x, y⟩
    rw [habs] at this
    exact this

theorem atan2_zero_of_nonneg (x : ℝ) (hx : 0 ≤ x) : realFns.atan2 0 x = 0 := by
  have : (⟨x, 0⟩ : ℂ) = (x : ℂ) := rfl
  show Complex.arg ⟨x, 0⟩ = 0
  rw [this]
  exact Complex.arg_ofReal_of_nonneg hx

theorem atan2_pos_zero (y : ℝ) (hy : 0 < y) : realFns.atan2 y 0 = Real.pi / 2 := by
  show Complex.arg ⟨0, y⟩ = Real.pi / 2
  have h := Complex.arg_real_mul Complex.I hy
  rw [Complex.arg_I] at h
  rw [← h]
  congr 1
  apply Complex.ext <;> simp

/-- The turn by the angle `atan2 z p` brings the height `cos θ * z - sin θ * p` of a
point at height `z` and horizontal offset `p` to zero. -/
theorem level_at_atan2 (z p : ℝ) :
    Real.cos (realFns.atan2 z p) * z - Real.sin (realFns.atan2 z p) * p = 0 := by
  obtain ⟨hp, hz⟩ := atan2_polar z p
  linear_combination (-Real.cos (realFns.atan2 z p)) * hz
    + Real.sin (realFns.atan2 z p) * hp

namespace AngleAxis

/-- The height after a rotation about a horizontal axis. -/
theorem rotate_z (r : AngleAxis ℝ) (v : Vec3 ℝ) (h : r.axis.z = 0) :
    (r.rotate realFns v).z
      = Real.cos r.angle * v.z - Real.sin r.angle * (r.axis.y * v.x - r.axis.x * v.y) := by
  simp only [rotate, toRotationMatrix, Mat3.mulVec, Vec3.smul, h, realFns]
  ring

@[simp] theorem rotate_zero (r : AngleAxis ℝ) : r.rotate realFns 0 = 0 :=
  Mat3.mulVec_zero _

/-- A rotation by the angle zero is the identity matrix, whatever the axis. -/
theorem toRotationMatrix_angle_zero (r : AngleAxis ℝ) (h : r.angle = 0) :
    r.toRotationMatrix realFns = Mat3.identity := by
  ext <;> simp [toRotationMatrix, Mat3.identity, Vec3.smul, h, realFns]

/-- With the zero vector as axis the rotation matrix is `cos angle` times the
identity. -/
theorem rotate_axis_zero (r : AngleAxis ℝ) (v : Vec3 ℝ) (h : r.axis = 0) :
    r.rotate realFns v = Vec3.smul (Real.cos r.angle) v := by
  ext <;> simp [rotate, toRotationMatrix, Mat3.mulVec, Vec3.smul, h, realFns]

end AngleAxis

namespace Vec3

theorem normalized_zero : (0 : Vec3 ℝ).normalized realFns = 0 := by
  unfold normalized
  rw [if_neg]
  simp [squaredNorm]

theorem squaredNorm_eq_zero (a : Vec3 ℝ) : a.squaredNorm = 0 ↔ a = 0 := by
  constructor
  · intro h
    unfold squaredNorm at h
    have hx : a.x = 0 := by
      nlinarith [mul_self_nonneg a.x, mul_self_nonneg a.y, mul_self_nonneg a.z]
    have hy : a.y = 0 := by
      nlinarith [mul_self_nonneg a.x, mul_self_nonneg a.y, mul_self_nonneg a.z]
    have hz : a.z = 0 := by
      nlinarith [mul_self_nonneg a.x, mul_self_nonneg a.y, mul_self_nonneg a.z]
    ext <;> simp [hx, hy, hz]
  · intro h
    simp [h, squaredNorm]

theorem squaredNorm_pos (a : Vec3 ℝ) (h : a ≠ 0) : 0 < a.squaredNorm := by
  have h0 : 0 ≤ a.squaredNorm := by
    unfold squaredNorm
    nlinarith [mul_self_nonneg a.x, mul_self_nonneg a.y, mul_self_nonneg a.z]
  rcases h0.lt_or_eq with hlt | heq
  · exact hlt
  · exact absurd ((squaredNorm_eq_zero a).mp heq.symm) h

/-- The normalised vector is a multiple `k • a` of the vector, with `k² ‖a‖² = 1`
when the vector is not zero. -/
theorem normalized_eq_smul (a : Vec3 ℝ) (h : a ≠ 0) :
    ∃ k : ℝ, a.normalized realFns = smul k a ∧ k * k * a.squaredNorm = 1 := by
  have hpos := squaredNorm_pos a h
  refine ⟨1 / Real.sqrt a.squaredNorm, ?_, ?_⟩
  · unfold normalized
    rw [if_pos hpos]
    ext <;> simp [sdiv, smul, realFns] <;> ring
  · have hs : Real.sqrt a.squaredNorm * Real.sqrt a.squaredNorm = a.squaredNorm :=
      Real.mul_self_sqrt hpos.le
    have e : 1 / Real.sqrt a.squaredNorm * (1 / Real.sqrt a.squaredNorm) * a.squaredNorm
        = a.squaredNorm / (Real.sqrt a.squaredNorm * Real.sqrt a.squaredNorm) := by ring
    rw [e, hs, div_self hpos.ne']

theorem squaredNorm_normalized (a : Vec3 ℝ) (h : a ≠ 0) :
    (a.normalized realFns).squaredNorm = 1 := by
  obtain ⟨k, hk, hk1⟩ := normalized_eq_smul a h
  rw [hk]
  have e : (smul k a).squaredNorm = k * k * a.squaredNorm := by
    simp only [squaredNorm, smul]
    ring
  rw [e, hk1]

end Vec3

end angles

/-! ## The two rotations of the placement kinematics -/

namespace Placing

variable (a : Placing ℝ)

end Placing

section example_placing

theorem Transform.isIsometry_identity : (Transform.identity : Transform ℝ).IsIsometry := by
  constructor <;> ext <;> simp [Transform.identity, Mat3.identity, Mat3.transpose, Mat3.mul]

theorem Vec3.normalized_of_squaredNorm_one (a : Vec3 ℝ) (h : a.squaredNorm = 1) :
    a.normalized realFns = a := by
  unfold Vec3.normalized
  rw [h, if_pos one_pos]
  ext <;> simp [Vec3.sdiv, realFns]

variable (g2 g3 : Vec3 ℝ)

end example_placing

section c4

end c4

section settled

theorem Mat3.transpose_mul (a b : Mat3 ℝ) :
    (a.mul b).transpose = b.transpose.mul a.transpose := by
  ext <;> simp only [Mat3.mul, Mat3.transpose] <;> ring

theorem Mat3.transpose_transpose (a : Mat3 ℝ) : a.transpose.transpose = a := rfl

theorem Transform.isIsometry_mul (a b : Transform ℝ) (ha : a.IsIsometry) (hb : b.IsIsometry) :
    (a.mul b).IsIsometry := by
  constructor
  · show (a.linear.mul b.linear).mul (a.linear.mul b.linear).transpose = Mat3.identity
    rw [Mat3.transpose_mul, Mat3.mat_mul_assoc, ← Mat3.mat_mul_assoc b.linear, hb.1,
      Mat3.identity_mat_mul, ha.1]
  · show (a.linear.mul b.linear).transpose.mul (a.linear.mul b.linear) = Mat3.identity
    rw [Mat3.transpose_mul, Mat3.mat_mul_assoc, ← Mat3.mat_mul_assoc a.linear.transpose, ha.2,
      Mat3.identity_mat_mul, hb.2]

namespace Placing

variable (a : Placing ℝ)

end Placing

end settled

section c7

end c7

section witnesses

/-- With both checks off the constructor returns. -/
theorem place_calculator_unchecked (hull : Vec2 ℝ → List (Vec2 ℝ) → Bool) (P : Transform ℝ)
    (cog : Vec3 ℝ) (vertices : List (Vec3 ℝ)) (s : ℝ) (G : Transform ℝ) :
    ∃ c, place_calculator.place_calculator realFns hull P cog vertices s G false false
      = .ok c := by
  unfold place_calculator.place_calculator
  rw [find_three_points_false]
  simp [place_calculator.after_find_three_points]

end witnesses

/-- C3 at the example placing problem and, for the constructor, at the example
tetrahedron with both checks off. -/
theorem placing_keeps_xy_and_sets_z_witness :
    ((Transform.identity.mul
        (calculate_transform_after_placing realFns Transform.identity ⟨1, 0, 1⟩ ⟨0, 0, 0⟩
          ⟨1, 0, 0⟩ ⟨0, -1, 0⟩ 0 Transform.identity)).apply ⟨0, 0, 0⟩).z = 0
    ∧ ∃ c, place_calculator.place_calculator realFns (fun _ _ => true) Transform.identity
          ⟨1, 0, 1⟩ example_tetrahedron 0 Transform.identity false false = .ok c
        ∧ ((Transform.identity.mul c.new_mean).apply c.ground_touch_vertex_1).z = 0 :=
  ⟨(placing_keeps_xy_and_sets_z Transform.identity Transform.identity ⟨1, 0, 1⟩ ⟨0, 0, 0⟩
      ⟨1, 0, 0⟩ ⟨0, -1, 0⟩ 0 Transform.isIsometry_identity).1.2.2,
    (place_calculator_unchecked (fun _ _ => true) Transform.identity ⟨1, 0, 1⟩
      example_tetrahedron 0 Transform.identity).elim fun c hc =>
      ⟨c, hc,
        ((placing_keeps_xy_and_sets_z Transform.identity Transform.identity ⟨1, 0, 1⟩
          ⟨0, 0, 0⟩ ⟨1, 0, 0⟩ ⟨0, -1, 0⟩ 0 Transform.isIsometry_identity).2
          (fun _ _ => true) example_tetrahedron false false c (by simp [example_tetrahedron])
          hc).2.2⟩⟩

section failures

open find_three_points in
/-- The first contact is within `EPS` of the lowest vertex. -/
theorem id1_lowest (vs : List (Vec3 ℝ)) (v : Vec3 ℝ) (hv : v ∈ vs) :
    (vs.getD (ground_touch_vertex_id_1 vs) 0).z ≤ v.z + EPS := by
  obtain ⟨i, hi, rfl⟩ := List.getElem_of_mem hv
  have h := argmin_le_add_EPS (current_vertices_z vs) i (by simpa [current_vertices_z] using hi)
  have e : ∀ j, (current_vertices_z vs).getD j 0 = (vs.getD j 0).z := by
    intro j
    simp only [current_vertices_z, List.getD_eq_getElem?_getD, List.getElem?_map]
    cases vs[j]? <;> rfl
  rw [e, e] at h
  have e2 : vs.getD i 0 = vs[i] := by
    simp [List.getD_eq_getElem?_getD, List.getElem?_eq_getElem hi]
  rw [e2] at h
  exact h

/-- The first contact of the example tetrahedron is its apex. -/
theorem tetrahedron_id1 :
    find_three_points.ground_touch_vertex_id_1 (example_tetrahedron : List (Vec3 ℝ)) = 0 := by
  simp [find_three_points.ground_touch_vertex_id_1, argmin, example_tetrahedron,
    find_three_points.current_vertices_z, List.range', EPS]
  norm_num

/-- With the centre of gravity straight above the apex the first axis is the zero
vector. -/
theorem tetrahedron_first_axis_raw :
    find_three_points.first_axis_raw (example_tetrahedron : List (Vec3 ℝ)) ⟨0, 0, 3 / 4⟩
      = 0 := by
  rw [find_three_points.first_axis_raw, tetrahedron_id1]
  ext <;> simp [example_tetrahedron, Vec3.cross, Vec3.UnitZ]

end failures

/-- C8: for a non-empty vertex list, `find_three_points` throws "Balanced at the first
rotation" exactly when `balance_check` is on and the norm of `(contact1 - cog) × UnitZ`
is below `EPS`, throws "Balanced at the second rotation" exactly when `balance_check`
is on, that norm is not below `EPS` and `|direction| < EPS`, and throws nothing else;
the norm is the horizontal distance between contact 1 and the centre of gravity, and
contact 1 is within `EPS` of the lowest vertex.  With `balance_check` off it
returns. -/
theorem find_three_points_failure_iff
    (hull : Vec2 ℝ → List (Vec2 ℝ) → Bool) (vs : List (Vec3 ℝ)) (cog : Vec3 ℝ)
    (balance_check : Bool) (_hv : vs ≠ []) :
    (find_three_points realFns hull vs cog balance_check
        = .error .balanced_at_the_first_rotation
      ↔ balance_check = true
        ∧ (find_three_points.first_axis_raw vs cog).norm realFns < EPS)
    ∧ (find_three_points realFns hull vs cog balance_check
        = .error .balanced_at_the_second_rotation
      ↔ balance_check = true
        ∧ ¬ (find_three_points.first_axis_raw vs cog).norm realFns < EPS
        ∧ |find_three_points.direction realFns vs cog| < EPS)
    ∧ ((∃ e, find_three_points realFns hull vs cog balance_check = .error e)
      ↔ balance_check = true
        ∧ ((find_three_points.first_axis_raw vs cog).norm realFns < EPS
          ∨ (¬ (find_three_points.first_axis_raw vs cog).norm realFns < EPS
            ∧ |find_three_points.direction realFns vs cog| < EPS)))
    ∧ (find_three_points.first_axis_raw vs cog).norm realFns
      = Real.sqrt
          (((vs.getD (find_three_points.ground_touch_vertex_id_1 vs) 0).x - cog.x) ^ 2
            + ((vs.getD (find_three_points.ground_touch_vertex_id_1 vs) 0).y - cog.y) ^ 2)
    ∧ (∀ v ∈ vs, (vs.getD (find_three_points.ground_touch_vertex_id_1 vs) 0).z ≤ v.z + EPS)
    ∧ (balance_check = false →
        ∃ r, find_three_points realFns hull vs cog balance_check = .ok r) := by
  refine ⟨?_, ?_, ?_, ?_, fun v hv => id1_lowest vs v hv, ?_⟩
  · by_cases hb : balance_check = true <;>
      by_cases hn : (find_three_points.first_axis_raw vs cog).norm realFns < EPS <;>
      by_cases hd : |find_three_points.direction realFns vs cog| < EPS <;>
      simp [find_three_points, hb, hn, hd]
  · by_cases hb : balance_check = true <;>
      by_cases hn : (find_three_points.first_axis_raw vs cog).norm realFns < EPS <;>
      by_cases hd : |find_three_points.direction realFns vs cog| < EPS <;>
      simp [find_three_points, hb, hn, hd]
  · by_cases hb : balance_check = true <;>
      by_cases hn : (find_three_points.first_axis_raw vs cog).norm realFns < EPS <;>
      by_cases hd : |find_three_points.direction realFns vs cog| < EPS <;>
      simp [find_three_points, hb, hn, hd]
  · unfold Vec3.norm find_three_points.first_axis_raw
    show Real.sqrt _ = Real.sqrt _
    congr 1
    simp [Vec3.squaredNorm, Vec3.cross, Vec3.UnitZ]
    ring
  · intro hb
    subst hb
    exact ⟨_, find_three_points_false hull vs cog⟩

/-- C8 at the example tetrahedron, whose centre of gravity is straight above the
first contact. -/
theorem find_three_points_failure_iff_witness :
    find_three_points realFns (fun _ _ => true) example_tetrahedron ⟨0, 0, 3 / 4⟩ true
      = .error .balanced_at_the_first_rotation :=
  (find_three_points_failure_iff (fun _ _ => true) example_tetrahedron ⟨0, 0, 3 / 4⟩ true
    (by simp [example_tetrahedron])).1.mpr
    ⟨rfl, by
      rw [Vec3.norm, tetrahedron_first_axis_raw]
      simp [Vec3.squaredNorm, realFns, EPS]⟩

/-- C9: for a non-empty vertex list the `place_calculator` constructor throws
"Unstable after placing" exactly when `stability_check` is on, `find_three_points`
returned, and the stability flag it returned is false; that flag is the answer of the
convex hull test for the twice rotated centre of gravity against the twice rotated
vertices with `z <= min_z + EPS`, `min_z` the height of contact 1.  With
`stability_check` off the constructor never throws that failure, and a failure of
`find_three_points` (which is never that failure) is the failure of the constructor. -/
theorem place_calculator_unstable_iff
    (hull : Vec2 ℝ → List (Vec2 ℝ) → Bool) (P : Transform ℝ) (cog : Vec3 ℝ)
    (vertices : List (Vec3 ℝ)) (s : ℝ) (G : Transform ℝ)
    (balance_check stability_check : Bool) (_hv : vertices ≠ []) :
    (place_calculator.place_calculator realFns hull P cog vertices s G balance_check
        stability_check = .error .unstable_after_placing
      ↔ stability_check = true
        ∧ ∃ tp, find_three_points realFns hull
            (place_calculator.current_vertices P vertices G) ((G.mul P).apply cog)
            balance_check = .ok tp
          ∧ tp.stability = false)
    ∧ (∀ tp, find_three_points realFns hull
          (place_calculator.current_vertices P vertices G) ((G.mul P).apply cog)
          balance_check = .ok tp →
        tp.stability = hull
          (find_three_points.final_center_of_gravity realFns
            (place_calculator.current_vertices P vertices G) ((G.mul P).apply cog)).head2
          (((find_three_points.final_vertices realFns
              (place_calculator.current_vertices P vertices G) ((G.mul P).apply cog)).filter
            (fun vertex => vertex.z ≤
              ((find_three_points.final_vertices realFns
                (place_calculator.current_vertices P vertices G)
                ((G.mul P).apply cog)).getD
                  (find_three_points.ground_touch_vertex_id_1
                    (place_calculator.current_vertices P vertices G)) 0).z + EPS)).map
            Vec3.head2))
    ∧ (stability_check = false →
        place_calculator.place_calculator realFns hull P cog vertices s G balance_check
          stability_check ≠ .error .unstable_after_placing)
    ∧ (∀ e, find_three_points realFns hull
          (place_calculator.current_vertices P vertices G) ((G.mul P).apply cog)
          balance_check = .error e →
        e ≠ .unstable_after_placing
        ∧ place_calculator.place_calculator realFns hull P cog vertices s G balance_check
          stability_check = .error e) := by
  have hne : ∀ vs c b, find_three_points realFns hull vs c b
      ≠ .error .unstable_after_placing := by
    intro vs c b
    unfold find_three_points
    split_ifs <;> simp
  have key : place_calculator.place_calculator realFns hull P cog vertices s G balance_check
        stability_check = .error .unstable_after_placing
      ↔ stability_check = true
        ∧ ∃ tp, find_three_points realFns hull
            (place_calculator.current_vertices P vertices G) ((G.mul P).apply cog)
            balance_check = .ok tp
          ∧ tp.stability = false := by
    unfold place_calculator.place_calculator
    split
    · rename_i e he
      constructor
      · intro h
        have : e = .unstable_after_placing := Except.error.inj h
        rw [this] at he
        exact absurd he (hne _ _ _)
      · rintro ⟨_, tp, htp, _⟩
        rw [he] at htp
        exact absurd htp (by simp)
    · rename_i tp htp
      unfold place_calculator.after_find_three_points
      split_ifs with hs
      · simp only [true_iff]
        exact ⟨hs.1, tp, htp, hs.2⟩
      · simp only [false_iff, reduceCtorEq]
        rintro ⟨hsc, tp', htp', hst⟩
        rw [htp] at htp'
        have : tp = tp' := Except.ok.inj htp'
        subst this
        exact hs ⟨hsc, hst⟩
  refine ⟨key, ?_, ?_, ?_⟩
  · intro tp htp
    rw [find_three_points_ok hull _ _ _ tp htp]
    rfl
  · intro hsc h
    rw [key] at h
    rw [hsc] at h
    exact absurd h.1 (by simp)
  · intro e he
    refine ⟨?_, ?_⟩
    · intro h
      rw [h] at he
      exact hne _ _ _ he
    · unfold place_calculator.place_calculator
      rw [he]

/-- C9 at the example tetrahedron with a hull test that always answers no. -/
theorem place_calculator_unstable_iff_witness :
    place_calculator.place_calculator realFns (fun _ _ => false) Transform.identity
      ⟨1, 0, 1⟩ example_tetrahedron 0 Transform.identity false true
      = .error .unstable_after_placing :=
  (place_calculator_unstable_iff (fun _ _ => false) Transform.identity ⟨1, 0, 1⟩
    example_tetrahedron 0 Transform.identity false true
    (by simp [example_tetrahedron])).1.mpr
    ⟨rfl, _, find_three_points_false _ _ _, rfl⟩

/-- C1 at the example tetrahedron with `balance_check` off. -/
theorem find_three_points_indices_valid_distinct_witness :
    ∃ r, find_three_points realFns (fun _ _ => true) example_tetrahedron ⟨0, 0, 3 / 4⟩ false
        = .ok r
      ∧ (r.ground_touch_vertex_id_1 < 4 ∧ r.ground_touch_vertex_id_2 < 4
        ∧ r.ground_touch_vertex_id_3 < 4)
      ∧ r.ground_touch_vertex_id_1 ≠ r.ground_touch_vertex_id_2
      ∧ r.ground_touch_vertex_id_1 ≠ r.ground_touch_vertex_id_3
      ∧ r.ground_touch_vertex_id_2 ≠ r.ground_touch_vertex_id_3 :=
  ⟨_, find_three_points_false _ _ _,
    (find_three_points_indices_valid_distinct (fun _ _ => true) example_tetrahedron
      ⟨0, 0, 3 / 4⟩ false _ (by simp [example_tetrahedron])
      (find_three_points_false _ _ _)).1,
    (find_three_points_indices_valid_distinct (fun _ _ => true) example_tetrahedron
      ⟨0, 0, 3 / 4⟩ false _ (by simp [example_tetrahedron])
      (find_three_points_false _ _ _)).2.1⟩

/-! ## Quaternions of unit length -/

section quaternions

/-- For quaternions of unit length the rotation matrix of a product is the product of
the rotation matrices. -/
theorem Quat.toRotationMatrix_mul (p q : Quat ℝ)
    (hp : p.w * p.w + p.x * p.x + p.y * p.y + p.z * p.z = 1)
    (hq : q.w * q.w + q.x * q.x + q.y * q.y + q.z * q.z = 1) :
    (p.mul q).toRotationMatrix = p.toRotationMatrix.mul q.toRotationMatrix := by
  ext <;> simp only [Quat.toRotationMatrix, Quat.mul, Mat3.mul]
  · linear_combination (1 - (2 * p.y * p.y + 2 * p.z * p.z) - 1) * hq
      + (1 - (2 * q.y * q.y + 2 * q.z * q.z) - 1) * hp
  · linear_combination (2 * p.y * p.x - 2 * p.z * p.w) * hq
      + (2 * q.y * q.x - 2 * q.z * q.w) * hp
  · linear_combination (2 * p.z * p.x + 2 * p.y * p.w) * hq
      + (2 * q.z * q.x + 2 * q.y * q.w) * hp
  · linear_combination (2 * p.y * p.x + 2 * p.z * p.w) * hq
      + (2 * q.y * q.x + 2 * q.z * q.w) * hp
  · linear_combination (1 - (2 * p.x * p.x + 2 * p.z * p.z) - 1) * hq
      + (1 - (2 * q.x * q.x + 2 * q.z * q.z) - 1) * hp
  · linear_combination (2 * p.z * p.y - 2 * p.x * p.w) * hq
      + (2 * q.z * q.y - 2 * q.x * q.w) * hp
  · linear_combination (2 * p.z * p.x - 2 * p.y * p.w) * hq
      + (2 * q.z * q.x - 2 * q.y * q.w) * hp
  · linear_combination (2 * p.z * p.y + 2 * p.x * p.w) * hq
      + (2 * q.z * q.y + 2 * q.x * q.w) * hp
  · linear_combination (1 - (2 * p.x * p.x + 2 * p.y * p.y) - 1) * hq
      + (1 - (2 * q.x * q.x + 2 * q.y * q.y) - 1) * hp

theorem half_angle (θ : ℝ) :
    Real.cos θ = 1 - 2 * (Real.sin (1 / 2 * θ) * Real.sin (1 / 2 * θ))
    ∧ Real.sin θ = 2 * Real.sin (1 / 2 * θ) * Real.cos (1 / 2 * θ) := by
  have h1 := Real.cos_two_mul (1 / 2 * θ)
  have h2 := Real.sin_two_mul (1 / 2 * θ)
  have h3 := Real.sin_sq_add_cos_sq (1 / 2 * θ)
  have e : 2 * (1 / 2 * θ) = θ := by ring
  rw [e] at h1 h2
  constructor
  · nlinarith [h1, h3]
  · exact h2

/-- The quaternion of an angle-axis rotation about a unit axis has unit length. -/
theorem Quat.ofAngleAxis_unit (r : AngleAxis ℝ) (h : r.axis.squaredNorm = 1) :
    (Quat.ofAngleAxis realFns r).w * (Quat.ofAngleAxis realFns r).w
      + (Quat.ofAngleAxis realFns r).x * (Quat.ofAngleAxis realFns r).x
      + (Quat.ofAngleAxis realFns r).y * (Quat.ofAngleAxis realFns r).y
      + (Quat.ofAngleAxis realFns r).z * (Quat.ofAngleAxis realFns r).z = 1 := by
  have h3 := Real.sin_sq_add_cos_sq (1 / 2 * r.angle)
  simp only [Vec3.squaredNorm] at h
  simp only [Quat.ofAngleAxis, Vec3.smul, realFns]
  linear_combination (Real.sin (1 / 2 * r.angle) * Real.sin (1 / 2 * r.angle)) * h + h3

/-- For a unit axis the quaternion of an angle-axis rotation has the rotation matrix of
the angle-axis rotation. -/
theorem Quat.toRotationMatrix_ofAngleAxis (r : AngleAxis ℝ) (h : r.axis.squaredNorm = 1) :
    (Quat.ofAngleAxis realFns r).toRotationMatrix = r.toRotationMatrix realFns := by
  obtain ⟨hc, hs⟩ := half_angle r.angle
  simp only [Vec3.squaredNorm] at h
  ext <;> simp only [Quat.toRotationMatrix, Quat.ofAngleAxis, AngleAxis.toRotationMatrix,
    Vec3.smul, realFns] <;> rw [hc] <;> try rw [hs]
  · linear_combination
      (-2 * (Real.sin (1 / 2 * r.angle) * Real.sin (1 / 2 * r.angle))) * h
  · ring
  · ring
  · ring
  · linear_combination
      (-2 * (Real.sin (1 / 2 * r.angle) * Real.sin (1 / 2 * r.angle))) * h
  · ring
  · ring
  · ring
  · linear_combination
      (-2 * (Real.sin (1 / 2 * r.angle) * Real.sin (1 / 2 * r.angle))) * h

/-- The product of two angle-axis rotations about unit axes, as Eigen forms it through
quaternions, has the product of the two rotation matrices as rotation matrix. -/
theorem Quat.toRotationMatrix_product (r2 r1 : AngleAxis ℝ)
    (h2 : r2.axis.squaredNorm = 1) (h1 : r1.axis.squaredNorm = 1) :
    ((Quat.ofAngleAxis realFns r2).mul (Quat.ofAngleAxis realFns r1)).toRotationMatrix
      = (r2.toRotationMatrix realFns).mul (r1.toRotationMatrix realFns) := by
  rw [Quat.toRotationMatrix_mul _ _ (Quat.ofAngleAxis_unit r2 h2) (Quat.ofAngleAxis_unit r1 h1),
    Quat.toRotationMatrix_ofAngleAxis r2 h2, Quat.toRotationMatrix_ofAngleAxis r1 h1]

theorem AngleAxis.transpose_toRotationMatrix (r : AngleAxis ℝ) :
    (r.toRotationMatrix realFns).transpose
      = (AngleAxis.mk (-r.angle) r.axis).toRotationMatrix realFns := by
  ext <;> simp only [AngleAxis.toRotationMatrix, Vec3.smul, realFns, Mat3.transpose,
    Real.cos_neg, Real.sin_neg] <;> ring

theorem Quat.identity_toRotationMatrix :
    (Quat.mk (1 : ℝ) 0 0 0).toRotationMatrix = Mat3.identity := by
  ext <;> simp [Quat.toRotationMatrix, Mat3.identity]

theorem Quat.ofAngleAxis_mul_neg (r : AngleAxis ℝ) (h : r.axis.squaredNorm = 1) :
    (Quat.ofAngleAxis realFns r).mul (Quat.ofAngleAxis realFns ⟨-r.angle, r.axis⟩)
      = ⟨1, 0, 0, 0⟩
    ∧ (Quat.ofAngleAxis realFns ⟨-r.angle, r.axis⟩).mul (Quat.ofAngleAxis realFns r)
      = ⟨1, 0, 0, 0⟩ := by
  have h3 := Real.sin_sq_add_cos_sq (1 / 2 * r.angle)
  have e : 1 / 2 * -r.angle = -(1 / 2 * r.angle) := by ring
  simp only [Vec3.squaredNorm] at h
  constructor <;> ext <;>
    simp only [Quat.ofAngleAxis, Quat.mul, Vec3.smul, realFns, e, Real.cos_neg, Real.sin_neg]
  · linear_combination (Real.sin (1 / 2 * r.angle) * Real.sin (1 / 2 * r.angle)) * h + h3
  · ring
  · ring
  · ring
  · linear_combination (Real.sin (1 / 2 * r.angle) * Real.sin (1 / 2 * r.angle)) * h + h3
  · ring
  · ring
  · ring

/-- The rotation matrix of an angle-axis rotation about a unit axis is orthogonal. -/
theorem AngleAxis.toRotationMatrix_orthogonal (r : AngleAxis ℝ) (h : r.axis.squaredNorm = 1) :
    (r.toRotationMatrix realFns).mul (r.toRotationMatrix realFns).transpose = Mat3.identity
    ∧ (r.toRotationMatrix realFns).transpose.mul (r.toRotationMatrix realFns)
      = Mat3.identity := by
  have h' : (AngleAxis.mk (-r.angle) r.axis).axis.squaredNorm = 1 := h
  rw [AngleAxis.transpose_toRotationMatrix]
  constructor
  · rw [← Quat.toRotationMatrix_product r ⟨-r.angle, r.axis⟩ h h',
      (Quat.ofAngleAxis_mul_neg r h).1, Quat.identity_toRotationMatrix]
  · rw [← Quat.toRotationMatrix_product ⟨-r.angle, r.axis⟩ r h' h,
      (Quat.ofAngleAxis_mul_neg r h).2, Quat.identity_toRotationMatrix]

end quaternions

/-! ## The contact solver and the kinematics at the chosen contacts -/

section correspondence

theorem getD_map_rotate (r : AngleAxis ℝ) (vs : List (Vec3 ℝ)) (i : Nat) :
    (vs.map (r.rotate realFns)).getD i 0 = r.rotate realFns (vs.getD i 0) := by
  simp only [List.getD_eq_getElem?_getD, List.getElem?_map]
  cases vs[i]? with
  | none => simp
  | some v => rfl

open find_three_points in
theorem rotated_vertices_getD (vs : List (Vec3 ℝ)) (cog : Vec3 ℝ) (i : Nat) :
    (rotated_vertices realFns vs cog).getD i 0
      = (first_rotation realFns vs cog).rotate realFns (vs.getD i 0) :=
  getD_map_rotate _ _ _

open find_three_points in
theorem final_vertices_getD (vs : List (Vec3 ℝ)) (cog : Vec3 ℝ) (i : Nat) :
    (final_vertices realFns vs cog).getD i 0
      = (second_rotation realFns vs cog).rotate realFns
          ((first_rotation realFns vs cog).rotate realFns (vs.getD i 0)) := by
  unfold final_vertices
  rw [getD_map_rotate, rotated_vertices_getD]

/-- The placing problem in which the contacts are the vertices chosen by
`find_three_points` for the vertex list `vertices` in the pose `P`. -/
theorem chosen_placing_matches (P G : Transform ℝ) (cog : Vec3 ℝ) (vertices : List (Vec3 ℝ))
    (s : ℝ) (hn : 3 ≤ vertices.length) :
    (Placing.mk P cog
        (vertices.getD (find_three_points.ground_touch_vertex_id_1
          (place_calculator.current_vertices P vertices G)) 0)
        (vertices.getD (find_three_points.ground_touch_vertex_id_2 realFns
          (place_calculator.current_vertices P vertices G) ((G.mul P).apply cog)) 0)
        (vertices.getD (find_three_points.ground_touch_vertex_id_3 realFns
          (place_calculator.current_vertices P vertices G) ((G.mul P).apply cog)) 0)
        s G).first_rotation realFns
      = find_three_points.first_rotation realFns
          (place_calculator.current_vertices P vertices G) ((G.mul P).apply cog)
    ∧ (Placing.mk P cog
        (vertices.getD (find_three_points.ground_touch_vertex_id_1
          (place_calculator.current_vertices P vertices G)) 0)
        (vertices.getD (find_three_points.ground_touch_vertex_id_2 realFns
          (place_calculator.current_vertices P vertices G) ((G.mul P).apply cog)) 0)
        (vertices.getD (find_three_points.ground_touch_vertex_id_3 realFns
          (place_calculator.current_vertices P vertices G) ((G.mul P).apply cog)) 0)
        s G).second_rotation realFns
      = find_three_points.second_rotation realFns
          (place_calculator.current_vertices P vertices G) ((G.mul P).apply cog) := by
  set cv := place_calculator.current_vertices P vertices G with hcv
  set cc := (G.mul P).apply cog with hcc
  have hlen : cv.length = vertices.length := by simp [hcv, place_calculator.current_vertices]
  have hne : cv ≠ [] := by
    intro h
    rw [h] at hlen
    simp at hlen
    omega
  have hn' : 3 ≤ cv.length := by omega
  have hi1 := id1_lt cv hne
  have hi2 := id2_lt cv cc hne
  have hi3 := id3_lt cv cc hne
  obtain ⟨hne21, -, -⟩ := first_angle_chosen cv cc (by omega)
  obtain ⟨hne31, hne32, -, -⟩ := second_angle_chosen cv cc hn'
  set a : Placing ℝ := Placing.mk P cog
        (vertices.getD (find_three_points.ground_touch_vertex_id_1 cv) 0)
        (vertices.getD (find_three_points.ground_touch_vertex_id_2 realFns cv cc) 0)
        (vertices.getD (find_three_points.ground_touch_vertex_id_3 realFns cv cc) 0)
        s G with ha
  have ecog : a.current_center_of_gravity = cc := rfl
  have e1 : a.current_ground_touch_vertex_1
      = cv.getD (find_three_points.ground_touch_vertex_id_1 cv) 0 :=
    (getD_map_apply _ _ _ (by omega)).symm
  have e2 : a.current_ground_touch_vertex_2
      = cv.getD (find_three_points.ground_touch_vertex_id_2 realFns cv cc) 0 :=
    (getD_map_apply _ _ _ (by omega)).symm
  have e3 : a.current_ground_touch_vertex_3
      = cv.getD (find_three_points.ground_touch_vertex_id_3 realFns cv cc) 0 :=
    (getD_map_apply _ _ _ (by omega)).symm
  have hax : a.first_axis realFns = find_three_points.first_axis realFns cv cc := by
    unfold Placing.first_axis Placing.first_axis_raw find_three_points.first_axis
      find_three_points.first_axis_raw
    rw [e1, ecog]
  have hang : a.first_angle realFns = (find_three_points.first_angles realFns cv cc).getD
      (find_three_points.ground_touch_vertex_id_2 realFns cv cc) 0 := by
    rw [first_angles_getD cv cc _ hi2, if_neg hne21]
    unfold Placing.first_angle Placing.v1v2
    rw [hax, e1, e2]
  have hrot1 : a.first_rotation realFns = find_three_points.first_rotation realFns cv cc := by
    unfold Placing.first_rotation find_three_points.first_rotation
    rw [hang, hax]
  have r1 : a.rotated_ground_touch_vertex_1 realFns
      = (find_three_points.rotated_vertices realFns cv cc).getD
          (find_three_points.ground_touch_vertex_id_1 cv) 0 := by
    rw [rotated_vertices_getD]
    unfold Placing.rotated_ground_touch_vertex_1
    rw [hrot1, e1]
  have r2 : a.rotated_ground_touch_vertex_2 realFns
      = (find_three_points.rotated_vertices realFns cv cc).getD
          (find_three_points.ground_touch_vertex_id_2 realFns cv cc) 0 := by
    rw [rotated_vertices_getD]
    unfold Placing.rotated_ground_touch_vertex_2
    rw [hrot1, e2]
  have r3 : a.rotated_ground_touch_vertex_3 realFns
      = (find_three_points.rotated_vertices realFns cv cc).getD
          (find_three_points.ground_touch_vertex_id_3 realFns cv cc) 0 := by
    rw [rotated_vertices_getD]
    unfold Placing.rotated_ground_touch_vertex_3
    rw [hrot1, e3]
  have rc : a.rotated_center_of_gravity realFns
      = find_three_points.rotated_center_of_gravity realFns cv cc := by
    unfold Placing.rotated_center_of_gravity find_three_points.rotated_center_of_gravity
    rw [hrot1, ecog]
  have hinit : a.second_axis_init realFns
      = find_three_points.second_axis_init realFns cv cc := by
    unfold Placing.second_axis_init find_three_points.second_axis_init
    rw [r1, r2]
  have hax2 : a.second_axis realFns = find_three_points.second_axis realFns cv cc := by
    unfold Placing.second_axis find_three_points.second_axis find_three_points.direction
    rw [hinit, rc, r1]
  have hang2 : a.second_angle realFns = (find_three_points.second_angles realFns cv cc).getD
      (find_three_points.ground_touch_vertex_id_3 realFns cv cc) 0 := by
    rw [second_angles_getD cv cc _ hi3, if_neg (by
      intro h
      rcases h with h | h
      · exact hne31 h
      · exact hne32 h)]
    unfold Placing.second_angle Placing.v1v3
    rw [hax2, r1, r3]
  refine ⟨hrot1, ?_⟩
  unfold Placing.second_rotation find_three_points.second_rotation
  rw [hang2, hax2]

end correspondence

/-! ## The new mean is the pose the kinematics returns -/

section fixed_point

theorem Vec3.squaredNorm_neg (v : Vec3 ℝ) : (-v).squaredNorm = v.squaredNorm := by
  simp only [Vec3.squaredNorm, Vec3.neg_def]
  ring

theorem Transform.isIsometry_inverse (a : Transform ℝ) (h : a.IsIsometry) :
    a.inverse.IsIsometry :=
  ⟨h.2, h.1⟩

theorem Transform.isIsometry_translate (a : Transform ℝ) (t : Vec3 ℝ) (h : a.IsIsometry) :
    (a.translate t).IsIsometry :=
  h

theorem Transform.isIsometry_rotate (a : Transform ℝ) (r : Mat3 ℝ) (h : a.IsIsometry)
    (hr : r.mul r.transpose = Mat3.identity ∧ r.transpose.mul r = Mat3.identity) :
    (a.rotate r).IsIsometry :=
  Transform.isIsometry_mul a ⟨r, 0⟩ h hr

theorem Transform.rotate_rotate (a : Transform ℝ) (r2 r1 : Mat3 ℝ) :
    (a.rotate r2).rotate r1 = a.rotate (r2.mul r1) := by
  simp only [Transform.rotate, Mat3.mat_mul_assoc]

open find_three_points in
/-- With a non-degenerate first axis the first rotation is about a unit axis. -/
theorem first_rotation_unit (vs : List (Vec3 ℝ)) (cog : Vec3 ℝ)
    (h : first_axis_raw vs cog ≠ 0) :
    (first_rotation realFns vs cog).axis.squaredNorm = 1 :=
  Vec3.squaredNorm_normalized _ h

open find_three_points in
/-- With a non-degenerate second axis the second rotation is about a unit axis. -/
theorem second_rotation_unit (vs : List (Vec3 ℝ)) (cog : Vec3 ℝ)
    (h : (rotated_vertices realFns vs cog).getD (ground_touch_vertex_id_2 realFns vs cog) 0
      - (rotated_vertices realFns vs cog).getD (ground_touch_vertex_id_1 vs) 0 ≠ 0) :
    (second_rotation realFns vs cog).axis.squaredNorm = 1 := by
  have h1 : (second_axis_init realFns vs cog).squaredNorm = 1 :=
    Vec3.squaredNorm_normalized _ h
  show (second_axis realFns vs cog).squaredNorm = 1
  unfold second_axis
  split_ifs
  · rw [Vec3.squaredNorm_neg, h1]
  · exact h1

open find_three_points in
/-- With non-degenerate axes the returned quaternion has the product of the two
rotation matrices as its rotation matrix. -/
theorem rotation_toRotationMatrix (vs : List (Vec3 ℝ)) (cog : Vec3 ℝ)
    (h1 : first_axis_raw vs cog ≠ 0)
    (h2 : (rotated_vertices realFns vs cog).getD (ground_touch_vertex_id_2 realFns vs cog) 0
      - (rotated_vertices realFns vs cog).getD (ground_touch_vertex_id_1 vs) 0 ≠ 0) :
    (rotation realFns vs cog).toRotationMatrix
      = ((second_rotation realFns vs cog).toRotationMatrix realFns).mul
          ((first_rotation realFns vs cog).toRotationMatrix realFns) :=
  Quat.toRotationMatrix_product _ _ (second_rotation_unit vs cog h2)
    (first_rotation_unit vs cog h1)

theorem hat_operator_zero :
    Mat4.toTransform (Mat4.add Mat4.identity (hat_operator (fun _ => (0 : ℝ))))
      = Transform.identity := by
  simp only [Mat4.toTransform, Mat4.add, Mat4.identity, hat_operator, Transform.identity,
    Mat3.identity]
  ext <;> simp

theorem check_operator_zero :
    check_operator (Mat4.add (Mat4.neg Mat4.identity)
      (Mat4.ofTransform (Transform.identity : Transform ℝ))) = fun _ => 0 := by
  funext i
  fin_cases i <;>
    simp [check_operator, Mat4.add, Mat4.neg, Mat4.identity, Mat4.ofTransform,
      Transform.identity, Mat3.identity]
  all_goals rfl

end fixed_point

/-- The pose the kinematics returns at the old mean with the chosen contacts is the
stored new mean, and the tangent-space update passes its assertion. -/
theorem new_mean_of_chosen_contacts
    (hull : Vec2 ℝ → List (Vec2 ℝ) → Bool) (P : Transform ℝ) (cog : Vec3 ℝ)
    (vertices : List (Vec3 ℝ)) (s : ℝ) (G : Transform ℝ) (bc sc : Bool)
    (c : place_calculator ℝ)
    (hn : 3 ≤ vertices.length) (hP : P.IsIsometry) (hG : G.IsIsometry)
    (hc : place_calculator.place_calculator realFns hull P cog vertices s G bc sc = .ok c)
    (hax1 : find_three_points.first_axis_raw
      (place_calculator.current_vertices P vertices G) ((G.mul P).apply cog) ≠ 0)
    (hax2 : (find_three_points.rotated_vertices realFns
        (place_calculator.current_vertices P vertices G) ((G.mul P).apply cog)).getD
          (find_three_points.ground_touch_vertex_id_2 realFns
            (place_calculator.current_vertices P vertices G) ((G.mul P).apply cog)) 0
      - (find_three_points.rotated_vertices realFns
        (place_calculator.current_vertices P vertices G) ((G.mul P).apply cog)).getD
          (find_three_points.ground_touch_vertex_id_1
            (place_calculator.current_vertices P vertices G)) 0 ≠ 0) :
    calculate_transform_after_placing realFns P cog c.ground_touch_vertex_1
        c.ground_touch_vertex_2 c.ground_touch_vertex_3 s G = c.new_mean
    ∧ c.old_mean = P
    ∧ calculate_perturbation realFns c (fun _ => 0) = (fun _ => 0)
    ∧ Particle.norm realFns (calculate_perturbation realFns c (fun _ => 0)) < LARGE_EPS
    ∧ ∀ (Jacobian old_covariance : CovarianceMatrix ℝ),
        place_update_Lie_distribution realFns hull bc sc Jacobian P old_covariance cog
          vertices s G
          = .returned c.new_mean (Jacobian * old_covariance * Jacobian.transpose) := by
  obtain ⟨tp, htp, hst, hc'⟩ := place_calculator_ok hull P cog vertices s G bc sc c hc
  have htp' := find_three_points_ok hull _ _ bc tp htp
  unfold place_calculator.after_find_three_points at hc'
  rw [if_neg hst] at hc'
  have hceq := (Except.ok.inj hc').symm
  obtain ⟨hrot1, hrot2⟩ := chosen_placing_matches P G cog vertices s hn
  have hRq := rotation_toRotationMatrix _ _ hax1 hax2
  have hlen : (place_calculator.current_vertices P vertices G).length = vertices.length := by
    simp [place_calculator.current_vertices]
  have hne : place_calculator.current_vertices P vertices G ≠ [] := by
    intro h
    rw [h] at hlen
    simp at hlen
    omega
  have hi1 := id1_lt _ hne
  -- the pose the kinematics returns is the stored new mean
  have hmain : calculate_transform_after_placing realFns P cog c.ground_touch_vertex_1
      c.ground_touch_vertex_2 c.ground_touch_vertex_3 s G = c.new_mean := by
    rw [hceq, htp']
    simp only
    unfold calculate_transform_after_placing Placing.result Placing.final_translation
      Placing.final_center_of_gravity Placing.final_ground_touch_vertex_1
      Placing.rotated_center_of_gravity Placing.rotated_ground_touch_vertex_1
    rw [hrot1, hrot2, Transform.rotate_rotate, ← hRq, Transform.comp_assoc]
    have hget : (place_calculator.current_vertices P vertices G).getD
        (find_three_points.ground_touch_vertex_id_1
          (place_calculator.current_vertices P vertices G)) 0
        = (G.mul P).apply (vertices.getD (find_three_points.ground_touch_vertex_id_1
          (place_calculator.current_vertices P vertices G)) 0) :=
      getD_map_apply _ _ _ (by omega)
    simp only [Quat.transformVector_eq, hRq, ← Mat3.mulVec_mulVec, AngleAxis.rotate,
      Placing.current_center_of_gravity, Placing.current_ground_touch_vertex_1,
      Placing.current_transform, hget]
  have hold : c.old_mean = P := by rw [hceq]
  have hcog : c.center_of_gravity = cog := by rw [hceq]
  have hsup : c.support_surface = s := by rw [hceq]
  have hgrip : c.gripper_transform = G := by rw [hceq]
  -- the new mean is an isometry
  have hiso : c.new_mean.IsIsometry := by
    rw [hceq]
    simp only
    refine Transform.isIsometry_mul _ _ (Transform.isIsometry_mul _ _ ?_ hG) hP
    refine Transform.isIsometry_rotate _ _
      (Transform.isIsometry_translate _ _ (Transform.isIsometry_inverse _ hG)) ?_
    rw [htp']
    simp only
    rw [hRq]
    have o1 := AngleAxis.toRotationMatrix_orthogonal _ (first_rotation_unit _ _ hax1)
    have o2 := AngleAxis.toRotationMatrix_orthogonal _ (second_rotation_unit _ _ hax2)
    exact Transform.isIsometry_mul ⟨_, 0⟩ ⟨_, 0⟩ o2 o1
  have hres : calculate_perturbation realFns c (fun _ => 0) = (fun _ => 0) := by
    unfold calculate_perturbation
    simp only
    rw [hat_operator_zero, Transform.identity_comp, hold, hcog, hsup, hgrip, hmain,
      Transform.mul_inverse _ hiso, check_operator_zero]
  have hnorm : Particle.norm realFns (calculate_perturbation realFns c (fun _ => 0))
      < LARGE_EPS := by
    rw [hres]
    simp [Particle.norm, realFns, LARGE_EPS]
  refine ⟨hmain, hold, hres, hnorm, ?_⟩
  intro Jacobian old_covariance
  unfold place_update_Lie_distribution
  rw [hc]
  simp only
  rw [if_pos hnorm]

/-! ## The contacts are level and lowest -/

section lowest

open find_three_points

variable (vs : List (Vec3 ℝ)) (cog : Vec3 ℝ)

end lowest

section solver_examples

/-- The robust argmin is the index `k` when the entry at `k` is a smallest one and
every earlier entry exceeds it by more than `EPS`. -/
theorem argmin_eq (vec : List ℝ) (k : Nat) (hk : k < vec.length)
    (hmin : ∀ i, i < vec.length → vec.getD k 0 ≤ vec.getD i 0)
    (hbefore : ∀ j, j < k → vec.getD k 0 + EPS < vec.getD j 0) :
    argmin vec = k := by
  have hne : vec ≠ [] := by intro h; simp [h] at hk
  have hr := argmin_lt_length vec hne
  have hle := argmin_le_add_EPS vec k hk
  rcases Nat.lt_trichotomy (argmin vec) k with h | h | h
  · have := hbefore _ h
    linarith
  · exact h
  · have h1 := argmin_lt_of_lt vec k h
    have h2 := hmin _ hr
    linarith

open find_three_points in
theorem tetrahedron_first_axis :
    first_axis realFns (example_tetrahedron : List (Vec3 ℝ)) ⟨0, 0, 3 / 4⟩ = 0 := by
  unfold first_axis
  rw [tetrahedron_first_axis_raw]
  exact Vec3.normalized_zero

open find_three_points in
/-- In the example tetrahedron every vertex but the apex has the first angle `π/2`. -/
theorem tetrahedron_first_angles (i : Nat) (hi : i < 4) :
    (first_angles realFns (example_tetrahedron : List (Vec3 ℝ)) ⟨0, 0, 3 / 4⟩).getD i 0
      = if i = 0 then INF else Real.pi / 2 := by
  rw [first_angles_getD _ _ i (by simpa [example_tetrahedron] using hi), tetrahedron_id1,
    tetrahedron_first_axis]
  by_cases h0 : i = 0
  · rw [if_pos h0, if_pos h0]
  · rw [if_neg h0, if_neg h0]
    have hz : ((example_tetrahedron : List (Vec3 ℝ)).getD i 0
        - (example_tetrahedron : List (Vec3 ℝ)).getD 0 0).z = 1 := by
      have : i = 1 ∨ i = 2 ∨ i = 3 := by omega
      rcases this with h | h | h <;> subst h <;> simp [example_tetrahedron]
    rw [hz]
    simp only [Vec3.zero_x, Vec3.zero_y, zero_mul, sub_zero, abs_one]
    exact atan2_pos_zero 1 one_pos

open find_three_points in
theorem tetrahedron_id2 :
    ground_touch_vertex_id_2 realFns (example_tetrahedron : List (Vec3 ℝ)) ⟨0, 0, 3 / 4⟩
      = 1 := by
  have hlen : (first_angles realFns (example_tetrahedron : List (Vec3 ℝ))
      ⟨0, 0, 3 / 4⟩).length = 4 := by
    rw [first_angles_length]
    rfl
  apply argmin_eq _ 1 (by omega)
  · intro i hi
    rw [tetrahedron_first_angles 1 (by omega), tetrahedron_first_angles i (by omega)]
    by_cases h0 : i = 0
    · rw [if_pos h0]
      have := pi_add_EPS_lt_INF
      have := (EPS_pos : (0 : ℝ) < EPS)
      have := Real.pi_pos
      simp only [one_ne_zero, if_false]
      linarith
    · rw [if_neg h0]
      simp
  · intro j hj
    have : j = 0 := by omega
    subst this
    rw [tetrahedron_first_angles 1 (by omega), tetrahedron_first_angles 0 (by omega)]
    have := pi_add_EPS_lt_INF
    have := Real.pi_pos
    simp only [one_ne_zero, if_false, if_true]
    linarith

open find_three_points in
theorem tetrahedron_first_rotation :
    first_rotation realFns (example_tetrahedron : List (Vec3 ℝ)) ⟨0, 0, 3 / 4⟩
      = ⟨Real.pi / 2, 0⟩ := by
  unfold first_rotation
  rw [tetrahedron_id2, tetrahedron_first_angles 1 (by omega), tetrahedron_first_axis]
  simp

open find_three_points in
/-- The first rotation of the example tetrahedron sends every vertex to the origin. -/
theorem tetrahedron_rotated (i : Nat) :
    (rotated_vertices realFns (example_tetrahedron : List (Vec3 ℝ)) ⟨0, 0, 3 / 4⟩).getD i 0
      = 0 := by
  rw [rotated_vertices_getD, tetrahedron_first_rotation, AngleAxis.rotate_axis_zero _ _ rfl]
  ext <;> simp [Vec3.smul]

end solver_examples

section prism

open find_three_points

theorem first_angles_nonneg (vs : List (Vec3 ℝ)) (cog : Vec3 ℝ) (i : Nat)
    (hi : i < vs.length) : 0 ≤ (first_angles realFns vs cog).getD i 0 := by
  rw [first_angles_getD vs cog i hi]
  split_ifs
  · unfold INF
    norm_num
  · exact atan2_nonneg _ _ (abs_nonneg _)

theorem second_angles_nonneg (vs : List (Vec3 ℝ)) (cog : Vec3 ℝ) (i : Nat)
    (hi : i < vs.length) : 0 ≤ (second_angles realFns vs cog).getD i 0 := by
  rw [second_angles_getD vs cog i hi]
  split_ifs
  · unfold INF
    norm_num
  · exact atan2_nonneg _ _ (abs_nonneg _)

theorem prism_length : (example_prism : List (Vec3 ℝ)).length = 6 := rfl

theorem prism_id1 : ground_touch_vertex_id_1 (example_prism : List (Vec3 ℝ)) = 0 := by
  simp [ground_touch_vertex_id_1, argmin, example_prism, current_vertices_z, List.range', EPS]
  norm_num

theorem prism_first_axis_raw :
    first_axis_raw (example_prism : List (Vec3 ℝ)) ⟨1, 0, 1⟩ = ⟨0, 1, 0⟩ := by
  rw [first_axis_raw, prism_id1]
  ext <;> simp [example_prism, Vec3.cross, Vec3.UnitZ]

theorem prism_first_axis :
    first_axis realFns (example_prism : List (Vec3 ℝ)) ⟨1, 0, 1⟩ = ⟨0, 1, 0⟩ := by
  unfold first_axis
  rw [prism_first_axis_raw]
  exact Vec3.normalized_of_squaredNorm_one _ (by simp [Vec3.squaredNorm])

theorem prism_first_angle_1 :
    (first_angles realFns (example_prism : List (Vec3 ℝ)) ⟨1, 0, 1⟩).getD 1 0 = 0 := by
  rw [first_angles_getD _ _ 1 (by rw [prism_length]; omega), prism_id1, prism_first_axis,
    if_neg (by omega)]
  have e : (example_prism : List (Vec3 ℝ)).getD 1 0 - (example_prism : List (Vec3 ℝ)).getD 0 0
      = ⟨4, 3, 0⟩ := by
    ext <;> simp [example_prism]
  rw [e]
  simp only [abs_zero]
  exact atan2_zero_of_nonneg _ (by norm_num)

theorem prism_id2 :
    ground_touch_vertex_id_2 realFns (example_prism : List (Vec3 ℝ)) ⟨1, 0, 1⟩ = 1 := by
  apply argmin_eq _ 1 (by rw [first_angles_length, prism_length]; omega)
  · intro i hi
    rw [first_angles_length] at hi
    rw [prism_first_angle_1]
    exact first_angles_nonneg _ _ i hi
  · intro j hj
    have : j = 0 := by omega
    subst this
    rw [prism_first_angle_1, first_angles_getD _ _ 0 (by rw [prism_length]; omega), prism_id1,
      if_pos rfl]
    unfold EPS INF
    norm_num

theorem prism_first_rotation (v : Vec3 ℝ) :
    (first_rotation realFns (example_prism : List (Vec3 ℝ)) ⟨1, 0, 1⟩).rotate realFns v = v := by
  have h0 : (first_rotation realFns (example_prism : List (Vec3 ℝ)) ⟨1, 0, 1⟩).angle = 0 := by
    show (first_angles realFns (example_prism : List (Vec3 ℝ)) ⟨1, 0, 1⟩).getD
      (ground_touch_vertex_id_2 realFns (example_prism : List (Vec3 ℝ)) ⟨1, 0, 1⟩) 0 = 0
    rw [prism_id2, prism_first_angle_1]
  show ((first_rotation realFns (example_prism : List (Vec3 ℝ)) ⟨1, 0, 1⟩).toRotationMatrix
    realFns).mulVec v = v
  rw [AngleAxis.toRotationMatrix_angle_zero _ h0, Mat3.identity_mulVec]

theorem prism_rotated (i : Nat) :
    (rotated_vertices realFns (example_prism : List (Vec3 ℝ)) ⟨1, 0, 1⟩).getD i 0
      = (example_prism : List (Vec3 ℝ)).getD i 0 := by
  rw [rotated_vertices_getD, prism_first_rotation]

theorem prism_rotated_v1v2 :
    (rotated_vertices realFns (example_prism : List (Vec3 ℝ)) ⟨1, 0, 1⟩).getD
        (ground_touch_vertex_id_2 realFns (example_prism : List (Vec3 ℝ)) ⟨1, 0, 1⟩) 0
      - (rotated_vertices realFns (example_prism : List (Vec3 ℝ)) ⟨1, 0, 1⟩).getD
        (ground_touch_vertex_id_1 (example_prism : List (Vec3 ℝ))) 0 = ⟨4, 3, 0⟩ := by
  rw [prism_rotated, prism_rotated, prism_id1, prism_id2]
  ext <;> simp [example_prism]

theorem prism_second_axis :
    second_axis realFns (example_prism : List (Vec3 ℝ)) ⟨1, 0, 1⟩ = ⟨4 / 5, 3 / 5, 0⟩ := by
  have hinit : second_axis_init realFns (example_prism : List (Vec3 ℝ)) ⟨1, 0, 1⟩
      = ⟨4 / 5, 3 / 5, 0⟩ := by
    unfold second_axis_init
    rw [prism_rotated_v1v2]
    unfold Vec3.normalized
    have hs : Vec3.squaredNorm (⟨4, 3, 0⟩ : Vec3 ℝ) = 5 ^ 2 := by
      simp [Vec3.squaredNorm]
      norm_num
    rw [hs, if_pos (by norm_num)]
    have h5 : realFns.sqrt (5 ^ 2) = 5 := Real.sqrt_sq (by norm_num)
    rw [h5]
    ext <;> simp [Vec3.sdiv]
  unfold second_axis direction
  rw [hinit, prism_rotated, prism_id1]
  rw [if_neg]
  unfold rotated_center_of_gravity
  rw [prism_first_rotation]
  simp [Vec3.cross, example_prism]
  norm_num

theorem prism_second_angle_2 :
    (second_angles realFns (example_prism : List (Vec3 ℝ)) ⟨1, 0, 1⟩).getD 2 0 = 0 := by
  rw [second_angles_getD _ _ 2 (by rw [prism_length]; omega), prism_id1, prism_id2,
    prism_second_axis, if_neg (by omega), prism_rotated, prism_rotated]
  have e : (example_prism : List (Vec3 ℝ)).getD 2 0 - (example_prism : List (Vec3 ℝ)).getD 0 0
      = ⟨4, -3, 0⟩ := by
    ext <;> simp [example_prism]
  rw [e]
  simp only [abs_zero]
  exact atan2_zero_of_nonneg _ (by norm_num)

theorem prism_id3 :
    ground_touch_vertex_id_3 realFns (example_prism : List (Vec3 ℝ)) ⟨1, 0, 1⟩ = 2 := by
  apply argmin_eq _ 2 (by rw [second_angles_length, prism_length]; omega)
  · intro i hi
    rw [second_angles_length] at hi
    rw [prism_second_angle_2]
    exact second_angles_nonneg _ _ i hi
  · intro j hj
    rw [prism_second_angle_2, second_angles_getD _ _ j (by rw [prism_length]; omega),
      prism_id1, prism_id2, if_pos (by omega)]
    unfold EPS INF
    norm_num

/-- The example prism meets the conditions of the amended C2. -/
theorem prism_exact :
    first_axis_raw (example_prism : List (Vec3 ℝ)) ⟨1, 0, 1⟩ ≠ 0
    ∧ (rotated_vertices realFns (example_prism : List (Vec3 ℝ)) ⟨1, 0, 1⟩).getD
          (ground_touch_vertex_id_2 realFns (example_prism : List (Vec3 ℝ)) ⟨1, 0, 1⟩) 0
        - (rotated_vertices realFns (example_prism : List (Vec3 ℝ)) ⟨1, 0, 1⟩).getD
          (ground_touch_vertex_id_1 (example_prism : List (Vec3 ℝ))) 0 ≠ 0
    ∧ (∀ i, i < (example_prism : List (Vec3 ℝ)).length →
        ((example_prism : List (Vec3 ℝ)).getD
          (ground_touch_vertex_id_1 (example_prism : List (Vec3 ℝ))) 0).z
          ≤ ((example_prism : List (Vec3 ℝ)).getD i 0).z)
    ∧ (∀ i, i < (example_prism : List (Vec3 ℝ)).length →
        (first_angles realFns (example_prism : List (Vec3 ℝ)) ⟨1, 0, 1⟩).getD
            (ground_touch_vertex_id_2 realFns (example_prism : List (Vec3 ℝ)) ⟨1, 0, 1⟩) 0
          ≤ (first_angles realFns (example_prism : List (Vec3 ℝ)) ⟨1, 0, 1⟩).getD i 0)
    ∧ (∀ i, i < (example_prism : List (Vec3 ℝ)).length →
        (second_angles realFns (example_prism : List (Vec3 ℝ)) ⟨1, 0, 1⟩).getD
            (ground_touch_vertex_id_3 realFns (example_prism : List (Vec3 ℝ)) ⟨1, 0, 1⟩) 0
          ≤ (second_angles realFns (example_prism : List (Vec3 ℝ)) ⟨1, 0, 1⟩).getD i 0) := by
  refine ⟨?_, ?_, ?_, ?_, ?_⟩
  · rw [prism_first_axis_raw]
    intro h
    have := congrArg Vec3.y h
    simp at this
  · rw [prism_rotated_v1v2]
    intro h
    have := congrArg Vec3.x h
    simp at this
  · intro i hi
    rw [prism_id1]
    rw [prism_length] at hi
    have : i = 0 ∨ i = 1 ∨ i = 2 ∨ i = 3 ∨ i = 4 ∨ i = 5 := by omega
    rcases this with h | h | h | h | h | h <;> subst h <;> simp [example_prism]
  · intro i hi
    rw [prism_id2, prism_first_angle_1]
    exact first_angles_nonneg _ _ i hi
  · intro i hi
    rw [prism_id3, prism_second_angle_2]
    exact second_angles_nonneg _ _ i hi

theorem current_vertices_identity (vs : List (Vec3 ℝ)) :
    place_calculator.current_vertices Transform.identity vs Transform.identity = vs := by
  unfold place_calculator.current_vertices
  have : (Transform.identity.mul Transform.identity : Transform ℝ).apply = id := by
    funext v
    rw [Transform.identity_comp, Transform.identity_apply]
    rfl
  rw [this, List.map_id]

end prism

section prism_world

theorem identity_world (v : Vec3 ℝ) :
    (Transform.identity.mul Transform.identity : Transform ℝ).apply v = v := by
  rw [Transform.identity_comp, Transform.identity_apply]

/-- The example prism in the identity pose has non-degenerate axes. -/
theorem prism_world_axes :
    find_three_points.first_axis_raw
        (place_calculator.current_vertices Transform.identity (example_prism : List (Vec3 ℝ))
          Transform.identity)
        ((Transform.identity.mul Transform.identity).apply ⟨1, 0, 1⟩) ≠ 0
    ∧ (find_three_points.rotated_vertices realFns
          (place_calculator.current_vertices Transform.identity
            (example_prism : List (Vec3 ℝ)) Transform.identity)
          ((Transform.identity.mul Transform.identity).apply ⟨1, 0, 1⟩)).getD
          (find_three_points.ground_touch_vertex_id_2 realFns
            (place_calculator.current_vertices Transform.identity
              (example_prism : List (Vec3 ℝ)) Transform.identity)
            ((Transform.identity.mul Transform.identity).apply ⟨1, 0, 1⟩)) 0
        - (find_three_points.rotated_vertices realFns
          (place_calculator.current_vertices Transform.identity
            (example_prism : List (Vec3 ℝ)) Transform.identity)
          ((Transform.identity.mul Transform.identity).apply ⟨1, 0, 1⟩)).getD
          (find_three_points.ground_touch_vertex_id_1
            (place_calculator.current_vertices Transform.identity
              (example_prism : List (Vec3 ℝ)) Transform.identity)) 0 ≠ 0 := by
  rw [current_vertices_identity, identity_world]
  exact ⟨prism_exact.1, prism_exact.2.1⟩

end prism_world

/-- C6: covariance propagation preserves symmetry and positive-semidefiniteness: for
every symmetric positive-semidefinite 6x6 `old_covariance` and whatever value and
Jacobian the differentiation yields, the `new_covariance` written by
`place_update_distribution`, and the one written by `place_update_Lie_distribution`
whenever it returns, is `J * old_covariance * Jᵀ`, symmetric and
positive-semidefinite. -/
theorem covariance_propagation_psd (old_covariance : CovarianceMatrix ℝ)
    (h : old_covariance.PosSemidef) :
    (∀ (calculate_particle_AD : Particle ℝ → Particle ℝ × CovarianceMatrix ℝ)
        (old_mean : Particle ℝ),
        (place_update_distribution calculate_particle_AD old_mean old_covariance).2
          = (calculate_particle_AD old_mean).2 * old_covariance
            * (calculate_particle_AD old_mean).2.transpose
        ∧ (place_update_distribution calculate_particle_AD old_mean old_covariance).2.IsSymm
        ∧ (place_update_distribution calculate_particle_AD old_mean
            old_covariance).2.PosSemidef)
    ∧ ∀ (hull : Vec2 ℝ → List (Vec2 ℝ) → Bool) (bc sc : Bool)
        (Jacobian : CovarianceMatrix ℝ) (old_mean : Transform ℝ) (cog : Vec3 ℝ)
        (vertices : List (Vec3 ℝ)) (s : ℝ) (G : Transform ℝ) (new_mean : Transform ℝ)
        (new_covariance : CovarianceMatrix ℝ),
        place_update_Lie_distribution realFns hull bc sc Jacobian old_mean old_covariance cog
          vertices s G = .returned new_mean new_covariance →
        new_covariance = Jacobian * old_covariance * Jacobian.transpose
        ∧ new_covariance.IsSymm ∧ new_covariance.PosSemidef := by
  have key : ∀ J : CovarianceMatrix ℝ,
      (J * old_covariance * J.transpose).IsSymm
      ∧ (J * old_covariance * J.transpose).PosSemidef := by
    intro J
    have hJ := h.mul_mul_conjTranspose_same J
    rw [Matrix.conjTranspose_eq_transpose_of_trivial] at hJ
    refine ⟨?_, hJ⟩
    have := hJ.isHermitian
    unfold Matrix.IsHermitian at this
    rw [Matrix.conjTranspose_eq_transpose_of_trivial] at this
    exact this
  constructor
  · intro AD old_mean
    exact ⟨rfl, key _⟩
  · intro hull bc sc J old_mean cog vertices s G new_mean new_cov hret
    unfold place_update_Lie_distribution at hret
    split at hret
    · exact absurd hret (by simp)
    · simp only at hret
      split_ifs at hret
      · have e := LieUpdate.returned.inj hret
        rw [← e.2]
        exact ⟨rfl, key J⟩

/-- C6 at the identity covariance: for the Euler form with a differentiation that
returns the old mean and the identity Jacobian, and for the tangent form at the
example prism, where the function returns. -/
theorem covariance_propagation_psd_witness :
    (place_update_distribution (fun m => (m, (1 : CovarianceMatrix ℝ))) (fun _ => 0)
        (1 : CovarianceMatrix ℝ)).2.PosSemidef
    ∧ ∃ new_mean new_covariance,
        place_update_Lie_distribution realFns (fun _ _ => true) false false
          (1 : CovarianceMatrix ℝ) Transform.identity (1 : CovarianceMatrix ℝ) ⟨1, 0, 1⟩
          example_prism 0 Transform.identity = .returned new_mean new_covariance
        ∧ new_covariance.PosSemidef :=
  ⟨((covariance_propagation_psd 1 Matrix.PosSemidef.one).1 _ _).2.2,
    (place_calculator_unchecked (fun _ _ => true) Transform.identity ⟨1, 0, 1⟩ example_prism 0
      Transform.identity).elim fun c hc =>
      ⟨c.new_mean, _,
        (new_mean_of_chosen_contacts (fun _ _ => true) Transform.identity ⟨1, 0, 1⟩
          example_prism 0 Transform.identity false false c (by rw [prism_length]; omega)
          Transform.isIsometry_identity Transform.isIsometry_identity hc prism_world_axes.1
          prism_world_axes.2).2.2.2.2 1 1,
        ((covariance_propagation_psd 1 Matrix.PosSemidef.one).2 _ _ _ _ _ _ _ _ _ _ _
          ((new_mean_of_chosen_contacts (fun _ _ => true) Transform.identity ⟨1, 0, 1⟩
            example_prism 0 Transform.identity false false c (by rw [prism_length]; omega)
            Transform.isIsometry_identity Transform.isIsometry_identity hc
            prism_world_axes.1 prism_world_axes.2).2.2.2.2 1 1)).2.2⟩⟩

/-! ## The robust argmin: near-ties and accuracy -/

section near_ties
variable {K : Type} [LinearOrderedField K]

/-- When the fold of `argmin` over the indices `1, …, k` ends at an index `r > 0`, the
entry at `r` displaced an earlier choice that was within `EPS` of every entry before
`r` and exceeded the entry at `r` by more than `EPS`. -/
theorem argmin_fold_displaced (vec : List K) (k : Nat) :
    0 < (List.range' 1 k).foldl
        (fun min_id i => if vec.getD min_id 0 - EPS > vec.getD i 0 then i else min_id) 0 →
    ∃ m, m < (List.range' 1 k).foldl
        (fun min_id i => if vec.getD min_id 0 - EPS > vec.getD i 0 then i else min_id) 0
      ∧ (∀ i, i < (List.range' 1 k).foldl
        (fun min_id i => if vec.getD min_id 0 - EPS > vec.getD i 0 then i else min_id) 0 →
          vec.getD m 0 ≤ vec.getD i 0 + EPS)
      ∧ vec.getD m 0 - EPS > vec.getD ((List.range' 1 k).foldl
        (fun min_id i => if vec.getD min_id 0 - EPS > vec.getD i 0 then i else min_id) 0) 0 := by
  induction k with
  | zero => simp
  | succ k ih =>
    obtain ⟨h1, h2, -⟩ := argmin_fold_inv vec k
    rw [List.range'_1_concat, List.foldl_append]
    simp only [List.foldl_cons, List.foldl_nil]
    generalize (List.range' 1 k).foldl
        (fun min_id i => if vec.getD min_id 0 - EPS > vec.getD i 0 then i else min_id) 0 = m at *
    have e : 1 + k = k + 1 := by omega
    rw [e]
    split_ifs with hc
    · intro _
      exact ⟨m, by omega, fun i hi => h2 i (by omega), hc⟩
    · exact ih

theorem argmin_displaced (vec : List K) (h : 0 < argmin vec) :
    ∃ m, m < argmin vec ∧ (∀ i, i < argmin vec → vec.getD m 0 ≤ vec.getD i 0 + EPS)
      ∧ vec.getD m 0 - EPS > vec.getD (argmin vec) 0 :=
  argmin_fold_displaced vec (vec.length - 1) h

theorem near_ties_argmin : argmin (example_near_ties : List ℚ) = 2 := by
  simp [argmin, example_near_ties, List.range', EPS]
  norm_num

/-- C11, as stated, fails: in the list `[1.5e-9, 0.8e-9, 0]` the minimum is `0` at
index 2, the entry at index 1 is within `EPS` of it, and `argmin` returns 2: the
entry at index 1 did not displace index 0, and index 2 did. -/
theorem argmin_lowest_near_tie_counterexample :
    (example_near_ties : List ℚ) ≠ []
    ∧ (example_near_ties : List ℚ).getD 2 0 = 0
    ∧ (∀ i, i < (example_near_ties : List ℚ).length →
        0 ≤ (example_near_ties : List ℚ).getD i 0)
    ∧ (example_near_ties : List ℚ).getD 1 0 ≤ 0 + EPS
    ∧ 1 < argmin (example_near_ties : List ℚ) := by
  rw [near_ties_argmin]
  refine ⟨by simp [example_near_ties], by simp [example_near_ties], ?_, ?_, by decide⟩
  · intro i hi
    have hi3 : i < 3 := by simpa [example_near_ties] using hi
    interval_cases i <;> simp [example_near_ties] <;> norm_num
  · simp [example_near_ties, EPS]
    norm_num

/-- C11 (amended): for a non-empty list with minimum value `m` in which no entry lies
more than `EPS` but at most `2 * EPS` above `m`, `argmin` returns the lowest index
among the entries within `EPS` of the minimum. -/
theorem argmin_lowest_near_tie (vec : List K) (m : K) (hne : vec ≠ [])
    (hmem : ∃ i, i < vec.length ∧ vec.getD i 0 = m)
    (hmin : ∀ i, i < vec.length → m ≤ vec.getD i 0)
    (hgap : ∀ i, i < vec.length → vec.getD i 0 ≤ m + EPS ∨ m + 2 * EPS < vec.getD i 0) :
    IsLeast {i | i < vec.length ∧ vec.getD i 0 ≤ m + EPS} (argmin vec) := by
  have hr := argmin_lt_length vec hne
  obtain ⟨i0, hi0, hi0m⟩ := hmem
  have hnear : vec.getD (argmin vec) 0 ≤ m + EPS := by
    have := argmin_le_add_EPS vec i0 hi0
    rw [hi0m] at this
    exact this
  refine ⟨⟨hr, hnear⟩, ?_⟩
  rintro s ⟨hs, hsm⟩
  by_contra hlt
  have hlt : s < argmin vec := not_le.mp hlt
  obtain ⟨p, hp, hpre, hdis⟩ := argmin_displaced vec (by omega)
  have h1 := hpre s hlt
  have h2 := hmin _ hr
  rcases hgap p (by omega) with h | h
  · linarith
  · linarith

theorem argmin_lowest_near_tie_witness :
    IsLeast {i | i < ([1, 0, 5, 0] : List ℚ).length ∧ ([1, 0, 5, 0] : List ℚ).getD i 0 ≤ 0 + EPS}
      (argmin ([1, 0, 5, 0] : List ℚ)) :=
  argmin_lowest_near_tie [1, 0, 5, 0] 0 (by simp) ⟨1, by simp, by simp⟩
    (by
      intro i hi
      have hi4 : i < 4 := by simpa using hi
      interval_cases i <;> simp)
    (by
      intro i hi
      have hi4 : i < 4 := by simpa using hi
      interval_cases i <;> simp [EPS] <;> norm_num)

/-- C17: for a non-empty list the index returned by `argmin` is in range, its entry
is at most `EPS` above every entry, and every earlier entry is strictly larger; for
the empty list `argmin` returns 0, which is not a valid index. -/
theorem argmin_accuracy (vec : List K) (hne : vec ≠ []) :
    argmin vec < vec.length
    ∧ (∀ i, i < vec.length → vec.getD (argmin vec) 0 ≤ vec.getD i 0 + EPS)
    ∧ (∀ j, j < argmin vec → vec.getD (argmin vec) 0 < vec.getD j 0)
    ∧ argmin ([] : List K) = 0 ∧ ¬ (0 < ([] : List K).length) :=
  ⟨argmin_lt_length vec hne, argmin_le_add_EPS vec, argmin_lt_of_lt vec, rfl, by simp⟩

/-- In the list `[0, -5e-10]` the function returns index 0, whose entry is within
`EPS` of every entry but is not the minimum. -/
theorem argmin_accuracy_witness :
    (argmin ([0, -1 / 2000000000] : List ℚ) < ([0, -1 / 2000000000] : List ℚ).length
    ∧ (∀ i, i < ([0, -1 / 2000000000] : List ℚ).length →
        ([0, -1 / 2000000000] : List ℚ).getD (argmin ([0, -1 / 2000000000] : List ℚ)) 0
          ≤ ([0, -1 / 2000000000] : List ℚ).getD i 0 + EPS)
    ∧ (∀ j, j < argmin ([0, -1 / 2000000000] : List ℚ) →
        ([0, -1 / 2000000000] : List ℚ).getD (argmin ([0, -1 / 2000000000] : List ℚ)) 0
          < ([0, -1 / 2000000000] : List ℚ).getD j 0)
    ∧ argmin ([] : List ℚ) = 0 ∧ ¬ (0 < ([] : List ℚ).length))
    ∧ argmin ([0, -1 / 2000000000] : List ℚ) = 0
    ∧ ([0, -1 / 2000000000] : List ℚ).getD 1 0
        < ([0, -1 / 2000000000] : List ℚ).getD (argmin ([0, -1 / 2000000000] : List ℚ)) 0 := by
  have h0 : argmin ([0, -1 / 2000000000] : List ℚ) = 0 := by
    simp [argmin, List.range', EPS]
    norm_num
  refine ⟨argmin_accuracy _ (by simp), h0, ?_⟩
  rw [h0]
  simp
  norm_num

end near_ties

/-! ## The conversions between messages and particles -/

section conversions
variable {K : Type} [LinearOrderedField K]

theorem finRange_six : List.finRange 6 = [0, 1, 2, 3, 4, 5] := rfl

theorem flat_index_val (i j : Fin 6) : (flat_index i j).val = 6 * i.val + j.val := rfl

theorem flat_index_injective (i j a b : Fin 6) (h : flat_index a b = flat_index i j) :
    a = i ∧ b = j := by
  have h1 := congrArg Fin.val h
  simp only [flat_index_val] at h1
  have := i.isLt
  have := j.isLt
  have := a.isLt
  have := b.isLt
  constructor <;> apply Fin.ext <;> omega

theorem array_36_to_matrix_6x6_apply (array : Array36 K) (i j : Fin 6) :
    array_36_to_matrix_6x6 array i j = array (flat_index i j) := by
  unfold array_36_to_matrix_6x6
  simp only [finRange_six, List.foldl_cons, List.foldl_nil, set_entry]
  fin_cases i <;> fin_cases j <;> simp

theorem matrix_6x6_to_array_36_apply (matrix : CovarianceMatrix K) (i j : Fin 6) :
    matrix_6x6_to_array_36 matrix (flat_index i j) = matrix i j := by
  unfold matrix_6x6_to_array_36
  simp only [finRange_six, List.foldl_cons, List.foldl_nil, set_item]
  fin_cases i <;> fin_cases j <;> rfl

theorem flat_index_div_mod (k : Fin 36) :
    flat_index ⟨k.val / 6, by have := k.isLt; omega⟩ ⟨k.val % 6, by omega⟩ = k := by
  apply Fin.ext
  simp only [flat_index_val]
  omega

/-- C12: the flattening is row-major, entry `(i, j)` of the matrix and entry
`6 * i + j` of the array correspond in both conversions, and both round trips are the
identity. -/
theorem covariance_flattening_lossless (matrix : CovarianceMatrix K) (array : Array36 K) :
    (∀ (i j : Fin 6) (k : Fin 36), k.val = 6 * i.val + j.val →
      matrix_6x6_to_array_36 matrix k = matrix i j)
    ∧ (∀ (i j : Fin 6) (k : Fin 36), k.val = 6 * i.val + j.val →
      array_36_to_matrix_6x6 array i j = array k)
    ∧ array_36_to_matrix_6x6 (matrix_6x6_to_array_36 matrix) = matrix
    ∧ matrix_6x6_to_array_36 (array_36_to_matrix_6x6 array) = array := by
  refine ⟨?_, ?_, ?_, ?_⟩
  · intro i j k hk
    have : k = flat_index i j := Fin.ext hk
    rw [this, matrix_6x6_to_array_36_apply]
  · intro i j k hk
    have : k = flat_index i j := Fin.ext hk
    rw [this, array_36_to_matrix_6x6_apply]
  · funext i j
    rw [array_36_to_matrix_6x6_apply, matrix_6x6_to_array_36_apply]
  · funext k
    rw [← flat_index_div_mod k, matrix_6x6_to_array_36_apply, array_36_to_matrix_6x6_apply]

end conversions

section pose_round_trip
variable {K : Type}

/-- C13: the position of a pose is reproduced from the particle components 0..2
whatever the two angle conversions are, the components 3..5 are roll, pitch and yaw of
the orientation, and when `RPY_to_quaternion` undoes `quaternion_to_RPY` at the
orientation of the pose the whole pose is reproduced. -/
theorem pose_particle_round_trip (quaternion_to_RPY : K → K → K → K → K × K × K)
    (RPY_to_quaternion : K → K → K → K × K × K × K) (pose : Pose K)
    (hundo : RPY_to_quaternion
        (quaternion_to_RPY pose.orientation.w pose.orientation.x pose.orientation.y
          pose.orientation.z).1
        (quaternion_to_RPY pose.orientation.w pose.orientation.x pose.orientation.y
          pose.orientation.z).2.1
        (quaternion_to_RPY pose.orientation.w pose.orientation.x pose.orientation.y
          pose.orientation.z).2.2
      = (pose.orientation.w, pose.orientation.x, pose.orientation.y, pose.orientation.z)) :
    (∀ (f : K → K → K → K → K × K × K) (g : K → K → K → K × K × K × K),
      (particle_to_pose g (pose_to_particle f pose)).position = pose.position)
    ∧ (particle_to_pose RPY_to_quaternion (pose_to_particle quaternion_to_RPY pose)).orientation
        = pose.orientation
    ∧ particle_to_pose RPY_to_quaternion (pose_to_particle quaternion_to_RPY pose) = pose := by
  have hpos : ∀ (f : K → K → K → K → K × K × K) (g : K → K → K → K × K × K × K),
      (particle_to_pose g (pose_to_particle f pose)).position = pose.position := by
    intro f g
    rfl
  have hori : (particle_to_pose RPY_to_quaternion
      (pose_to_particle quaternion_to_RPY pose)).orientation = pose.orientation :=
    Quat.ext (congrArg (fun q => q.1) hundo) (congrArg (fun q => q.2.1) hundo)
      (congrArg (fun q => q.2.2.1) hundo) (congrArg (fun q => q.2.2.2) hundo)
  exact ⟨hpos, hori, Pose.ext (hpos _ _) hori⟩

/-- A pose with a quarter turn about the vertical, with conversions for rotations
about the vertical in which the angle is counted in quarter turns. -/
theorem pose_particle_round_trip_witness :
    (∀ (f : ℚ → ℚ → ℚ → ℚ → ℚ × ℚ × ℚ) (g : ℚ → ℚ → ℚ → ℚ × ℚ × ℚ × ℚ),
      (particle_to_pose g (pose_to_particle f ⟨⟨1, 2, 3⟩, ⟨0, 0, 0, 1⟩⟩)).position
        = (⟨1, 2, 3⟩ : Vec3 ℚ))
    ∧ (particle_to_pose (fun _ _ yaw => (1 - yaw, 0, 0, yaw))
        (pose_to_particle (fun _ _ _ z => (0, 0, z)) ⟨⟨1, 2, 3⟩, ⟨0, 0, 0, 1⟩⟩)).orientation
        = (⟨0, 0, 0, 1⟩ : Quat ℚ)
    ∧ particle_to_pose (fun _ _ yaw => (1 - yaw, 0, 0, yaw))
        (pose_to_particle (fun _ _ _ z => (0, 0, z)) ⟨⟨1, 2, 3⟩, ⟨0, 0, 0, 1⟩⟩)
        = (⟨⟨1, 2, 3⟩, ⟨0, 0, 0, 1⟩⟩ : Pose ℚ) :=
  pose_particle_round_trip (fun _ _ _ z => (0, 0, z)) (fun _ _ yaw => (1 - yaw, 0, 0, yaw))
    ⟨⟨1, 2, 3⟩, ⟨0, 0, 0, 1⟩⟩ (by simp)

end pose_round_trip

/-! ## The triangle soup of a collision object -/

section soup
variable {K : Type} [LinearOrderedField K]

/-- A property kept by every step of a loop holds after the loop. -/
theorem foldl_invariant {S A : Type} (P : S → Prop) (f : S → A → S) (l : List A) (init : S)
    (hinit : P init) (hstep : ∀ s a, a ∈ l → P s → P (f s a)) : P (l.foldl f init) := by
  induction l generalizing init with
  | nil => exact hinit
  | cons a l ih =>
    rw [List.foldl_cons]
    exact ih _ (hstep _ _ (List.mem_cons_self _ _) hinit)
      (fun s b hb hs => hstep s b (List.mem_cons_of_mem _ hb) hs)

/-- The twelve triangles of a box, written out. -/
theorem box_triangles_eq (current_size : Nat) :
    box_triangles current_size
      = [⟨current_size + 0, current_size + 4, current_size + 2⟩,
         ⟨current_size + 6, current_size + 2, current_size + 4⟩,
         ⟨current_size + 1, current_size + 3, current_size + 5⟩,
         ⟨current_size + 7, current_size + 5, current_size + 3⟩,
         ⟨current_size + 0, current_size + 1, current_size + 4⟩,
         ⟨current_size + 5, current_size + 4, current_size + 1⟩,
         ⟨current_size + 2, current_size + 6, current_size + 3⟩,
         ⟨current_size + 7, current_size + 3, current_size + 6⟩,
         ⟨current_size + 0, current_size + 2, current_size + 1⟩,
         ⟨current_size + 3, current_size + 1, current_size + 2⟩,
         ⟨current_size + 4, current_size + 5, current_size + 6⟩,
         ⟨current_size + 7, current_size + 6, current_size + 5⟩] := rfl

theorem box_triangles_bound (current_size : Nat) (triangle : Triangle)
    (h : triangle ∈ box_triangles current_size) :
    triangle.v0 < current_size + 8 ∧ triangle.v1 < current_size + 8
      ∧ triangle.v2 < current_size + 8 := by
  rw [box_triangles_eq] at h
  simp only [List.mem_cons, List.mem_singleton, List.not_mem_nil, or_false] at h
  rcases h with h | h | h | h | h | h | h | h | h | h | h | h <;> subst h <;>
    refine ⟨?_, ?_, ?_⟩ <;> dsimp only <;> omega

theorem append_mesh_valid (soup : TriangleSoup K) (mesh : Mesh K) (mesh_transform : Transform K)
    (hsoup : soup.valid)
    (hmesh : ∀ triangle ∈ mesh.triangles, triangle.v0 < mesh.vertices.length
      ∧ triangle.v1 < mesh.vertices.length ∧ triangle.v2 < mesh.vertices.length) :
    (append_mesh soup mesh mesh_transform).valid := by
  intro triangle ht
  simp only [append_mesh, List.mem_append, List.mem_map, List.length_append,
    List.length_map] at ht ⊢
  rcases ht with ht | ⟨t, ht, rfl⟩
  · obtain ⟨h0, h1, h2⟩ := hsoup triangle ht
    exact ⟨by omega, by omega, by omega⟩
  · obtain ⟨h0, h1, h2⟩ := hmesh t ht
    refine ⟨?_, ?_, ?_⟩ <;> dsimp only <;> omega

theorem append_box_valid (soup : TriangleSoup K) (primitive : SolidPrimitive K)
    (primitive_transform : Transform K) (hsoup : soup.valid) :
    (append_box soup primitive primitive_transform).valid := by
  intro triangle ht
  simp only [append_box, List.mem_append, List.length_append, List.length_map,
    List.length_range] at ht ⊢
  rcases ht with ht | ht
  · obtain ⟨h0, h1, h2⟩ := hsoup triangle ht
    exact ⟨by omega, by omega, by omega⟩
  · exact box_triangles_bound _ _ ht

/-- C14: when the triangles of every mesh index into the vertices of that mesh and the
triangles already in the output are valid, every index of every triangle of the output
is a valid index into the output vertices. -/
theorem collision_object_indices_valid (object : CollisionObject K) (soup : TriangleSoup K)
    (hmesh : ∀ mesh ∈ object.meshes, ∀ triangle ∈ mesh.triangles,
      triangle.v0 < mesh.vertices.length ∧ triangle.v1 < mesh.vertices.length
        ∧ triangle.v2 < mesh.vertices.length)
    (hsoup : soup.valid) :
    (CollisionObject_to_eigen_vectors object soup).valid := by
  unfold CollisionObject_to_eigen_vectors
  apply foldl_invariant TriangleSoup.valid
  · apply foldl_invariant TriangleSoup.valid
    · exact hsoup
    · intro s mesh_id hid hs
      have hlt : mesh_id < object.meshes.length := List.mem_range.mp hid
      apply append_mesh_valid _ _ _ hs
      rw [List.getD_eq_getElem _ _ hlt]
      exact hmesh _ (List.getElem_mem _)
  · intro s primitive_id _ hs
    split_ifs
    · exact append_box_valid _ _ _ hs
    · exact hs

theorem collision_object_indices_valid_witness :
    (CollisionObject_to_eigen_vectors (example_collision_object : CollisionObject ℚ)
      ([], [])).valid :=
  collision_object_indices_valid example_collision_object ([], [])
    (by
      intro mesh hm triangle ht
      simp only [example_collision_object, List.mem_singleton] at hm
      subst hm
      simp only [List.mem_singleton] at ht
      subst ht
      simp)
    (by intro triangle ht; simp at ht)

end soup

/-! ## The triangulation of a box -/

section box
variable {K : Type} [LinearOrderedField K]

theorem box_vertex_0 (X Y Z : K) : box_vertex X Y Z 0 = ⟨-X / 2, -Y / 2, -Z / 2⟩ := rfl
theorem box_vertex_1 (X Y Z : K) : box_vertex X Y Z 1 = ⟨X / 2, -Y / 2, -Z / 2⟩ := rfl
theorem box_vertex_2 (X Y Z : K) : box_vertex X Y Z 2 = ⟨-X / 2, Y / 2, -Z / 2⟩ := rfl
theorem box_vertex_3 (X Y Z : K) : box_vertex X Y Z 3 = ⟨X / 2, Y / 2, -Z / 2⟩ := rfl
theorem box_vertex_4 (X Y Z : K) : box_vertex X Y Z 4 = ⟨-X / 2, -Y / 2, Z / 2⟩ := rfl
theorem box_vertex_5 (X Y Z : K) : box_vertex X Y Z 5 = ⟨X / 2, -Y / 2, Z / 2⟩ := rfl
theorem box_vertex_6 (X Y Z : K) : box_vertex X Y Z 6 = ⟨-X / 2, Y / 2, Z / 2⟩ := rfl
theorem box_vertex_7 (X Y Z : K) : box_vertex X Y Z 7 = ⟨X / 2, Y / 2, Z / 2⟩ := rfl

/-- The signs of the corner `i` are given by the bits 0, 1 and 2 of `i`. -/
theorem box_vertex_bits (X Y Z : K) (i : Nat) (hi : i < 8) :
    box_vertex X Y Z i
      = ⟨if i.testBit 0 then X / 2 else -X / 2, if i.testBit 1 then Y / 2 else -Y / 2,
         if i.testBit 2 then Z / 2 else -Z / 2⟩ := by
  interval_cases i <;> rfl

theorem box_vertex_injective (X Y Z : K) (hX : 0 < X) (hY : 0 < Y) (hZ : 0 < Z) (i j : Nat)
    (hi : i < 8) (hj : j < 8) (h : box_vertex X Y Z i = box_vertex X Y Z j) : i = j := by
  have hx : X / 2 ≠ -X / 2 := by
    intro e
    have : X = 0 := by linear_combination e
    exact hX.ne (this.symm)
  have hy : Y / 2 ≠ -Y / 2 := by
    intro e
    have : Y = 0 := by linear_combination e
    exact hY.ne (this.symm)
  have hz : Z / 2 ≠ -Z / 2 := by
    intro e
    have : Z = 0 := by linear_combination e
    exact hZ.ne (this.symm)
  interval_cases i <;> interval_cases j <;>
    first
    | rfl
    | (exfalso
       simp only [box_vertex_0, box_vertex_1, box_vertex_2, box_vertex_3, box_vertex_4,
         box_vertex_5, box_vertex_6, box_vertex_7, Vec3.mk.injEq] at h
       first
       | exact hx h.1
       | exact hx h.1.symm
       | exact hy h.2.1
       | exact hy h.2.1.symm
       | exact hz h.2.2
       | exact hz h.2.2.symm)

/-- The conversion of a single box appends the eight corners and the twelve
triangles, offset by the number of vertices present before. -/
theorem box_object_soup (X Y Z : K) (soup : TriangleSoup K) :
    CollisionObject_to_eigen_vectors (box_object X Y Z) soup
      = (soup.1 ++ (List.range 8).map (box_vertex X Y Z),
         soup.2 ++ (box_triangles 0).map
          (fun triangle => ⟨soup.1.length + triangle.v0, soup.1.length + triangle.v1,
            soup.1.length + triangle.v2⟩)) := by
  have hid : ∀ v : Vec3 K, (Transform.identity : Transform K).apply v = v := by
    intro v
    ext <;> simp [Transform.apply, Transform.identity, Mat3.identity, Mat3.mulVec]
  have hr : List.range 1 = [0] := rfl
  simp only [CollisionObject_to_eigen_vectors, box_object, List.length_nil, List.range_zero,
    List.foldl_nil, List.length_singleton, hr, List.foldl_cons, List.getD_cons_zero,
    if_true, append_box, List.getD_cons_succ, hid, box_triangles_eq, List.map_cons,
    List.map_nil]

/-- A point of a parallelogram lies in one of the two triangles cut off by a
diagonal. -/
theorem in_triangle_cover (p00 p10 p01 p11 q : Vec3 K) (s t : K) (hs0 : 0 ≤ s) (hs1 : s ≤ 1)
    (ht0 : 0 ≤ t) (ht1 : t ≤ 1)
    (hq : q = p00 + Vec3.smul s (p10 - p00) + Vec3.smul t (p01 - p00))
    (hp : p11 = p10 + p01 - p00) :
    in_triangle p00 p10 p01 q ∨ in_triangle p11 p01 p10 q := by
  by_cases h : s + t ≤ 1
  · left
    refine ⟨1 - s - t, s, t, by linarith, hs0, ht0, by ring, ?_⟩
    rw [hq]
    ext <;> simp only [Vec3.smul, Vec3.add_x, Vec3.add_y, Vec3.add_z, Vec3.sub_x, Vec3.sub_y,
      Vec3.sub_z] <;> ring
  · right
    refine ⟨s + t - 1, 1 - s, 1 - t, by linarith, by linarith, by linarith, by ring, ?_⟩
    rw [hq, hp]
    ext <;> simp only [Vec3.smul, Vec3.add_x, Vec3.add_y, Vec3.add_z, Vec3.sub_x, Vec3.sub_y,
      Vec3.sub_z] <;> ring

/-- The combinatorics of the twelve triangles: the corners of each are three different
corners of the box with one bit in common. -/
theorem box_triangles_on_faces :
    ∀ triangle ∈ box_triangles 0,
      triangle.v0 < 8 ∧ triangle.v1 < 8 ∧ triangle.v2 < 8
      ∧ triangle.v0 ≠ triangle.v1 ∧ triangle.v1 ≠ triangle.v2 ∧ triangle.v0 ≠ triangle.v2
      ∧ ∃ d, d < 3 ∧ triangle.v0.testBit d = triangle.v1.testBit d
          ∧ triangle.v0.testBit d = triangle.v2.testBit d := by
  decide

/-- Each face, given by a bit `d` and its value `f`, holds exactly two of the twelve
triangles. -/
theorem box_triangles_per_face :
    ∀ d, d < 3 → ∀ f : Bool,
      ((box_triangles 0).filter
        (fun triangle => triangle.v0.testBit d = f ∧ triangle.v1.testBit d = f
          ∧ triangle.v2.testBit d = f)).length = 2 := by
  decide

/-- The two triangles pushed for a face are in the list, lie on the face, and share
the diagonal of the face; their first corners are the two other corners. -/
theorem box_triangles_diagonal :
    ∀ d0, d0 < 3 → ∀ f, f < 2 →
      box_triangle 0 d0 f 0 ∈ box_triangles 0 ∧ box_triangle 0 d0 f 1 ∈ box_triangles 0
      ∧ (∀ v ∈ [(box_triangle 0 d0 f 0).v0, (box_triangle 0 d0 f 0).v1,
            (box_triangle 0 d0 f 0).v2, (box_triangle 0 d0 f 1).v0,
            (box_triangle 0 d0 f 1).v1, (box_triangle 0 d0 f 1).v2],
          v.testBit d0 = decide (f = 1))
      ∧ (box_triangle 0 d0 f 0).v1 = (box_triangle 0 d0 f 1).v2
      ∧ (box_triangle 0 d0 f 0).v2 = (box_triangle 0 d0 f 1).v1
      ∧ (∀ d, d < 3 → d ≠ d0 →
          (box_triangle 0 d0 f 0).v1.testBit d ≠ (box_triangle 0 d0 f 0).v2.testBit d)
      ∧ (∀ d, d < 3 → d ≠ d0 →
          (box_triangle 0 d0 f 0).v0.testBit d ≠ (box_triangle 0 d0 f 1).v0.testBit d) := by
  intro d0 hd0 f hf
  interval_cases d0 <;> interval_cases f <;> decide

set_option maxHeartbeats 1000000 in
/-- A point of a face of the box lies in one of the two triangles spanned by a corner,
its two neighbours on the face, and the opposite corner. -/
theorem box_face_cover (X Y Z : K) (hX : 0 < X) (hY : 0 < Y) (hZ : 0 < Z) (q : Vec3 K)
    (hx : -X / 2 ≤ q.x ∧ q.x ≤ X / 2) (hy : -Y / 2 ≤ q.y ∧ q.y ≤ Y / 2)
    (hz : -Z / 2 ≤ q.z ∧ q.z ≤ Z / 2) :
    (q.x = -X / 2 →
      in_triangle (box_vertex X Y Z 0) (box_vertex X Y Z 4) (box_vertex X Y Z 2) q
      ∨ in_triangle (box_vertex X Y Z 6) (box_vertex X Y Z 2) (box_vertex X Y Z 4) q)
    ∧ (q.x = X / 2 →
      in_triangle (box_vertex X Y Z 1) (box_vertex X Y Z 3) (box_vertex X Y Z 5) q
      ∨ in_triangle (box_vertex X Y Z 7) (box_vertex X Y Z 5) (box_vertex X Y Z 3) q)
    ∧ (q.y = -Y / 2 →
      in_triangle (box_vertex X Y Z 0) (box_vertex X Y Z 1) (box_vertex X Y Z 4) q
      ∨ in_triangle (box_vertex X Y Z 5) (box_vertex X Y Z 4) (box_vertex X Y Z 1) q)
    ∧ (q.y = Y / 2 →
      in_triangle (box_vertex X Y Z 2) (box_vertex X Y Z 6) (box_vertex X Y Z 3) q
      ∨ in_triangle (box_vertex X Y Z 7) (box_vertex X Y Z 3) (box_vertex X Y Z 6) q)
    ∧ (q.z = -Z / 2 →
      in_triangle (box_vertex X Y Z 0) (box_vertex X Y Z 2) (box_vertex X Y Z 1) q
      ∨ in_triangle (box_vertex X Y Z 3) (box_vertex X Y Z 1) (box_vertex X Y Z 2) q)
    ∧ (q.z = Z / 2 →
      in_triangle (box_vertex X Y Z 4) (box_vertex X Y Z 5) (box_vertex X Y Z 6) q
      ∨ in_triangle (box_vertex X Y Z 7) (box_vertex X Y Z 6) (box_vertex X Y Z 5) q) := by
  obtain ⟨hx1, hx2⟩ := hx
  obtain ⟨hy1, hy2⟩ := hy
  obtain ⟨hz1, hz2⟩ := hz
  have eX : (q.x + X / 2) / X * X = q.x + X / 2 := div_mul_cancel₀ _ hX.ne.symm
  have eY : (q.y + Y / 2) / Y * Y = q.y + Y / 2 := div_mul_cancel₀ _ hY.ne.symm
  have eZ : (q.z + Z / 2) / Z * Z = q.z + Z / 2 := div_mul_cancel₀ _ hZ.ne.symm
  have sX0 : 0 ≤ (q.x + X / 2) / X := div_nonneg (by linarith) hX.le
  have sY0 : 0 ≤ (q.y + Y / 2) / Y := div_nonneg (by linarith) hY.le
  have sZ0 : 0 ≤ (q.z + Z / 2) / Z := div_nonneg (by linarith) hZ.le
  have sX1 : (q.x + X / 2) / X ≤ 1 := (div_le_one hX).mpr (by linarith)
  have sY1 : (q.y + Y / 2) / Y ≤ 1 := (div_le_one hY).mpr (by linarith)
  have sZ1 : (q.z + Z / 2) / Z ≤ 1 := (div_le_one hZ).mpr (by linarith)
  generalize (q.x + X / 2) / X = sx at eX sX0 sX1
  generalize (q.y + Y / 2) / Y = sy at eY sY0 sY1
  generalize (q.z + Z / 2) / Z = sz at eZ sZ0 sZ1
  refine ⟨?_, ?_, ?_, ?_, ?_, ?_⟩
  · intro hface
    refine in_triangle_cover _ _ _ _ q sz sy sZ0 sZ1 sY0 sY1 ?_ ?_
    · ext <;> simp only [box_vertex_0, box_vertex_1, box_vertex_2, box_vertex_3, box_vertex_4,
      box_vertex_5, box_vertex_6, box_vertex_7, Vec3.smul, Vec3.add_x, Vec3.add_y, Vec3.add_z,
      Vec3.sub_x, Vec3.sub_y, Vec3.sub_z] <;>
        linarith
    · ext <;> simp only [box_vertex_0, box_vertex_1, box_vertex_2, box_vertex_3, box_vertex_4,
      box_vertex_5, box_vertex_6, box_vertex_7, Vec3.smul, Vec3.add_x, Vec3.add_y, Vec3.add_z,
      Vec3.sub_x, Vec3.sub_y, Vec3.sub_z] <;>
        ring
  · intro hface
    refine in_triangle_cover _ _ _ _ q sy sz sY0 sY1 sZ0 sZ1 ?_ ?_
    · ext <;> simp only [box_vertex_0, box_vertex_1, box_vertex_2, box_vertex_3, box_vertex_4,
      box_vertex_5, box_vertex_6, box_vertex_7, Vec3.smul, Vec3.add_x, Vec3.add_y, Vec3.add_z,
      Vec3.sub_x, Vec3.sub_y, Vec3.sub_z] <;>
        linarith
    · ext <;> simp only [box_vertex_0, box_vertex_1, box_vertex_2, box_vertex_3, box_vertex_4,
      box_vertex_5, box_vertex_6, box_vertex_7, Vec3.smul, Vec3.add_x, Vec3.add_y, Vec3.add_z,
      Vec3.sub_x, Vec3.sub_y, Vec3.sub_z] <;>
        ring
  · intro hface
    refine in_triangle_cover _ _ _ _ q sx sz sX0 sX1 sZ0 sZ1 ?_ ?_
    · ext <;> simp only [box_vertex_0, box_vertex_1, box_vertex_2, box_vertex_3, box_vertex_4,
      box_vertex_5, box_vertex_6, box_vertex_7, Vec3.smul, Vec3.add_x, Vec3.add_y, Vec3.add_z,
      Vec3.sub_x, Vec3.sub_y, Vec3.sub_z] <;>
        linarith
    · ext <;> simp only [box_vertex_0, box_vertex_1, box_vertex_2, box_vertex_3, box_vertex_4,
      box_vertex_5, box_vertex_6, box_vertex_7, Vec3.smul, Vec3.add_x, Vec3.add_y, Vec3.add_z,
      Vec3.sub_x, Vec3.sub_y, Vec3.sub_z] <;>
        ring
  · intro hface
    refine in_triangle_cover _ _ _ _ q sz sx sZ0 sZ1 sX0 sX1 ?_ ?_
    · ext <;> simp only [box_vertex_0, box_vertex_1, box_vertex_2, box_vertex_3, box_vertex_4,
      box_vertex_5, box_vertex_6, box_vertex_7, Vec3.smul, Vec3.add_x, Vec3.add_y, Vec3.add_z,
      Vec3.sub_x, Vec3.sub_y, Vec3.sub_z] <;>
        linarith
    · ext <;> simp only [box_vertex_0, box_vertex_1, box_vertex_2, box_vertex_3, box_vertex_4,
      box_vertex_5, box_vertex_6, box_vertex_7, Vec3.smul, Vec3.add_x, Vec3.add_y, Vec3.add_z,
      Vec3.sub_x, Vec3.sub_y, Vec3.sub_z] <;>
        ring
  · intro hface
    refine in_triangle_cover _ _ _ _ q sy sx sY0 sY1 sX0 sX1 ?_ ?_
    · ext <;> simp only [box_vertex_0, box_vertex_1, box_vertex_2, box_vertex_3, box_vertex_4,
      box_vertex_5, box_vertex_6, box_vertex_7, Vec3.smul, Vec3.add_x, Vec3.add_y, Vec3.add_z,
      Vec3.sub_x, Vec3.sub_y, Vec3.sub_z] <;>
        linarith
    · ext <;> simp only [box_vertex_0, box_vertex_1, box_vertex_2, box_vertex_3, box_vertex_4,
      box_vertex_5, box_vertex_6, box_vertex_7, Vec3.smul, Vec3.add_x, Vec3.add_y, Vec3.add_z,
      Vec3.sub_x, Vec3.sub_y, Vec3.sub_z] <;>
        ring
  · intro hface
    refine in_triangle_cover _ _ _ _ q sx sy sX0 sX1 sY0 sY1 ?_ ?_
    · ext <;> simp only [box_vertex_0, box_vertex_1, box_vertex_2, box_vertex_3, box_vertex_4,
      box_vertex_5, box_vertex_6, box_vertex_7, Vec3.smul, Vec3.add_x, Vec3.add_y, Vec3.add_z,
      Vec3.sub_x, Vec3.sub_y, Vec3.sub_z] <;>
        linarith
    · ext <;> simp only [box_vertex_0, box_vertex_1, box_vertex_2, box_vertex_3, box_vertex_4,
      box_vertex_5, box_vertex_6, box_vertex_7, Vec3.smul, Vec3.add_x, Vec3.add_y, Vec3.add_z,
      Vec3.sub_x, Vec3.sub_y, Vec3.sub_z] <;>
        ring

/-- The two triangles pushed for a face cover the face. -/
theorem box_faces_covered (X Y Z : K) (hX : 0 < X) (hY : 0 < Y) (hZ : 0 < Z) (d0 f : Nat)
    (hd0 : d0 < 3) (hf : f < 2) (q : Vec3 K)
    (hx : -X / 2 ≤ q.x ∧ q.x ≤ X / 2) (hy : -Y / 2 ≤ q.y ∧ q.y ≤ Y / 2)
    (hz : -Z / 2 ≤ q.z ∧ q.z ≤ Z / 2)
    (hq : q.coord d0 = (box_vertex X Y Z (box_triangle 0 d0 f 0).v0).coord d0) :
    in_triangle (box_vertex X Y Z (box_triangle 0 d0 f 0).v0)
        (box_vertex X Y Z (box_triangle 0 d0 f 0).v1)
        (box_vertex X Y Z (box_triangle 0 d0 f 0).v2) q
      ∨ in_triangle (box_vertex X Y Z (box_triangle 0 d0 f 1).v0)
        (box_vertex X Y Z (box_triangle 0 d0 f 1).v1)
        (box_vertex X Y Z (box_triangle 0 d0 f 1).v2) q := by
  obtain ⟨c1, c2, c3, c4, c5, c6⟩ := box_face_cover X Y Z hX hY hZ q hx hy hz
  interval_cases d0 <;> interval_cases f
  · exact c1 hq
  · exact c2 hq
  · exact c3 hq
  · exact c4 hq
  · exact c5 hq
  · exact c6 hq

set_option maxHeartbeats 1000000 in
/-- The normal of each of the twelve triangles points away from every point inside the
box. -/
theorem box_triangles_outward (X Y Z : K) (hX : 0 < X) (hY : 0 < Y) (hZ : 0 < Z)
    (triangle : Triangle) (ht : triangle ∈ box_triangles 0) (q : Vec3 K)
    (hx : -X / 2 < q.x ∧ q.x < X / 2) (hy : -Y / 2 < q.y ∧ q.y < Y / 2)
    (hz : -Z / 2 < q.z ∧ q.z < Z / 2) :
    Vec3.dot
      (Vec3.cross (box_vertex X Y Z triangle.v1 - box_vertex X Y Z triangle.v0)
        (box_vertex X Y Z triangle.v2 - box_vertex X Y Z triangle.v0))
      (q - box_vertex X Y Z triangle.v0) < 0 := by
  obtain ⟨hx1, hx2⟩ := hx
  obtain ⟨hy1, hy2⟩ := hy
  obtain ⟨hz1, hz2⟩ := hz
  have h1 : 0 < Y * Z * (q.x + X / 2) := mul_pos (mul_pos hY hZ) (by linarith)
  have h2 : 0 < Y * Z * (X / 2 - q.x) := mul_pos (mul_pos hY hZ) (by linarith)
  have h3 : 0 < X * Z * (q.y + Y / 2) := mul_pos (mul_pos hX hZ) (by linarith)
  have h4 : 0 < X * Z * (Y / 2 - q.y) := mul_pos (mul_pos hX hZ) (by linarith)
  have h5 : 0 < X * Y * (q.z + Z / 2) := mul_pos (mul_pos hX hY) (by linarith)
  have h6 : 0 < X * Y * (Z / 2 - q.z) := mul_pos (mul_pos hX hY) (by linarith)
  rw [box_triangles_eq] at ht
  simp only [List.mem_cons, List.mem_singleton, List.not_mem_nil, or_false, Nat.zero_add] at ht
  rcases ht with h | h | h | h | h | h | h | h | h | h | h | h <;> subst h <;>
    simp only [box_vertex_0, box_vertex_1, box_vertex_2, box_vertex_3, box_vertex_4,
      box_vertex_5, box_vertex_6, box_vertex_7, Vec3.dot, Vec3.cross, Vec3.sub_x, Vec3.sub_y,
      Vec3.sub_z] <;>
    linarith [h1, h2, h3, h4, h5, h6]

/-- C19: for a single box with positive dimensions and the identity pose the conversion
appends exactly the eight corners, corner `i` having its signs given by the bits 0, 1, 2
of `i`, and exactly twelve triangles; each triangle has three different corners on one
face; each of the six faces holds exactly two triangles, which share a diagonal of the
face and cover the face; and the normal `(v1 - v0) × (v2 - v0)` of each triangle points
away from every point inside the box. -/
theorem box_decomposition (X Y Z : K) (hX : 0 < X) (hY : 0 < Y) (hZ : 0 < Z)
    (soup : TriangleSoup K) :
    CollisionObject_to_eigen_vectors (box_object X Y Z) soup
      = (soup.1 ++ (List.range 8).map (box_vertex X Y Z),
         soup.2 ++ (box_triangles 0).map
          (fun triangle => ⟨soup.1.length + triangle.v0, soup.1.length + triangle.v1,
            soup.1.length + triangle.v2⟩))
    ∧ ((List.range 8).map (box_vertex X Y Z)).length = 8
    ∧ (box_triangles 0).length = 12
    ∧ (∀ i, i < 8 → box_vertex X Y Z i
        = ⟨if i.testBit 0 then X / 2 else -X / 2, if i.testBit 1 then Y / 2 else -Y / 2,
           if i.testBit 2 then Z / 2 else -Z / 2⟩)
    ∧ (∀ i j, i < 8 → j < 8 → box_vertex X Y Z i = box_vertex X Y Z j → i = j)
    ∧ (∀ triangle ∈ box_triangles 0,
        triangle.v0 < 8 ∧ triangle.v1 < 8 ∧ triangle.v2 < 8
        ∧ triangle.v0 ≠ triangle.v1 ∧ triangle.v1 ≠ triangle.v2 ∧ triangle.v0 ≠ triangle.v2
        ∧ ∃ d, d < 3 ∧ triangle.v0.testBit d = triangle.v1.testBit d
            ∧ triangle.v0.testBit d = triangle.v2.testBit d)
    ∧ (∀ d, d < 3 → ∀ f : Bool,
        ((box_triangles 0).filter
          (fun triangle => triangle.v0.testBit d = f ∧ triangle.v1.testBit d = f
            ∧ triangle.v2.testBit d = f)).length = 2)
    ∧ (∀ d0, d0 < 3 → ∀ f, f < 2 →
        box_triangle 0 d0 f 0 ∈ box_triangles 0 ∧ box_triangle 0 d0 f 1 ∈ box_triangles 0
        ∧ (∀ v ∈ [(box_triangle 0 d0 f 0).v0, (box_triangle 0 d0 f 0).v1,
              (box_triangle 0 d0 f 0).v2, (box_triangle 0 d0 f 1).v0,
              (box_triangle 0 d0 f 1).v1, (box_triangle 0 d0 f 1).v2],
            v.testBit d0 = decide (f = 1))
        ∧ (box_triangle 0 d0 f 0).v1 = (box_triangle 0 d0 f 1).v2
        ∧ (box_triangle 0 d0 f 0).v2 = (box_triangle 0 d0 f 1).v1
        ∧ (∀ d, d < 3 → d ≠ d0 →
            (box_triangle 0 d0 f 0).v1.testBit d ≠ (box_triangle 0 d0 f 0).v2.testBit d)
        ∧ (∀ d, d < 3 → d ≠ d0 →
            (box_triangle 0 d0 f 0).v0.testBit d ≠ (box_triangle 0 d0 f 1).v0.testBit d))
    ∧ (∀ d0, d0 < 3 → ∀ f, f < 2 → ∀ q : Vec3 K,
        (-X / 2 ≤ q.x ∧ q.x ≤ X / 2) → (-Y / 2 ≤ q.y ∧ q.y ≤ Y / 2) →
        (-Z / 2 ≤ q.z ∧ q.z ≤ Z / 2) →
        q.coord d0 = (box_vertex X Y Z (box_triangle 0 d0 f 0).v0).coord d0 →
        in_triangle (box_vertex X Y Z (box_triangle 0 d0 f 0).v0)
            (box_vertex X Y Z (box_triangle 0 d0 f 0).v1)
            (box_vertex X Y Z (box_triangle 0 d0 f 0).v2) q
          ∨ in_triangle (box_vertex X Y Z (box_triangle 0 d0 f 1).v0)
            (box_vertex X Y Z (box_triangle 0 d0 f 1).v1)
            (box_vertex X Y Z (box_triangle 0 d0 f 1).v2) q)
    ∧ (∀ triangle ∈ box_triangles 0, ∀ q : Vec3 K,
        (-X / 2 < q.x ∧ q.x < X / 2) → (-Y / 2 < q.y ∧ q.y < Y / 2) →
        (-Z / 2 < q.z ∧ q.z < Z / 2) →
        Vec3.dot
          (Vec3.cross (box_vertex X Y Z triangle.v1 - box_vertex X Y Z triangle.v0)
            (box_vertex X Y Z triangle.v2 - box_vertex X Y Z triangle.v0))
          (q - box_vertex X Y Z triangle.v0) < 0) :=
  ⟨box_object_soup X Y Z soup, by simp, rfl, box_vertex_bits X Y Z,
    fun i j hi hj h => box_vertex_injective X Y Z hX hY hZ i j hi hj h,
    box_triangles_on_faces, box_triangles_per_face, box_triangles_diagonal,
    fun d0 hd0 f hf q hx hy hz hq => box_faces_covered X Y Z hX hY hZ d0 f hd0 hf q hx hy hz hq,
    fun triangle ht q hx hy hz => box_triangles_outward X Y Z hX hY hZ triangle ht q hx hy hz⟩

theorem box_decomposition_witness :
    ((0 : ℚ) < 2 ∧ (0 : ℚ) < 4 ∧ (0 : ℚ) < 6) ∧
    CollisionObject_to_eigen_vectors (box_object (2 : ℚ) (4 : ℚ) (6 : ℚ)) (([], []) : TriangleSoup
        ℚ)
      = ((([], []) : TriangleSoup ℚ).1 ++ (List.range 8).map (box_vertex (2 : ℚ) (4 : ℚ) (6 : ℚ)),
         (([], []) : TriangleSoup ℚ).2 ++ (box_triangles 0).map
          (fun triangle => ⟨(([], []) : TriangleSoup ℚ).1.length + triangle.v0, (([], []) :
              TriangleSoup ℚ).1.length + triangle.v1,
            (([], []) : TriangleSoup ℚ).1.length + triangle.v2⟩))
    ∧ ((List.range 8).map (box_vertex (2 : ℚ) (4 : ℚ) (6 : ℚ))).length = 8
    ∧ (box_triangles 0).length = 12
    ∧ (∀ i, i < 8 → box_vertex (2 : ℚ) (4 : ℚ) (6 : ℚ) i
        = ⟨if i.testBit 0 then (2 : ℚ) / 2 else -(2 : ℚ) / 2, if i.testBit 1 then (4 : ℚ) / 2 else
            -(4 : ℚ) / 2,
           if i.testBit 2 then (6 : ℚ) / 2 else -(6 : ℚ) / 2⟩)
    ∧ (∀ i j, i < 8 → j < 8 → box_vertex (2 : ℚ) (4 : ℚ) (6 : ℚ) i = box_vertex (2 : ℚ) (4 : ℚ) (6
        : ℚ) j → i = j)
    ∧ (∀ triangle ∈ box_triangles 0,
        triangle.v0 < 8 ∧ triangle.v1 < 8 ∧ triangle.v2 < 8
        ∧ triangle.v0 ≠ triangle.v1 ∧ triangle.v1 ≠ triangle.v2 ∧ triangle.v0 ≠ triangle.v2
        ∧ ∃ d, d < 3 ∧ triangle.v0.testBit d = triangle.v1.testBit d
            ∧ triangle.v0.testBit d = triangle.v2.testBit d)
    ∧ (∀ d, d < 3 → ∀ f : Bool,
        ((box_triangles 0).filter
          (fun triangle => triangle.v0.testBit d = f ∧ triangle.v1.testBit d = f
            ∧ triangle.v2.testBit d = f)).length = 2)
    ∧ (∀ d0, d0 < 3 → ∀ f, f < 2 →
        box_triangle 0 d0 f 0 ∈ box_triangles 0 ∧ box_triangle 0 d0 f 1 ∈ box_triangles 0
        ∧ (∀ v ∈ [(box_triangle 0 d0 f 0).v0, (box_triangle 0 d0 f 0).v1,
              (box_triangle 0 d0 f 0).v2, (box_triangle 0 d0 f 1).v0,
              (box_triangle 0 d0 f 1).v1, (box_triangle 0 d0 f 1).v2],
            v.testBit d0 = decide (f = 1))
        ∧ (box_triangle 0 d0 f 0).v1 = (box_triangle 0 d0 f 1).v2
        ∧ (box_triangle 0 d0 f 0).v2 = (box_triangle 0 d0 f 1).v1
        ∧ (∀ d, d < 3 → d ≠ d0 →
            (box_triangle 0 d0 f 0).v1.testBit d ≠ (box_triangle 0 d0 f 0).v2.testBit d)
        ∧ (∀ d, d < 3 → d ≠ d0 →
            (box_triangle 0 d0 f 0).v0.testBit d ≠ (box_triangle 0 d0 f 1).v0.testBit d))
    ∧ (∀ d0, d0 < 3 → ∀ f, f < 2 → ∀ q : Vec3 ℚ,
        (-(2 : ℚ) / 2 ≤ q.x ∧ q.x ≤ (2 : ℚ) / 2) → (-(4 : ℚ) / 2 ≤ q.y ∧ q.y ≤ (4 : ℚ) / 2) →
        (-(6 : ℚ) / 2 ≤ q.z ∧ q.z ≤ (6 : ℚ) / 2) →
        q.coord d0 = (box_vertex (2 : ℚ) (4 : ℚ) (6 : ℚ) (box_triangle 0 d0 f 0).v0).coord d0 →
        in_triangle (box_vertex (2 : ℚ) (4 : ℚ) (6 : ℚ) (box_triangle 0 d0 f 0).v0)
            (box_vertex (2 : ℚ) (4 : ℚ) (6 : ℚ) (box_triangle 0 d0 f 0).v1)
            (box_vertex (2 : ℚ) (4 : ℚ) (6 : ℚ) (box_triangle 0 d0 f 0).v2) q
          ∨ in_triangle (box_vertex (2 : ℚ) (4 : ℚ) (6 : ℚ) (box_triangle 0 d0 f 1).v0)
            (box_vertex (2 : ℚ) (4 : ℚ) (6 : ℚ) (box_triangle 0 d0 f 1).v1)
            (box_vertex (2 : ℚ) (4 : ℚ) (6 : ℚ) (box_triangle 0 d0 f 1).v2) q)
    ∧ (∀ triangle ∈ box_triangles 0, ∀ q : Vec3 ℚ,
        (-(2 : ℚ) / 2 < q.x ∧ q.x < (2 : ℚ) / 2) → (-(4 : ℚ) / 2 < q.y ∧ q.y < (4 : ℚ) / 2) →
        (-(6 : ℚ) / 2 < q.z ∧ q.z < (6 : ℚ) / 2) →
        Vec3.dot
          (Vec3.cross (box_vertex (2 : ℚ) (4 : ℚ) (6 : ℚ) triangle.v1 - box_vertex (2 : ℚ) (4 : ℚ)
              (6 : ℚ) triangle.v0)
            (box_vertex (2 : ℚ) (4 : ℚ) (6 : ℚ) triangle.v2 - box_vertex (2 : ℚ) (4 : ℚ) (6 : ℚ)
                triangle.v0))
          (q - box_vertex (2 : ℚ) (4 : ℚ) (6 : ℚ) triangle.v0) < 0) :=
  ⟨⟨by norm_num, by norm_num, by norm_num⟩,
    box_decomposition 2 4 6 (by norm_num) (by norm_num) (by norm_num) ([], [])⟩

end box

/-! ## The rotations turn towards the centre of gravity -/

section toppling

open find_three_points

variable (vs : List (Vec3 ℝ)) (cog : Vec3 ℝ)

end toppling

section toppling_example

open find_three_points

end toppling_example

/-! ## Placing commutes with horizontal shifts -/

section shifts

variable (a : Placing ℝ) (w : Vec3 ℝ)

theorem AngleAxis.rotate_add (r : AngleAxis ℝ) (u v : Vec3 ℝ) :
    r.rotate realFns (u + v) = r.rotate realFns u + r.rotate realFns v :=
  Mat3.mulVec_add _ _ _

theorem Vec3.add_sub_add_right (u v w : Vec3 ℝ) : (u + w) - (v + w) = u - v := by
  ext <;> simp only [Vec3.add_def, Vec3.sub_def] <;> ring

namespace Placing

/-- The shifted pose gives the world pose before placing shifted by `w`. -/
theorem shifted_current_transform (hG : a.gripper_transform.IsIsometry) :
    (a.shifted w).current_transform
      = ⟨a.current_transform.linear, a.current_transform.translation + w⟩ := by
  unfold current_transform shifted
  simp only
  rw [← Transform.comp_assoc, ← Transform.comp_assoc, Transform.mul_translate,
    Transform.mul_inverse _ hG, Transform.comp_assoc]
  simp only [Transform.mul, Transform.translate, Transform.identity, Mat3.identity_mat_mul,
    Mat3.identity_mulVec, Vec3.add_zero]

theorem shifted_apply (hG : a.gripper_transform.IsIsometry) (p : Vec3 ℝ) :
    (a.shifted w).current_transform.apply p = a.current_transform.apply p + w := by
  rw [shifted_current_transform a w hG]
  simp only [Transform.apply]
  ext <;> simp only [Vec3.add_def] <;> ring

theorem shifted_current (hG : a.gripper_transform.IsIsometry) :
    (a.shifted w).current_center_of_gravity = a.current_center_of_gravity + w
    ∧ (a.shifted w).current_ground_touch_vertex_1 = a.current_ground_touch_vertex_1 + w
    ∧ (a.shifted w).current_ground_touch_vertex_2 = a.current_ground_touch_vertex_2 + w
    ∧ (a.shifted w).current_ground_touch_vertex_3 = a.current_ground_touch_vertex_3 + w :=
  ⟨shifted_apply a w hG _, shifted_apply a w hG _, shifted_apply a w hG _,
    shifted_apply a w hG _⟩

theorem shifted_first_rotation (hG : a.gripper_transform.IsIsometry) :
    (a.shifted w).first_rotation realFns = a.first_rotation realFns := by
  obtain ⟨hc, h1, h2, -⟩ := shifted_current a w hG
  have hv : (a.shifted w).v1v2 = a.v1v2 := by
    unfold v1v2
    rw [h1, h2, Vec3.add_sub_add_right]
  have hr : (a.shifted w).first_axis_raw = a.first_axis_raw := by
    unfold first_axis_raw
    rw [h1, hc, Vec3.add_sub_add_right]
  have ha : (a.shifted w).first_axis realFns = a.first_axis realFns := by
    unfold first_axis
    rw [hr]
  unfold first_rotation first_angle
  rw [ha, hv]

theorem shifted_rotated (hG : a.gripper_transform.IsIsometry) :
    (a.shifted w).rotated_center_of_gravity realFns
      = a.rotated_center_of_gravity realFns + (a.first_rotation realFns).rotate realFns w
    ∧ (a.shifted w).rotated_ground_touch_vertex_1 realFns
      = a.rotated_ground_touch_vertex_1 realFns + (a.first_rotation realFns).rotate realFns w
    ∧ (a.shifted w).rotated_ground_touch_vertex_2 realFns
      = a.rotated_ground_touch_vertex_2 realFns + (a.first_rotation realFns).rotate realFns w
    ∧ (a.shifted w).rotated_ground_touch_vertex_3 realFns
      = a.rotated_ground_touch_vertex_3 realFns
        + (a.first_rotation realFns).rotate realFns w := by
  obtain ⟨hc, h1, h2, h3⟩ := shifted_current a w hG
  have hr := shifted_first_rotation a w hG
  unfold rotated_center_of_gravity rotated_ground_touch_vertex_1 rotated_ground_touch_vertex_2
    rotated_ground_touch_vertex_3
  rw [hr, hc, h1, h2, h3]
  simp only [AngleAxis.rotate_add, and_self]

theorem shifted_second_rotation (hG : a.gripper_transform.IsIsometry) :
    (a.shifted w).second_rotation realFns = a.second_rotation realFns := by
  obtain ⟨hc, h1, h2, h3⟩ := shifted_rotated a w hG
  have hv : (a.shifted w).v1v3 realFns = a.v1v3 realFns := by
    unfold v1v3
    rw [h1, h3, Vec3.add_sub_add_right]
  have hi : (a.shifted w).second_axis_init realFns = a.second_axis_init realFns := by
    unfold second_axis_init
    rw [h1, h2, Vec3.add_sub_add_right]
  have ha : (a.shifted w).second_axis realFns = a.second_axis realFns := by
    unfold second_axis
    rw [hi, hc, h1, Vec3.add_sub_add_right]
  unfold second_rotation second_angle
  rw [ha, hv]

theorem shifted_final_translation (hG : a.gripper_transform.IsIsometry) :
    (a.shifted w).final_translation realFns
      = a.final_translation realFns + ⟨w.x, w.y, 0⟩
        - (a.second_rotation realFns).rotate realFns
            ((a.first_rotation realFns).rotate realFns w) := by
  obtain ⟨hc, -, -, -⟩ := shifted_current a w hG
  obtain ⟨hrc, hr1, -, -⟩ := shifted_rotated a w hG
  have h2 := shifted_second_rotation a w hG
  have hs : (a.shifted w).support_surface = a.support_surface := rfl
  unfold final_translation final_center_of_gravity final_ground_touch_vertex_1
  rw [h2, hrc, hr1, hc, hs]
  simp only [AngleAxis.rotate_add]
  ext <;> simp only [Vec3.add_def, Vec3.sub_def] <;> ring

/-- The world pose after placing as a transform. -/
theorem world_result_eq (hG : a.gripper_transform.IsIsometry) :
    a.gripper_transform.mul (a.result realFns)
      = ⟨(((a.second_rotation realFns).toRotationMatrix realFns).mul
            ((a.first_rotation realFns).toRotationMatrix realFns)).mul a.current_transform.linear,
          (a.second_rotation realFns).rotate realFns
            ((a.first_rotation realFns).rotate realFns a.current_transform.translation)
          + a.final_translation realFns⟩ := by
  unfold result
  rw [← Transform.comp_assoc, Transform.mul_rotate, Transform.mul_rotate,
    Transform.mul_translate, Transform.mul_inverse _ hG]
  simp only [Transform.mul, Transform.rotate, Transform.translate, Transform.identity,
    Mat3.identity_mat_mul, Mat3.identity_mulVec, Vec3.add_zero, AngleAxis.rotate,
    Mat3.mulVec_mulVec]

/-- In the world frame the pose after placing the shifted object is the pose after
placing the object, shifted horizontally. -/
theorem shifted_world_result (hG : a.gripper_transform.IsIsometry) :
    a.gripper_transform.mul ((a.shifted w).result realFns)
      = (Transform.identity.translate ⟨w.x, w.y, 0⟩).mul
          (a.gripper_transform.mul (a.result realFns)) := by
  have hg : (a.shifted w).gripper_transform = a.gripper_transform := rfl
  have hG2 : (a.shifted w).gripper_transform.IsIsometry := hG
  have e := world_result_eq (a.shifted w) hG2
  rw [hg] at e
  rw [e, world_result_eq a hG, shifted_first_rotation a w hG, shifted_second_rotation a w hG,
    shifted_final_translation a w hG, shifted_current_transform a w hG]
  simp only [Transform.mul, Transform.translate, Transform.identity, Mat3.identity_mat_mul,
    Mat3.identity_mulVec, Vec3.add_zero, AngleAxis.rotate_add]
  congr 1
  ext <;> simp only [Vec3.add_def, Vec3.sub_def] <;> ring

theorem shifted_result_vertical (hG : a.gripper_transform.IsIsometry) (hx : w.x = 0)
    (hy : w.y = 0) : (a.shifted w).result realFns = a.result realFns := by
  have h := shifted_world_result a w hG
  have h0 : (Transform.identity.translate (⟨w.x, w.y, 0⟩ : Vec3 ℝ)) = Transform.identity := by
    rw [hx, hy]
    simp only [Transform.translate, Transform.identity, Mat3.identity_mulVec, Vec3.add_zero]
    rfl
  rw [h0, Transform.identity_comp] at h
  have h2 := congrArg (fun t => a.gripper_transform.inverse.mul t) h
  simp only [← Transform.comp_assoc, Transform.inverse_mul _ hG, Transform.identity_comp] at h2
  exact h2

end Placing

/-- C18: for an isometry `G`, replacing the pose before placing `P` by
`G⁻¹ * Translation(w) * G * P` changes the world pose after placing `G * P'` to
`Translation(w.x, w.y, 0) * (G * P')`, so that every point of the placed object is
shifted by `(w.x, w.y, 0)`; when `w` is vertical the returned pose is unchanged. -/
theorem placing_commutes_with_shift (P G : Transform ℝ) (cog g1 g2 g3 : Vec3 ℝ) (s : ℝ)
    (w : Vec3 ℝ) (hG : G.IsIsometry) :
    G.mul (calculate_transform_after_placing realFns
        (((G.inverse.translate w).mul G).mul P) cog g1 g2 g3 s G)
      = (Transform.identity.translate ⟨w.x, w.y, 0⟩).mul
          (G.mul (calculate_transform_after_placing realFns P cog g1 g2 g3 s G))
    ∧ (∀ p : Vec3 ℝ,
        (G.mul (calculate_transform_after_placing realFns
          (((G.inverse.translate w).mul G).mul P) cog g1 g2 g3 s G)).apply p
        = (G.mul (calculate_transform_after_placing realFns P cog g1 g2 g3 s G)).apply p
          + ⟨w.x, w.y, 0⟩)
    ∧ (w.x = 0 → w.y = 0 →
        calculate_transform_after_placing realFns
          (((G.inverse.translate w).mul G).mul P) cog g1 g2 g3 s G
        = calculate_transform_after_placing realFns P cog g1 g2 g3 s G) := by
  have h := Placing.shifted_world_result ⟨P, cog, g1, g2, g3, s, G⟩ w hG
  refine ⟨h, ?_, Placing.shifted_result_vertical ⟨P, cog, g1, g2, g3, s, G⟩ w hG⟩
  intro p
  have h2 := congrArg (fun t => t.apply p) h
  simp only [Transform.apply_mul] at h2
  unfold calculate_transform_after_placing
  rw [Transform.apply_mul, Transform.apply_mul]
  refine h2.trans ?_
  simp only [Transform.apply, Transform.translate, Transform.identity, Mat3.identity_mulVec,
    Vec3.add_zero]

/-- The example placing, seen from a gripper frame that is turned by a quarter turn
about the vertical and displaced, shifted by `(1, 2, 3)`. -/
theorem placing_commutes_with_shift_witness :
    (example_gripper : Transform ℝ).IsIsometry
    ∧
    (example_gripper : Transform ℝ).mul (calculate_transform_after_placing realFns
        ((((example_gripper : Transform ℝ).inverse.translate (⟨1, 2, 3⟩ : Vec3 ℝ)).mul
            (example_gripper : Transform ℝ)).mul Transform.identity) ⟨1, 0, 1⟩ ⟨0, 0, 0⟩ ⟨3, 0,
            -4⟩ ⟨0, 1, 0⟩ 0 (example_gripper : Transform ℝ))
      = (Transform.identity.translate ⟨(⟨1, 2, 3⟩ : Vec3 ℝ).x, (⟨1, 2, 3⟩ : Vec3 ℝ).y, 0⟩).mul
          ((example_gripper : Transform ℝ).mul (calculate_transform_after_placing realFns
              Transform.identity ⟨1, 0, 1⟩ ⟨0, 0, 0⟩ ⟨3, 0, -4⟩ ⟨0, 1, 0⟩ 0 (example_gripper :
              Transform ℝ)))
    ∧ (∀ p : Vec3 ℝ,
        ((example_gripper : Transform ℝ).mul (calculate_transform_after_placing realFns
          ((((example_gripper : Transform ℝ).inverse.translate (⟨1, 2, 3⟩ : Vec3 ℝ)).mul
              (example_gripper : Transform ℝ)).mul Transform.identity) ⟨1, 0, 1⟩ ⟨0, 0, 0⟩ ⟨3, 0,
              -4⟩ ⟨0, 1, 0⟩ 0 (example_gripper : Transform ℝ))).apply p
        = ((example_gripper : Transform ℝ).mul (calculate_transform_after_placing realFns
            Transform.identity ⟨1, 0, 1⟩ ⟨0, 0, 0⟩ ⟨3, 0, -4⟩ ⟨0, 1, 0⟩ 0 (example_gripper :
            Transform ℝ))).apply p
          + ⟨(⟨1, 2, 3⟩ : Vec3 ℝ).x, (⟨1, 2, 3⟩ : Vec3 ℝ).y, 0⟩)
    ∧ ((⟨1, 2, 3⟩ : Vec3 ℝ).x = 0 → (⟨1, 2, 3⟩ : Vec3 ℝ).y = 0 →
        calculate_transform_after_placing realFns
          ((((example_gripper : Transform ℝ).inverse.translate (⟨1, 2, 3⟩ : Vec3 ℝ)).mul
              (example_gripper : Transform ℝ)).mul Transform.identity) ⟨1, 0, 1⟩ ⟨0, 0, 0⟩ ⟨3, 0,
              -4⟩ ⟨0, 1, 0⟩ 0 (example_gripper : Transform ℝ)
        = calculate_transform_after_placing realFns Transform.identity ⟨1, 0, 1⟩ ⟨0, 0, 0⟩ ⟨3, 0,
            -4⟩ ⟨0, 1, 0⟩ 0 (example_gripper : Transform ℝ)) :=
  have hG : (example_gripper : Transform ℝ).IsIsometry := by
    constructor <;> ext <;> simp [example_gripper, Mat3.mul, Mat3.transpose, Mat3.identity]
  ⟨hG, placing_commutes_with_shift Transform.identity _ ⟨1, 0, 1⟩ ⟨0, 0, 0⟩ ⟨3, 0, -4⟩ ⟨0, 1, 0⟩ 0
    ⟨1, 2, 3⟩ hG⟩

end shifts

/-! ## The cube scenario -/

section cube_trig

/-- Cosine and sine of `atan2 y x` for a point at the distance `ρ` from the origin. -/
theorem cos_sin_atan2 (y x ρ : ℝ) (hρ : 0 < ρ) (h : x * x + y * y = ρ * ρ) :
    Real.cos (realFns.atan2 y x) = x / ρ ∧ Real.sin (realFns.atan2 y x) = y / ρ := by
  obtain ⟨hc, hs⟩ := atan2_polar y x
  have hr : Real.sqrt (x * x + y * y) = ρ := by
    rw [h]
    exact Real.sqrt_mul_self hρ.le
  rw [hr] at hc hs
  constructor
  · rw [eq_div_iff hρ.ne.symm, mul_comm]
    exact hc
  · rw [eq_div_iff hρ.ne.symm, mul_comm]
    exact hs

/-- In the closed upper half plane the angle grows with the turn to the left:
a point that is not to the right of another point above the axis has no larger
angle. -/
theorem atan2_le_atan2 (z1 p1 z2 p2 : ℝ) (h2 : 0 < z2)
    (hc : z1 * p2 ≤ p1 * z2) : realFns.atan2 z1 p1 ≤ realFns.atan2 z2 p2 := by
  by_contra hlt
  have hlt : realFns.atan2 z2 p2 < realFns.atan2 z1 p1 := not_le.mp hlt
  obtain ⟨hc1, hs1⟩ := atan2_polar z1 p1
  obtain ⟨hc2, hs2⟩ := atan2_polar z2 p2
  have hθ1 : realFns.atan2 z1 p1 ≤ Real.pi := atan2_le_pi _ _
  have hθ2 : 0 ≤ realFns.atan2 z2 p2 := atan2_nonneg _ _ h2.le
  have hρ1 : 0 ≤ Real.sqrt (p1 * p1 + z1 * z1) := Real.sqrt_nonneg _
  have hρ2 : 0 ≤ Real.sqrt (p2 * p2 + z2 * z2) := Real.sqrt_nonneg _
  have hρ2pos : 0 < Real.sqrt (p2 * p2 + z2 * z2) := by
    apply Real.sqrt_pos.mpr
    nlinarith [mul_self_nonneg p2, mul_pos h2 h2]
  have hθ2pos : 0 < realFns.atan2 z2 p2 := by
    rcases hθ2.lt_or_eq with h | h
    · exact h
    · rw [← h, Real.sin_zero, mul_zero] at hs2
      linarith
  have hρ1pos : 0 < Real.sqrt (p1 * p1 + z1 * z1) := by
    rcases hρ1.lt_or_eq with h | h
    · exact h
    · exfalso
      rw [← h, zero_mul] at hc1 hs1
      have e : realFns.atan2 z1 p1 = 0 := by
        rw [← hc1, ← hs1]
        exact atan2_zero_of_nonneg 0 le_rfl
      rw [e] at hlt
      linarith
  have hsin : 0 < Real.sin (realFns.atan2 z1 p1 - realFns.atan2 z2 p2) :=
    Real.sin_pos_of_pos_of_lt_pi (by linarith) (by linarith)
  rw [Real.sin_sub] at hsin
  have hprod := mul_pos (mul_pos hρ1pos hρ2pos) hsin
  have e : Real.sqrt (p1 * p1 + z1 * z1) * Real.sqrt (p2 * p2 + z2 * z2)
      * (Real.sin (realFns.atan2 z1 p1) * Real.cos (realFns.atan2 z2 p2)
        - Real.cos (realFns.atan2 z1 p1) * Real.sin (realFns.atan2 z2 p2))
      = z1 * p2 - p1 * z2 := by
    have e1 : z1 * p2 - p1 * z2
        = (Real.sqrt (p1 * p1 + z1 * z1) * Real.sin (realFns.atan2 z1 p1))
            * (Real.sqrt (p2 * p2 + z2 * z2) * Real.cos (realFns.atan2 z2 p2))
          - (Real.sqrt (p1 * p1 + z1 * z1) * Real.cos (realFns.atan2 z1 p1))
            * (Real.sqrt (p2 * p2 + z2 * z2) * Real.sin (realFns.atan2 z2 p2)) := by
      rw [hc1, hs1, hc2, hs2]
    rw [e1]
    ring
  rw [e] at hprod
  linarith

/-- The number `s = 1 / √26`. -/
theorem inv_sqrt_26 :
    (1 / Real.sqrt 26) * (1 / Real.sqrt 26) = 1 / 26 ∧ 0 < 1 / Real.sqrt 26
      ∧ 19 / 100 < 1 / Real.sqrt 26 ∧ 1 / Real.sqrt 26 < 1 / 5 := by
  have h26 : Real.sqrt 26 * Real.sqrt 26 = 26 := Real.mul_self_sqrt (by norm_num)
  have hpos : 0 < Real.sqrt 26 := Real.sqrt_pos.mpr (by norm_num)
  have h2 : (1 / Real.sqrt 26) * (1 / Real.sqrt 26) = 1 / 26 := by
    rw [div_mul_div_comm, h26, one_mul]
  have h0 : 0 < 1 / Real.sqrt 26 := one_div_pos.mpr hpos
  refine ⟨h2, h0, ?_, ?_⟩
  · by_contra h
    have h := not_lt.mp h
    nlinarith
  · by_contra h
    have h := not_lt.mp h
    nlinarith

/-- The angles the solver compares, for two points above the level of contact 1. -/
theorem atan2_abs_le (z1 p1 z2 p2 : ℝ) (h1 : 0 < z1) (h2 : 0 < z2)
    (hc : z1 * p2 ≤ p1 * z2) : realFns.atan2 |z1| p1 ≤ realFns.atan2 |z2| p2 := by
  rw [abs_of_pos h1, abs_of_pos h2]
  exact atan2_le_atan2 z1 p1 z2 p2 h2 hc

theorem getD_map_mulVec (M : Mat3 ℝ) (vs : List (Vec3 ℝ)) (i : Nat) :
    (vs.map M.mulVec).getD i 0 = M.mulVec (vs.getD i 0) := by
  rcases Nat.lt_or_ge i vs.length with h | h
  · simp [List.getD_eq_getElem?_getD, List.getElem?_map, List.getElem?_eq_getElem h]
  · simp [List.getD_eq_getElem?_getD, List.getElem?_map, List.getElem?_eq_none h]

end cube_trig

section cube

open find_three_points

variable (s : ℝ)

theorem tilted_cube_at_eq :
    tilted_cube_at s
      = [⟨7 / 26 - 12 / 5 * s, 0, -42 / 65 - s⟩,
         ⟨7 / 26 + 144 / 65 * s, -s, -42 / 65 + 12 / 13 * s⟩,
         ⟨1 / 26 - 108 / 65 * s, 4 * s, -6 / 65 - 9 / 13 * s⟩,
         ⟨1 / 26 + 192 / 65 * s, 3 * s, -6 / 65 + 16 / 13 * s⟩,
         ⟨-1 / 26 - 192 / 65 * s, -3 * s, 6 / 65 - 16 / 13 * s⟩,
         ⟨-1 / 26 + 108 / 65 * s, -4 * s, 6 / 65 + 9 / 13 * s⟩,
         ⟨-7 / 26 - 144 / 65 * s, s, 42 / 65 - 12 / 13 * s⟩,
         ⟨-7 / 26 + 12 / 5 * s, 0, 42 / 65 + s⟩] := by
  simp only [tilted_cube_at, unit_cube, List.map_cons, List.map_nil, example_tilt, Mat3.mulVec,
    List.cons.injEq, Vec3.mk.injEq, and_true]
  refine ⟨⟨?_, ?_, ?_⟩, ⟨?_, ?_, ?_⟩, ⟨?_, ?_, ?_⟩, ⟨?_, ?_, ?_⟩, ⟨?_, ?_, ?_⟩, ⟨?_, ?_, ?_⟩,
    ⟨?_, ?_, ?_⟩, ⟨?_, ?_, ?_⟩⟩ <;> ring

theorem tilted_cube_at_length : (tilted_cube_at s).length = 8 := rfl

theorem cube_id1 (hs1 : 19 / 100 < s) (hs3 : s < 1 / 5) :
    ground_touch_vertex_id_1 (tilted_cube_at s) = 0 := by
  unfold ground_touch_vertex_id_1
  apply argmin_eq _ 0
  · simp [current_vertices_z, tilted_cube_at_length]
  · intro i hi
    have hi8 : i < 8 := by simpa [current_vertices_z, tilted_cube_at_length] using hi
    rw [tilted_cube_at_eq]
    interval_cases i <;>
      simp only [current_vertices_z, List.map_cons, List.map_nil, List.getD_cons_zero,
        List.getD_cons_succ] <;>
      linarith
  · intro j hj
    omega

theorem cube_first_axis_raw (hs1 : 19 / 100 < s) (hs3 : s < 1 / 5) :
    first_axis_raw (tilted_cube_at s) 0 = ⟨0, 12 / 5 * s - 7 / 26, 0⟩ := by
  rw [first_axis_raw, cube_id1 s hs1 hs3, tilted_cube_at_eq]
  simp only [List.getD_cons_zero, Vec3.cross, Vec3.UnitZ, Vec3.sub_x, Vec3.sub_y, Vec3.sub_z,
    Vec3.zero_x, Vec3.zero_y, Vec3.zero_z]
  ext <;> simp only [] <;> ring

theorem cube_first_axis_norm (hs1 : 19 / 100 < s) (hs3 : s < 1 / 5) :
    (first_axis_raw (tilted_cube_at s) 0).norm realFns = 12 / 5 * s - 7 / 26 := by
  rw [cube_first_axis_raw s hs1 hs3]
  have e : Vec3.squaredNorm (⟨0, 12 / 5 * s - 7 / 26, 0⟩ : Vec3 ℝ)
      = (12 / 5 * s - 7 / 26) * (12 / 5 * s - 7 / 26) := by
    simp only [Vec3.squaredNorm]
    ring
  unfold Vec3.norm
  rw [e]
  exact Real.sqrt_mul_self (by linarith)

theorem cube_first_axis (hs1 : 19 / 100 < s) (hs3 : s < 1 / 5) :
    first_axis realFns (tilted_cube_at s) 0 = ⟨0, 1, 0⟩ := by
  have hn := cube_first_axis_norm s hs1 hs3
  unfold Vec3.norm at hn
  have hr : 0 < 12 / 5 * s - 7 / 26 := by linarith
  have hpos : 0 < (first_axis_raw (tilted_cube_at s) 0).squaredNorm := by
    by_contra h
    have h0 : (first_axis_raw (tilted_cube_at s) 0).squaredNorm ≤ 0 := not_lt.mp h
    have : realFns.sqrt (first_axis_raw (tilted_cube_at s) 0).squaredNorm = 0 :=
      Real.sqrt_eq_zero_of_nonpos h0
    rw [this] at hn
    linarith
  unfold first_axis Vec3.normalized
  rw [if_pos hpos, hn, cube_first_axis_raw s hs1 hs3]
  ext <;> simp only [Vec3.sdiv, zero_div]
  exact div_self hr.ne.symm

theorem cube_first_angles_getD (hs1 : 19 / 100 < s) (hs3 : s < 1 / 5) (i : Nat)
    (hi : i < 8) :
    (first_angles realFns (tilted_cube_at s) 0).getD i 0
      = if i = 0 then INF
        else realFns.atan2 |((tilted_cube_at s).getD i 0 - (tilted_cube_at s).getD 0 0).z|
          ((tilted_cube_at s).getD i 0 - (tilted_cube_at s).getD 0 0).x := by
  rw [first_angles_getD _ _ i (by rw [tilted_cube_at_length]; exact hi), cube_id1 s hs1 hs3,
    cube_first_axis s hs1 hs3]
  simp only [one_mul, zero_mul, sub_zero]

theorem cube_first_angle_1 (hs1 : 19 / 100 < s) (hs3 : s < 1 / 5) :
    (first_angles realFns (tilted_cube_at s) 0).getD 1 0
      = realFns.atan2 (25 / 13 * s) (60 / 13 * s) := by
  rw [cube_first_angles_getD s hs1 hs3 1 (by omega), if_neg (by omega), tilted_cube_at_eq]
  simp only [List.getD_cons_zero, List.getD_cons_succ, Vec3.sub_x, Vec3.sub_z]
  have e1 : (-42 / 65 + 12 / 13 * s - (-42 / 65 - s) : ℝ) = 25 / 13 * s := by ring
  have e2 : (7 / 26 + 144 / 65 * s - (7 / 26 - 12 / 5 * s) : ℝ) = 60 / 13 * s := by ring
  rw [e1, e2, abs_of_pos (by linarith)]

set_option maxHeartbeats 1000000 in
theorem cube_id2 (hs1 : 19 / 100 < s) (hs3 : s < 1 / 5) :
    ground_touch_vertex_id_2 realFns (tilted_cube_at s) 0 = 1 := by
  apply argmin_eq _ 1 (by rw [first_angles_length, tilted_cube_at_length]; omega)
  · intro i hi
    rw [first_angles_length, tilted_cube_at_length] at hi
    rw [cube_first_angles_getD s hs1 hs3 1 (by omega), cube_first_angles_getD s hs1 hs3 i hi,
      if_neg (by omega)]
    by_cases h0 : i = 0
    · rw [if_pos h0]
      have := atan2_le_pi |((tilted_cube_at s).getD 1 0 - (tilted_cube_at s).getD 0 0).z|
        ((tilted_cube_at s).getD 1 0 - (tilted_cube_at s).getD 0 0).x
      have h2 := pi_add_EPS_lt_INF
      have h3 : (0 : ℝ) < EPS := EPS_pos
      linarith
    · rw [if_neg h0, tilted_cube_at_eq]
      have hi' : 1 ≤ i := by omega
      interval_cases i <;>
        simp only [List.getD_cons_zero, List.getD_cons_succ, Vec3.sub_x, Vec3.sub_z] <;>
        first
        | exact le_refl _
        | (apply atan2_abs_le <;> linarith [hs1, hs3])
  · intro j hj
    have : j = 0 := by omega
    subst this
    rw [cube_first_angles_getD s hs1 hs3 1 (by omega), cube_first_angles_getD s hs1 hs3 0
      (by omega), if_neg (by omega), if_pos rfl]
    have := atan2_le_pi |((tilted_cube_at s).getD 1 0 - (tilted_cube_at s).getD 0 0).z|
      ((tilted_cube_at s).getD 1 0 - (tilted_cube_at s).getD 0 0).x
    have h2 := pi_add_EPS_lt_INF
    linarith

/-- The first rotation: by the angle with cosine `12/13` and sine `5/13` about the
`y` axis. -/
theorem cube_first_rotation (hs1 : 19 / 100 < s) (hs3 : s < 1 / 5) :
    (first_rotation realFns (tilted_cube_at s) 0).toRotationMatrix realFns
      = ⟨12 / 13, 0, 5 / 13, 0, 1, 0, -5 / 13, 0, 12 / 13⟩ := by
  have hcs := cos_sin_atan2 (25 / 13 * s) (60 / 13 * s) (5 * s) (by linarith) (by ring)
  have hc : Real.cos (realFns.atan2 (25 / 13 * s) (60 / 13 * s)) = 12 / 13 := by
    rw [hcs.1]
    field_simp
    ring
  have hsn : Real.sin (realFns.atan2 (25 / 13 * s) (60 / 13 * s)) = 5 / 13 := by
    rw [hcs.2]
    field_simp
    ring
  have hr : first_rotation realFns (tilted_cube_at s) 0
      = ⟨realFns.atan2 (25 / 13 * s) (60 / 13 * s), ⟨0, 1, 0⟩⟩ := by
    unfold first_rotation
    rw [cube_id2 s hs1 hs3, cube_first_angle_1 s hs1 hs3, cube_first_axis s hs1 hs3]
  rw [hr]
  have hc' : realFns.cos (realFns.atan2 (25 / 13 * s) (60 / 13 * s)) = 12 / 13 := hc
  have hsn' : realFns.sin (realFns.atan2 (25 / 13 * s) (60 / 13 * s)) = 5 / 13 := hsn
  simp only [AngleAxis.toRotationMatrix, Vec3.smul, hc', hsn']
  ext <;> simp only [] <;> ring

theorem cube_rotate_first (hs1 : 19 / 100 < s) (hs3 : s < 1 / 5) (v : Vec3 ℝ) :
    (first_rotation realFns (tilted_cube_at s) 0).rotate realFns v
      = ⟨12 / 13 * v.x + 5 / 13 * v.z, v.y, -5 / 13 * v.x + 12 / 13 * v.z⟩ := by
  unfold AngleAxis.rotate
  rw [cube_first_rotation s hs1 hs3]
  ext <;> simp only [Mat3.mulVec] <;> ring

/-- After the first rotation the cube stands on the edge from corner 0 to corner 1. -/
theorem cube_rotated_eq (hs1 : 19 / 100 < s) (hs3 : s < 1 / 5) :
    rotated_vertices realFns (tilted_cube_at s) 0
      = [⟨-13 / 5 * s, 0, -7 / 10⟩, ⟨12 / 5 * s, -s, -7 / 10⟩,
         ⟨-9 / 5 * s, 4 * s, -1 / 10⟩, ⟨16 / 5 * s, 3 * s, -1 / 10⟩,
         ⟨-16 / 5 * s, -3 * s, 1 / 10⟩, ⟨9 / 5 * s, -4 * s, 1 / 10⟩,
         ⟨-12 / 5 * s, s, 7 / 10⟩, ⟨13 / 5 * s, 0, 7 / 10⟩] := by
  unfold rotated_vertices
  have hf : (first_rotation realFns (tilted_cube_at s) 0).rotate realFns
      = fun v => ⟨12 / 13 * v.x + 5 / 13 * v.z, v.y, -5 / 13 * v.x + 12 / 13 * v.z⟩ := by
    funext v
    exact cube_rotate_first s hs1 hs3 v
  rw [hf, tilted_cube_at_eq]
  simp only [List.map_cons, List.map_nil, List.cons.injEq, Vec3.mk.injEq, and_true]
  refine ⟨⟨?_, ?_, ?_⟩, ⟨?_, ?_, ?_⟩, ⟨?_, ?_, ?_⟩, ⟨?_, ?_, ?_⟩, ⟨?_, ?_, ?_⟩, ⟨?_, ?_, ?_⟩,
    ⟨?_, ?_, ?_⟩, ⟨?_, ?_, ?_⟩⟩ <;> dsimp only <;> ring

theorem cube_rotated_cog (hs1 : 19 / 100 < s) (hs3 : s < 1 / 5) :
    rotated_center_of_gravity realFns (tilted_cube_at s) 0 = 0 := by
  unfold rotated_center_of_gravity
  rw [cube_rotate_first s hs1 hs3]
  ext <;> simp

theorem cube_second_axis_init (hs2 : s * s = 1 / 26) (hs1 : 19 / 100 < s) (hs3 : s < 1 / 5) :
    second_axis_init realFns (tilted_cube_at s) 0 = ⟨5 * s, -s, 0⟩ := by
  unfold second_axis_init
  rw [cube_id1 s hs1 hs3, cube_id2 s hs1 hs3, cube_rotated_eq s hs1 hs3]
  simp only [List.getD_cons_zero, List.getD_cons_succ]
  have e : (⟨12 / 5 * s, -s, -7 / 10⟩ - ⟨-13 / 5 * s, 0, -7 / 10⟩ : Vec3 ℝ) = ⟨5 * s, -s, 0⟩ := by
    ext <;> simp only [Vec3.sub_x, Vec3.sub_y, Vec3.sub_z] <;> ring
  rw [e]
  apply Vec3.normalized_of_squaredNorm_one
  simp only [Vec3.squaredNorm]
  linear_combination 26 * hs2

theorem cube_direction (hs2 : s * s = 1 / 26) (hs1 : 19 / 100 < s) (hs3 : s < 1 / 5) :
    direction realFns (tilted_cube_at s) 0 = -1 / 10 := by
  unfold direction
  rw [cube_second_axis_init s hs2 hs1 hs3, cube_rotated_cog s hs1 hs3, cube_id1 s hs1 hs3,
    cube_rotated_eq s hs1 hs3]
  simp only [List.getD_cons_zero, Vec3.cross, Vec3.sub_x, Vec3.sub_y, Vec3.zero_x, Vec3.zero_y]
  linear_combination (-13 / 5) * hs2

theorem cube_second_axis (hs2 : s * s = 1 / 26) (hs1 : 19 / 100 < s) (hs3 : s < 1 / 5) :
    second_axis realFns (tilted_cube_at s) 0 = ⟨-5 * s, s, 0⟩ := by
  unfold second_axis
  rw [cube_direction s hs2 hs1 hs3, if_pos (by norm_num), cube_second_axis_init s hs2 hs1 hs3]
  ext <;> simp only [Vec3.neg_x, Vec3.neg_y, Vec3.neg_z] <;> ring

theorem cube_second_angles_getD (hs2 : s * s = 1 / 26) (hs1 : 19 / 100 < s) (hs3 : s < 1 / 5)
    (i : Nat) (hi : i < 8) :
    (second_angles realFns (tilted_cube_at s) 0).getD i 0
      = if i = 0 ∨ i = 1 then INF
        else realFns.atan2
          |((rotated_vertices realFns (tilted_cube_at s) 0).getD i 0
              - (rotated_vertices realFns (tilted_cube_at s) 0).getD 0 0).z|
          (s * ((rotated_vertices realFns (tilted_cube_at s) 0).getD i 0
              - (rotated_vertices realFns (tilted_cube_at s) 0).getD 0 0).x
            - -5 * s * ((rotated_vertices realFns (tilted_cube_at s) 0).getD i 0
              - (rotated_vertices realFns (tilted_cube_at s) 0).getD 0 0).y) := by
  rw [second_angles_getD _ _ i (by rw [tilted_cube_at_length]; exact hi), cube_id1 s hs1 hs3,
    cube_id2 s hs1 hs3, cube_second_axis s hs2 hs1 hs3]

theorem cube_second_angle_2 (hs2 : s * s = 1 / 26) (hs1 : 19 / 100 < s) (hs3 : s < 1 / 5) :
    (second_angles realFns (tilted_cube_at s) 0).getD 2 0 = realFns.atan2 (3 / 5) (4 / 5) := by
  rw [cube_second_angles_getD s hs2 hs1 hs3 2 (by omega), if_neg (by omega),
    cube_rotated_eq s hs1 hs3]
  simp only [List.getD_cons_zero, List.getD_cons_succ, Vec3.sub_x, Vec3.sub_y, Vec3.sub_z]
  have e1 : (-1 / 10 - -7 / 10 : ℝ) = 3 / 5 := by norm_num
  have e2 : s * (-9 / 5 * s - -13 / 5 * s) - -5 * s * (4 * s - 0) = 4 / 5 := by
    linear_combination (104 / 5) * hs2
  rw [e1, e2, abs_of_pos (by norm_num)]

set_option maxHeartbeats 1000000 in
theorem cube_id3 (hs2 : s * s = 1 / 26) (hs1 : 19 / 100 < s) (hs3 : s < 1 / 5) :
    ground_touch_vertex_id_3 realFns (tilted_cube_at s) 0 = 2 := by
  apply argmin_eq _ 2 (by rw [second_angles_length, tilted_cube_at_length]; omega)
  · intro i hi
    rw [second_angles_length, tilted_cube_at_length] at hi
    rw [cube_second_angles_getD s hs2 hs1 hs3 2 (by omega),
      cube_second_angles_getD s hs2 hs1 hs3 i hi, if_neg (by omega)]
    by_cases h0 : i = 0 ∨ i = 1
    · rw [if_pos h0]
      have := atan2_le_pi
        |((rotated_vertices realFns (tilted_cube_at s) 0).getD 2 0
              - (rotated_vertices realFns (tilted_cube_at s) 0).getD 0 0).z|
          (s * ((rotated_vertices realFns (tilted_cube_at s) 0).getD 2 0
              - (rotated_vertices realFns (tilted_cube_at s) 0).getD 0 0).x
            - -5 * s * ((rotated_vertices realFns (tilted_cube_at s) 0).getD 2 0
              - (rotated_vertices realFns (tilted_cube_at s) 0).getD 0 0).y)
      have h2 := pi_add_EPS_lt_INF
      have h3 : (0 : ℝ) < EPS := EPS_pos
      linarith
    · rw [if_neg h0, cube_rotated_eq s hs1 hs3]
      have hi' : 2 ≤ i := by omega
      interval_cases i <;>
        simp only [List.getD_cons_zero, List.getD_cons_succ, Vec3.sub_x, Vec3.sub_y,
          Vec3.sub_z] <;>
        first
        | exact le_refl _
        | (apply atan2_abs_le <;> linarith [hs2, hs1, hs3])
  · intro j hj
    have hj' : j = 0 ∨ j = 1 := by omega
    rw [cube_second_angle_2 s hs2 hs1 hs3, cube_second_angles_getD s hs2 hs1 hs3 j (by omega),
      if_pos hj']
    have := atan2_le_pi (3 / 5) (4 / 5)
    have h2 := pi_add_EPS_lt_INF
    linarith

/-- The second rotation: by the angle with cosine `4/5` and sine `3/5` about the edge
on the ground. -/
theorem cube_rotate_second (hs2 : s * s = 1 / 26) (hs1 : 19 / 100 < s) (hs3 : s < 1 / 5)
    (v : Vec3 ℝ) :
    (second_rotation realFns (tilted_cube_at s) 0).rotate realFns v
      = ⟨129 / 130 * v.x - 1 / 26 * v.y + 3 / 5 * s * v.z,
         -1 / 26 * v.x + 21 / 26 * v.y + 3 * s * v.z,
         -3 / 5 * s * v.x - 3 * s * v.y + 4 / 5 * v.z⟩ := by
  have hcs := cos_sin_atan2 (3 / 5) (4 / 5) 1 one_pos (by norm_num)
  have hc : realFns.cos (realFns.atan2 (3 / 5) (4 / 5)) = 4 / 5 := by
    have := hcs.1
    rw [div_one] at this
    exact this
  have hsn : realFns.sin (realFns.atan2 (3 / 5) (4 / 5)) = 3 / 5 := by
    have := hcs.2
    rw [div_one] at this
    exact this
  have hr : second_rotation realFns (tilted_cube_at s) 0
      = ⟨realFns.atan2 (3 / 5) (4 / 5), ⟨-5 * s, s, 0⟩⟩ := by
    unfold second_rotation
    rw [cube_id3 s hs2 hs1 hs3, cube_second_angle_2 s hs2 hs1 hs3,
      cube_second_axis s hs2 hs1 hs3]
  rw [hr]
  simp only [AngleAxis.rotate, AngleAxis.toRotationMatrix, Vec3.smul, hc, hsn, Mat3.mulVec]
  ext
  · dsimp only
    linear_combination (v.x * 5 - v.y) * hs2
  · dsimp only
    linear_combination (-v.x + v.y / 5) * hs2
  · dsimp only
    ring

/-- After the second rotation the cube rests on its face `z = -1/2`. -/
theorem cube_final_eq (hs2 : s * s = 1 / 26) (hs1 : 19 / 100 < s) (hs3 : s < 1 / 5) :
    final_vertices realFns (tilted_cube_at s) 0
      = [⟨-3 * s, -2 * s, -1 / 2⟩, ⟨2 * s, -3 * s, -1 / 2⟩, ⟨-2 * s, 3 * s, -1 / 2⟩,
         ⟨3 * s, 2 * s, -1 / 2⟩, ⟨-3 * s, -2 * s, 1 / 2⟩, ⟨2 * s, -3 * s, 1 / 2⟩,
         ⟨-2 * s, 3 * s, 1 / 2⟩, ⟨3 * s, 2 * s, 1 / 2⟩] := by
  unfold final_vertices
  have hf : (second_rotation realFns (tilted_cube_at s) 0).rotate realFns
      = fun v => ⟨129 / 130 * v.x - 1 / 26 * v.y + 3 / 5 * s * v.z,
         -1 / 26 * v.x + 21 / 26 * v.y + 3 * s * v.z,
         -3 / 5 * s * v.x - 3 * s * v.y + 4 / 5 * v.z⟩ := by
    funext v
    exact cube_rotate_second s hs2 hs1 hs3 v
  rw [hf, cube_rotated_eq s hs1 hs3]
  simp only [List.map_cons, List.map_nil, List.cons.injEq, Vec3.mk.injEq, and_true]
  refine ⟨⟨?_, ?_, ?_⟩, ⟨?_, ?_, ?_⟩, ⟨?_, ?_, ?_⟩, ⟨?_, ?_, ?_⟩, ⟨?_, ?_, ?_⟩, ⟨?_, ?_, ?_⟩,
    ⟨?_, ?_, ?_⟩, ⟨?_, ?_, ?_⟩⟩ <;> dsimp only
  · ring
  · ring
  · linear_combination ((39 / 25)) * hs2
  · ring
  · ring
  · linear_combination ((39 / 25)) * hs2
  · ring
  · ring
  · linear_combination ((-273 / 25)) * hs2
  · ring
  · ring
  · linear_combination ((-273 / 25)) * hs2
  · ring
  · ring
  · linear_combination ((273 / 25)) * hs2
  · ring
  · ring
  · linear_combination ((273 / 25)) * hs2
  · ring
  · ring
  · linear_combination ((-39 / 25)) * hs2
  · ring
  · ring
  · linear_combination ((-39 / 25)) * hs2

theorem cube_points_on_ground (hs2 : s * s = 1 / 26) (hs1 : 19 / 100 < s) (hs3 : s < 1 / 5) :
    points_on_ground realFns (tilted_cube_at s) 0
      = [⟨-3 * s, -2 * s⟩, ⟨2 * s, -3 * s⟩, ⟨-2 * s, 3 * s⟩, ⟨3 * s, 2 * s⟩] := by
  unfold points_on_ground min_z
  rw [cube_id1 s hs1 hs3, cube_final_eq s hs2 hs1 hs3]
  have hE : (0 : ℝ) < EPS := EPS_pos
  have hE1 : (EPS : ℝ) < 1 := by
    unfold EPS
    norm_num
  have h1 : (-1 / 2 : ℝ) ≤ -1 / 2 + EPS := by linarith
  have h2 : ¬ ((1 / 2 : ℝ) ≤ -1 / 2 + EPS) := by
    intro h
    linarith
  simp only [List.getD_cons_zero, List.filter_cons, List.filter_nil, h1, h2, decide_True,
    decide_False, if_true, if_false, List.map_cons, List.map_nil, Vec3.head2]
  simp

theorem cube_final_cog (hs1 : 19 / 100 < s) (hs3 : s < 1 / 5) :
    final_center_of_gravity realFns (tilted_cube_at s) 0 = 0 := by
  unfold final_center_of_gravity
  rw [cube_rotated_cog s hs1 hs3]
  exact AngleAxis.rotate_zero _

theorem cube_stability (hull : Vec2 ℝ → List (Vec2 ℝ) → Bool) (hs2 : s * s = 1 / 26)
    (hs1 : 19 / 100 < s) (hs3 : s < 1 / 5) :
    stability realFns (tilted_cube_at s) 0 hull
      = hull ⟨0, 0⟩ [⟨-3 * s, -2 * s⟩, ⟨2 * s, -3 * s⟩, ⟨-2 * s, 3 * s⟩, ⟨3 * s, 2 * s⟩] := by
  unfold stability
  rw [cube_points_on_ground s hs2 hs1 hs3, cube_final_cog s hs1 hs3]
  rfl

/-- What the contact solver returns for the tilted cube, with or without the balance
check. -/
theorem cube_result (hull : Vec2 ℝ → List (Vec2 ℝ) → Bool) (bc : Bool)
    (hs2 : s * s = 1 / 26) (hs1 : 19 / 100 < s) (hs3 : s < 1 / 5) :
    find_three_points realFns hull (tilted_cube_at s) 0 bc
      = .ok ⟨0, 1, 2, find_three_points.rotation realFns (tilted_cube_at s) 0,
          hull ⟨0, 0⟩ [⟨-3 * s, -2 * s⟩, ⟨2 * s, -3 * s⟩, ⟨-2 * s, 3 * s⟩, ⟨3 * s, 2 * s⟩]⟩ := by
  have hE : (EPS : ℝ) < 1 / 10 := by
    unfold EPS
    norm_num
  unfold find_three_points
  rw [if_neg, if_neg]
  · rw [cube_id1 s hs1 hs3, cube_id2 s hs1 hs3, cube_id3 s hs2 hs1 hs3,
      cube_stability s hull hs2 hs1 hs3]
  · rintro ⟨-, h⟩
    rw [cube_direction s hs2 hs1 hs3] at h
    have e : |(-1 / 10 : ℝ)| = 1 / 10 := by
      rw [abs_of_neg (by norm_num)]
      norm_num
    rw [e] at h
    linarith
  · rintro ⟨-, h⟩
    rw [cube_first_axis_norm s hs1 hs3] at h
    linarith

/-- The tilt is a rotation matrix. -/
theorem example_tilt_orthogonal (hs2 : s * s = 1 / 26) :
    (example_tilt s).mul (example_tilt s).transpose = Mat3.identity
    ∧ (example_tilt s).transpose.mul (example_tilt s) = Mat3.identity := by
  constructor <;> ext <;>
    simp only [Mat3.mul, Mat3.transpose, example_tilt, Mat3.identity] <;>
    linarith [hs2]

/-- In the tilted cube the corner 0 is strictly the lowest vertex. -/
theorem tilted_cube_lowest (hs1 : 19 / 100 < s) (hs3 : s < 1 / 5) (i : Nat) (h0 : 0 < i)
    (hi : i < 8) :
    ((tilted_cube_at s).getD 0 0).z < ((tilted_cube_at s).getD i 0).z := by
  rw [tilted_cube_at_eq]
  interval_cases i <;> simp only [List.getD_cons_zero, List.getD_cons_succ] <;> linarith

end cube

section cube_scenario

open find_three_points

/-- C15, as stated, fails: in the orientation `example_tilt` (a rotation matrix) the
corner `(-1/2, -1/2, -1/2)` of the unit cube is strictly the lowest vertex, and
`find_three_points` returns, with or without the balance check, the stability flag
`true` for every hull test that accepts the midpoint of two of the points it is given:
the cube has toppled onto a face and the flag is the test of the centre of the face
against its corners. -/
theorem cube_scenario_counterexample :
    ((example_tilt (1 / Real.sqrt 26)).mul (example_tilt (1 / Real.sqrt 26)).transpose =
        Mat3.identity
      ∧ (example_tilt (1 / Real.sqrt 26)).transpose.mul (example_tilt (1 / Real.sqrt 26)) =
          Mat3.identity)
    ∧ (unit_cube : List (Vec3 ℝ)).getD 0 0 = ⟨-1 / 2, -1 / 2, -1 / 2⟩
    ∧ (∀ i, 0 < i → i < 8 →
        ((tilted_cube realFns).getD 0 0).z < ((tilted_cube realFns).getD i 0).z)
    ∧ (∀ (hull : Vec2 ℝ → List (Vec2 ℝ) → Bool) (bc : Bool),
        (∀ (a b : Vec2 ℝ) (pts : List (Vec2 ℝ)), a ∈ pts → b ∈ pts →
          hull ⟨(a.x + b.x) / 2, (a.y + b.y) / 2⟩ pts = true) →
        ∃ tp, find_three_points realFns hull (tilted_cube realFns) 0 bc = .ok tp
          ∧ tp.stability = true) := by
  obtain ⟨hs2, hs0, hs1, hs3⟩ := inv_sqrt_26
  refine ⟨example_tilt_orthogonal _ hs2, rfl, fun i h0 hi => tilted_cube_lowest _ hs1 hs3 i h0 hi,
    ?_⟩
  intro hull bc hmid
  refine ⟨_, cube_result _ hull bc hs2 hs1 hs3, ?_⟩
  have h := hmid ⟨-3 * (1 / Real.sqrt 26), -2 * (1 / Real.sqrt 26)⟩ ⟨3 * (1 / Real.sqrt 26), 2 *
      (1 / Real.sqrt 26)⟩
    [⟨-3 * (1 / Real.sqrt 26), -2 * (1 / Real.sqrt 26)⟩, ⟨2 * (1 / Real.sqrt 26), -3 * (1 /
        Real.sqrt 26)⟩,
            ⟨-2 * (1 / Real.sqrt 26), 3 * (1 / Real.sqrt 26)⟩, ⟨3 * (1 / Real.sqrt 26), 2 * (1 /
                Real.sqrt 26)⟩]
    (by simp) (by simp)
  have e : (⟨(-3 * (1 / Real.sqrt 26) + 3 * (1 / Real.sqrt 26)) / 2, (-2 * (1 / Real.sqrt 26) + 2
      * (1 / Real.sqrt 26)) / 2⟩ : Vec2 ℝ) = ⟨0, 0⟩ := by
    ext <;> simp only [] <;> ring
  rw [e] at h
  exact h

/-- C15 (amended): for the unit cube with the centre of gravity at the origin in the
orientation `example_tilt`, a rotation in which the corner `(-1/2, -1/2, -1/2)` is
strictly the lowest vertex, `find_three_points` returns with or without the balance
check; the contact triple is that corner and the two corners `(1/2, -1/2, -1/2)` and
`(-1/2, 1/2, -1/2)` adjacent to it; after the two rotations the cube rests on its face
`z = -1/2`; and the stability flag is the verdict of the hull test on the centre of that
face against its four corners. -/
theorem cube_scenario (hull : Vec2 ℝ → List (Vec2 ℝ) → Bool) (bc : Bool) :
    ((example_tilt (1 / Real.sqrt 26)).mul (example_tilt (1 / Real.sqrt 26)).transpose =
        Mat3.identity
      ∧ (example_tilt (1 / Real.sqrt 26)).transpose.mul (example_tilt (1 / Real.sqrt 26)) =
          Mat3.identity)
    ∧ tilted_cube realFns = (unit_cube : List (Vec3 ℝ)).map (example_tilt (1 / Real.sqrt 26)).mulVec
    ∧ (∀ i, 0 < i → i < 8 →
        ((tilted_cube realFns).getD 0 0).z < ((tilted_cube realFns).getD i 0).z)
    ∧ ∃ tp, find_three_points realFns hull (tilted_cube realFns) 0 bc = .ok tp
        ∧ tp.ground_touch_vertex_id_1 = 0 ∧ tp.ground_touch_vertex_id_2 = 1
        ∧ tp.ground_touch_vertex_id_3 = 2
        ∧ (unit_cube : List (Vec3 ℝ)).getD 0 0 = ⟨-1 / 2, -1 / 2, -1 / 2⟩
        ∧ (unit_cube : List (Vec3 ℝ)).getD 1 0 = ⟨1 / 2, -1 / 2, -1 / 2⟩
        ∧ (unit_cube : List (Vec3 ℝ)).getD 2 0 = ⟨-1 / 2, 1 / 2, -1 / 2⟩
        ∧ final_vertices realFns (tilted_cube realFns) 0
          = (unit_cube : List (Vec3 ℝ)).map
              (fun v => ⟨(1 / Real.sqrt 26) * (5 * v.x + v.y), (1 / Real.sqrt 26) * (-v.x + 5 *
                  v.y), v.z⟩)
        ∧ tp.stability = hull ⟨0, 0⟩
            [⟨-3 * (1 / Real.sqrt 26), -2 * (1 / Real.sqrt 26)⟩, ⟨2 * (1 / Real.sqrt 26), -3 * (1
                / Real.sqrt 26)⟩,
            ⟨-2 * (1 / Real.sqrt 26), 3 * (1 / Real.sqrt 26)⟩, ⟨3 * (1 / Real.sqrt 26), 2 * (1 /
                Real.sqrt 26)⟩] := by
  obtain ⟨hs2, hs0, hs1, hs3⟩ := inv_sqrt_26
  refine ⟨example_tilt_orthogonal _ hs2, rfl,
    fun i h0 hi => tilted_cube_lowest _ hs1 hs3 i h0 hi,
    _, cube_result _ hull bc hs2 hs1 hs3, rfl, rfl, rfl, rfl, rfl, rfl, ?_, rfl⟩
  have hf := cube_final_eq _ hs2 hs1 hs3
  have ht : tilted_cube realFns = tilted_cube_at (1 / Real.sqrt 26) := rfl
  rw [ht, hf]
  simp only [unit_cube, List.map_cons, List.map_nil, List.cons.injEq, Vec3.mk.injEq, and_true]
  repeat' apply And.intro
  all_goals ring

end cube_scenario

/-! ## Degenerate toppling stages -/

section wedge

open find_three_points

theorem wedge_length : (example_wedge : List (Vec3 ℝ)).length = 4 := rfl

theorem wedge_id1 : ground_touch_vertex_id_1 (example_wedge : List (Vec3 ℝ)) = 0 := by
  simp [ground_touch_vertex_id_1, argmin, example_wedge, current_vertices_z, List.range', EPS]
  norm_num

theorem wedge_first_axis_raw :
    first_axis_raw (example_wedge : List (Vec3 ℝ)) ⟨1, 0, 1⟩ = ⟨0, 1, 0⟩ := by
  rw [first_axis_raw, wedge_id1]
  ext <;> simp [example_wedge, Vec3.cross, Vec3.UnitZ]

theorem wedge_first_axis :
    first_axis realFns (example_wedge : List (Vec3 ℝ)) ⟨1, 0, 1⟩ = ⟨0, 1, 0⟩ := by
  unfold first_axis
  rw [wedge_first_axis_raw]
  exact Vec3.normalized_of_squaredNorm_one _ (by simp [Vec3.squaredNorm])

theorem wedge_first_angle_1 :
    (first_angles realFns (example_wedge : List (Vec3 ℝ)) ⟨1, 0, 1⟩).getD 1 0 = 0 := by
  rw [first_angles_getD _ _ 1 (by rw [wedge_length]; omega), wedge_id1, wedge_first_axis,
    if_neg (by omega)]
  have e : (example_wedge : List (Vec3 ℝ)).getD 1 0 - (example_wedge : List (Vec3 ℝ)).getD 0 0
      = ⟨1, 0, 0⟩ := by
    ext <;> simp [example_wedge]
  rw [e]
  simp only [abs_zero]
  exact atan2_zero_of_nonneg _ (by norm_num)

theorem wedge_id2 :
    ground_touch_vertex_id_2 realFns (example_wedge : List (Vec3 ℝ)) ⟨1, 0, 1⟩ = 1 := by
  apply argmin_eq _ 1 (by rw [first_angles_length, wedge_length]; omega)
  · intro i hi
    rw [first_angles_length] at hi
    rw [wedge_first_angle_1]
    exact first_angles_nonneg _ _ i hi
  · intro j hj
    have : j = 0 := by omega
    subst this
    rw [wedge_first_angle_1, first_angles_getD _ _ 0 (by rw [wedge_length]; omega), wedge_id1,
      if_pos rfl]
    unfold EPS INF
    norm_num

theorem wedge_first_rotation (v : Vec3 ℝ) :
    (first_rotation realFns (example_wedge : List (Vec3 ℝ)) ⟨1, 0, 1⟩).rotate realFns v = v := by
  have h0 : (first_rotation realFns (example_wedge : List (Vec3 ℝ)) ⟨1, 0, 1⟩).angle = 0 := by
    show (first_angles realFns (example_wedge : List (Vec3 ℝ)) ⟨1, 0, 1⟩).getD
      (ground_touch_vertex_id_2 realFns (example_wedge : List (Vec3 ℝ)) ⟨1, 0, 1⟩) 0 = 0
    rw [wedge_id2, wedge_first_angle_1]
  show ((first_rotation realFns (example_wedge : List (Vec3 ℝ)) ⟨1, 0, 1⟩).toRotationMatrix
    realFns).mulVec v = v
  rw [AngleAxis.toRotationMatrix_angle_zero _ h0, Mat3.identity_mulVec]

theorem wedge_rotated (i : Nat) :
    (rotated_vertices realFns (example_wedge : List (Vec3 ℝ)) ⟨1, 0, 1⟩).getD i 0
      = (example_wedge : List (Vec3 ℝ)).getD i 0 := by
  rw [rotated_vertices_getD, wedge_first_rotation]

theorem wedge_second_axis_init :
    second_axis_init realFns (example_wedge : List (Vec3 ℝ)) ⟨1, 0, 1⟩ = ⟨1, 0, 0⟩ := by
  unfold second_axis_init
  rw [wedge_rotated, wedge_rotated, wedge_id1, wedge_id2]
  have e : (example_wedge : List (Vec3 ℝ)).getD 1 0 - (example_wedge : List (Vec3 ℝ)).getD 0 0
      = ⟨1, 0, 0⟩ := by
    ext <;> simp [example_wedge]
  rw [e]
  exact Vec3.normalized_of_squaredNorm_one _ (by simp [Vec3.squaredNorm])

/-- The centre of gravity of the wedge is straight above the edge on the ground: the
lowering direction of the second stage is zero. -/
theorem wedge_direction :
    direction realFns (example_wedge : List (Vec3 ℝ)) ⟨1, 0, 1⟩ = 0 := by
  unfold direction rotated_center_of_gravity
  rw [wedge_second_axis_init, wedge_rotated, wedge_id1, wedge_first_rotation]
  simp [Vec3.cross, example_wedge]

theorem wedge_second_axis :
    second_axis realFns (example_wedge : List (Vec3 ℝ)) ⟨1, 0, 1⟩ = ⟨1, 0, 0⟩ := by
  unfold second_axis
  rw [wedge_direction, if_neg (lt_irrefl 0), wedge_second_axis_init]

theorem wedge_second_angles (i : Nat) (hi : i < 4) :
    (second_angles realFns (example_wedge : List (Vec3 ℝ)) ⟨1, 0, 1⟩).getD i 0
      = if i = 0 ∨ i = 1 then INF
        else realFns.atan2 |((example_wedge : List (Vec3 ℝ)).getD i 0).z|
          (-((example_wedge : List (Vec3 ℝ)).getD i 0).y) := by
  rw [second_angles_getD _ _ i (by rw [wedge_length]; exact hi), wedge_id1, wedge_id2,
    wedge_second_axis, wedge_rotated, wedge_rotated]
  have e0 : (example_wedge : List (Vec3 ℝ)).getD 0 0 = ⟨0, 0, 0⟩ := rfl
  rw [e0]
  simp only [Vec3.sub_x, Vec3.sub_y, Vec3.sub_z, sub_zero, zero_mul, one_mul, zero_sub]

theorem wedge_second_angle_2 :
    (second_angles realFns (example_wedge : List (Vec3 ℝ)) ⟨1, 0, 1⟩).getD 2 0
      = realFns.atan2 1 1 := by
  rw [wedge_second_angles 2 (by omega), if_neg (by omega)]
  have e : (example_wedge : List (Vec3 ℝ)).getD 2 0 = ⟨0, -1, 1⟩ := rfl
  rw [e]
  simp only [abs_one, neg_neg]

theorem wedge_id3 :
    ground_touch_vertex_id_3 realFns (example_wedge : List (Vec3 ℝ)) ⟨1, 0, 1⟩ = 2 := by
  apply argmin_eq _ 2 (by rw [second_angles_length, wedge_length]; omega)
  · intro i hi
    rw [second_angles_length, wedge_length] at hi
    rw [wedge_second_angle_2, wedge_second_angles i hi]
    have hpi := atan2_le_pi 1 1
    have h2 := pi_add_EPS_lt_INF
    have h3 : (0 : ℝ) < EPS := EPS_pos
    interval_cases i
    · rw [if_pos (by omega)]
      linarith
    · rw [if_pos (by omega)]
      linarith
    · rw [if_neg (by omega)]
      have e : (example_wedge : List (Vec3 ℝ)).getD 2 0 = ⟨0, -1, 1⟩ := rfl
      rw [e]
      simp only [abs_one, neg_neg]
      exact le_refl _
    · rw [if_neg (by omega)]
      have e : (example_wedge : List (Vec3 ℝ)).getD 3 0 = ⟨0, 1, 1⟩ := rfl
      rw [e]
      simp only [abs_one]
      exact atan2_le_atan2 1 1 1 (-1) one_pos (by norm_num)
  · intro j hj
    have hj' : j = 0 ∨ j = 1 := by omega
    rw [wedge_second_angle_2, wedge_second_angles j (by omega), if_pos hj']
    have hpi := atan2_le_pi 1 1
    have h2 := pi_add_EPS_lt_INF
    linarith

theorem wedge_second_rotation :
    second_rotation realFns (example_wedge : List (Vec3 ℝ)) ⟨1, 0, 1⟩
      = ⟨realFns.atan2 1 1, ⟨1, 0, 0⟩⟩ := by
  unfold second_rotation
  rw [wedge_id3, wedge_second_angle_2, wedge_second_axis]

theorem atan2_one_one_ne_zero : realFns.atan2 1 1 ≠ 0 := by
  intro h
  have hl := level_at_atan2 1 1
  rw [h, Real.cos_zero, Real.sin_zero] at hl
  norm_num at hl

/-- The second stage of the wedge turns the upper corner `(0, -1, 1)` down to the
ground. -/
theorem wedge_second_stage_z :
    ((second_rotation realFns (example_wedge : List (Vec3 ℝ)) ⟨1, 0, 1⟩).rotate realFns
      ⟨0, -1, 1⟩).z = 0 := by
  rw [wedge_second_rotation, AngleAxis.rotate_z _ _ rfl]
  have hl := level_at_atan2 1 1
  simp only [mul_zero, zero_mul, zero_sub, mul_neg, mul_one, neg_neg] at hl ⊢
  linarith

end wedge

section degenerate

open find_three_points

/-- C10 fails as stated, in both stages.  First stage: for the example tetrahedron with
its centre of gravity `(0, 0, 3/4)` straight above the first contact the first axis is
zero and `balance_check` off lets `find_three_points` return, but the angle chosen for
the stage is `π/2`, not `0`, and the stage moves the second vertex `(2, 0, 1)`.  Second
stage: for the example wedge with its centre of gravity `(1, 0, 1)` straight above the
edge on the ground the lowering direction is zero and `find_three_points` returns, but
the angle chosen for the stage is not `0` and the stage turns the corner `(0, -1, 1)`
down to the height `0`. -/
theorem degenerate_stage_counterexample :
    (first_axis_raw (example_tetrahedron : List (Vec3 ℝ)) ⟨0, 0, 3 / 4⟩ = 0
      ∧ (∃ r, find_three_points realFns (fun _ _ => true) example_tetrahedron ⟨0, 0, 3 / 4⟩
          false = .ok r)
      ∧ (first_rotation realFns (example_tetrahedron : List (Vec3 ℝ)) ⟨0, 0, 3 / 4⟩).angle
          = Real.pi / 2
      ∧ (first_rotation realFns (example_tetrahedron : List (Vec3 ℝ)) ⟨0, 0, 3 / 4⟩).angle ≠ 0
      ∧ (example_tetrahedron : List (Vec3 ℝ)).getD 1 0 = ⟨2, 0, 1⟩
      ∧ (rotated_vertices realFns (example_tetrahedron : List (Vec3 ℝ)) ⟨0, 0, 3 / 4⟩).getD 1 0
          = ⟨0, 0, 0⟩)
    ∧ (direction realFns (example_wedge : List (Vec3 ℝ)) ⟨1, 0, 1⟩ = 0
      ∧ (∃ r, find_three_points realFns (fun _ _ => true) example_wedge ⟨1, 0, 1⟩ false
          = .ok r)
      ∧ (second_rotation realFns (example_wedge : List (Vec3 ℝ)) ⟨1, 0, 1⟩).angle ≠ 0
      ∧ (rotated_vertices realFns (example_wedge : List (Vec3 ℝ)) ⟨1, 0, 1⟩).getD 2 0
          = ⟨0, -1, 1⟩
      ∧ ((final_vertices realFns (example_wedge : List (Vec3 ℝ)) ⟨1, 0, 1⟩).getD 2 0).z
          = 0) := by
  refine ⟨⟨tetrahedron_first_axis_raw, ⟨_, find_three_points_false _ _ _⟩, ?_, ?_, rfl,
    tetrahedron_rotated 1⟩, wedge_direction, ⟨_, find_three_points_false _ _ _⟩, ?_, ?_, ?_⟩
  · rw [tetrahedron_first_rotation]
  · rw [tetrahedron_first_rotation]
    have := Real.pi_pos
    simp only
    linarith
  · rw [wedge_second_rotation]
    exact atan2_one_one_ne_zero
  · rw [wedge_rotated]
    rfl
  · rw [final_vertices_getD, wedge_first_rotation]
    exact wedge_second_stage_z

/-- C10, as amended: when `balance_check` is false `find_three_points` raises no
failure and returns, for every vertex list, so also when a toppling stage is degenerate.
When the lowering direction of the second stage is zero, the second axis is kept as
first computed (it is not negated) and the stage turns about it by the chosen second
angle.  A stage whose chosen angle is `0` is a zero rotation: it leaves every vector, so
every vertex and the centre of gravity, unchanged.  What the first stage does with a
zero axis is left open. -/
theorem degenerate_stage
    (hull : Vec2 ℝ → List (Vec2 ℝ) → Bool) (vs : List (Vec3 ℝ)) (cog : Vec3 ℝ) :
    (∃ r, find_three_points realFns hull vs cog false = .ok r)
    ∧ (direction realFns vs cog = 0 →
        second_axis realFns vs cog = second_axis_init realFns vs cog
        ∧ second_rotation realFns vs cog
          = ⟨(second_angles realFns vs cog).getD (ground_touch_vertex_id_3 realFns vs cog) 0,
              second_axis_init realFns vs cog⟩)
    ∧ ((first_rotation realFns vs cog).angle = 0 →
        ∀ v, (first_rotation realFns vs cog).rotate realFns v = v)
    ∧ ((second_rotation realFns vs cog).angle = 0 →
        ∀ v, (second_rotation realFns vs cog).rotate realFns v = v) := by
  refine ⟨⟨_, find_three_points_false hull vs cog⟩, ?_, ?_, ?_⟩
  · intro h0
    have hax : second_axis realFns vs cog = second_axis_init realFns vs cog := by
      unfold second_axis
      rw [h0, if_neg (lt_irrefl 0)]
    refine ⟨hax, ?_⟩
    unfold second_rotation
    rw [hax]
  · intro h0 v
    show ((first_rotation realFns vs cog).toRotationMatrix realFns).mulVec v = v
    rw [AngleAxis.toRotationMatrix_angle_zero _ h0, Mat3.identity_mulVec]
  · intro h0 v
    show ((second_rotation realFns vs cog).toRotationMatrix realFns).mulVec v = v
    rw [AngleAxis.toRotationMatrix_angle_zero _ h0, Mat3.identity_mulVec]

theorem prism_first_angle_zero :
    (first_rotation realFns (example_prism : List (Vec3 ℝ)) ⟨1, 0, 1⟩).angle = 0 := by
  show (first_angles realFns (example_prism : List (Vec3 ℝ)) ⟨1, 0, 1⟩).getD
    (ground_touch_vertex_id_2 realFns (example_prism : List (Vec3 ℝ)) ⟨1, 0, 1⟩) 0 = 0
  rw [prism_id2, prism_first_angle_1]

/-- C10, as amended, at the example wedge, whose second stage is degenerate, and at the
example prism, whose first angle is `0`. -/
theorem degenerate_stage_witness :
    (direction realFns (example_wedge : List (Vec3 ℝ)) ⟨1, 0, 1⟩ = 0
      ∧ second_axis realFns (example_wedge : List (Vec3 ℝ)) ⟨1, 0, 1⟩
        = second_axis_init realFns (example_wedge : List (Vec3 ℝ)) ⟨1, 0, 1⟩)
    ∧ ((first_rotation realFns (example_prism : List (Vec3 ℝ)) ⟨1, 0, 1⟩).angle = 0
      ∧ (first_rotation realFns (example_prism : List (Vec3 ℝ)) ⟨1, 0, 1⟩).rotate realFns
          ⟨4, 3, 0⟩ = ⟨4, 3, 0⟩) :=
  ⟨⟨wedge_direction,
      ((degenerate_stage (fun _ _ => true) example_wedge ⟨1, 0, 1⟩).2.1 wedge_direction).1⟩,
    ⟨prism_first_angle_zero,
      (degenerate_stage (fun _ _ => true) example_prism ⟨1, 0, 1⟩).2.2.1
        prism_first_angle_zero ⟨4, 3, 0⟩⟩⟩

end degenerate

end PlaceAction
